import Mathlib

/-!
# CloudIaC policy resolution: a shallow embedding of `portal/services/policy.go`

The relational store behind `*db.Session` is a record of tables (lists of rows); every
SQL query of the source is the corresponding list comprehension, joins being nested
iterations in table order.  A Go function returning `(values..., e.Error)` is a Lean
function returning the tuple `values × Option Error`; a nil slice and an empty slice
are both `[]`.  A store call that fails is driven by the `fault` field of the session.
-/

namespace Cloudiac

/-- Go `models.Id`, a string type. -/
abbrev models.Id := String

/-- Row of table `iac_policy` (`models.Policy`), with the fields the sources read. -/
structure Policy where
  Id : models.Id
  GroupId : models.Id := ""
  Name : String := ""
  RuleName : String := ""
  PolicyType : String := ""
  ResourceType : String := ""
  Severity : String := ""
  ReferenceId : String := ""
  Revision : Nat := 0
  Enabled : Bool := true
  Rego : String := ""
deriving DecidableEq, Repr

/-- Row of table `iac_policy_group` (`models.PolicyGroup`). -/
structure PolicyGroup where
  Id : models.Id
  Name : String := ""
  Enabled : Bool := true
deriving DecidableEq, Repr

/-- Row of table `iac_policy_rel` (`models.PolicyRel`): columns `org_id`, `project_id`,
`tpl_id`, `env_id`, `group_id`, `scope`, `enabled`. -/
structure PolicyRel where
  OrgId : models.Id := ""
  ProjectId : models.Id := ""
  TplId : models.Id := ""
  EnvId : models.Id := ""
  GroupId : models.Id := ""
  Scope : String := ""
  Enabled : Bool := true
deriving DecidableEq, Repr

/-- Modelled from the spec: the declaration of `models.PolicySuppress` is not among the
sources.  Section 3 of the specification gives a suppression record a `targetType`
(policy or policy group), a `targetId` (the suppressed policy or group) and the
suppression's own scope target: `targetType2` (env or template) with `envId` / `tplId`.
The queries of policy.go read the columns `policy_id`, `target_id`, `target_type`
(lines 739-745) and `env_id`, `tpl_id` (lines 175-178). -/
structure PolicySuppress where
  TargetType : String
  TargetId : models.Id
  TargetType2 : String := ""
  EnvId : models.Id := ""
  TplId : models.Id := ""
  PolicyId : models.Id := ""
deriving DecidableEq, Repr

/-- Row of table `iac_policy_result` (`models.PolicyResult`), with the columns the
queries read; `id` is the auto-increment key and `start_at` a time in seconds. -/
structure PolicyResult where
  Id : Nat
  PolicyId : models.Id := ""
  PolicyGroupId : models.Id := ""
  TaskId : models.Id := ""
  EnvId : models.Id := ""
  TplId : models.Id := ""
  Status : String := ""
  StartAt : Nat := 0
deriving DecidableEq, Repr

/-- Row of table `iac_env` (`models.Env`), with the columns the queries read. -/
structure Env where
  Id : models.Id
  Name : String := ""
  OrgId : models.Id := ""
  ProjectId : models.Id := ""
  LastScanTaskId : models.Id := ""
deriving DecidableEq, Repr

/-- Row of table `iac_template` (`models.Template`), with the columns the queries read. -/
structure Template where
  Id : models.Id
  Name : String := ""
  OrgId : models.Id := ""
  LastScanTaskId : models.Id := ""
deriving DecidableEq, Repr

namespace consts

/-- Value of `consts.ScopeEnv`.  The declaration is not among the sources; the value is
the literal that `suppressedQuery` (policy.go 175) compares `target_type` with, the
column `PolicyTargetSuppressSummary` (policy.go 740) compares with this constant. -/
def ScopeEnv : String := "env"

/-- Value of `consts.ScopeTemplate`.  The declaration is not among the sources; the value
is the literal that `suppressedQuery` (policy.go 178) compares `target_type` with. -/
def ScopeTemplate : String := "template"

/-- Modelled from the spec: the declaration of `consts.ScopePolicy` is not among the
sources; the scope names of the specification are rendered as lower-case strings. -/
def ScopePolicy : String := "policy"

/-- Modelled from the spec: the declaration of `consts.ScopePolicyGroup` is not among the
sources; the scope names of the specification are rendered as lower-case strings. -/
def ScopePolicyGroup : String := "policy_group"

/-- Modelled from the spec: the declaration of `consts.ScopeTask` is not among the
sources; the scope names of the specification are rendered as lower-case strings. -/
def ScopeTask : String := "task"

end consts

/-- Row of table `iac_scan_task` (`models.ScanTask`), with the fields `GetTaskPolicies`
reads. -/
structure ScanTask where
  Id : models.Id
  TplId : models.Id := ""
  EnvId : models.Id := ""
deriving DecidableEq, Repr

/-- Row of table `iac_project` (`models.Project`), with the columns the queries read. -/
structure Project where
  Id : models.Id
  OrgId : models.Id := ""
deriving DecidableEq, Repr

/-- Error reported by the storage driver for one query. -/
inductive DbErr where
  | RecordNotFound
  | Other (msg : String)
deriving DecidableEq, Repr

/-- Error codes of package `e` used by the policy services. -/
inductive ErrCode where
  | DBError
  | PolicyNotExist
  | TaskNotExists
  | PolicyGroupNotExist
  | ObjectNotExists
  | VcsError
  | InvalidPipeline
deriving DecidableEq, Repr

/-- Go `e.Error`: an error code wrapping the driver error (`e.New(code, err)`). -/
structure Error where
  code : ErrCode
  cause : DbErr
deriving DecidableEq, Repr

/-- The store queries issued by the policy resolution functions. -/
inductive Query where
  | templateEnabledScan
  | envEnabledScan
  | policiesByTemplateId
  | policiesByEnvId
  | policySuppress
  | policySummary
  | policyScanStatus
  | policyScanByTarget
  | policyTargetSummary
  | policyTargetSuppressSummary
  | scanTaskById
  | policyGroupById
  | policyReferenceId
deriving DecidableEq, Repr

/-- Go `PolicyScanSummary` (policy.go 429-433). -/
structure PolicyScanSummary where
  Id : models.Id
  Count : Nat
  Status : String
deriving DecidableEq, Repr

/-- Go `ScanStatus` (policy.go 468-472); `Date` is the day of `date(start_at)`. -/
structure ScanStatus where
  Date : Nat
  Count : Nat
  Status : String
deriving DecidableEq, Repr

/-- Go `*db.Session`: the tables, and for each query the driver error it ends with
(`none` when the query succeeds).  A statement built for an unknown `scope` has an empty
column name and cannot be evaluated over the tables: `malformed` and `malformedStatus`
hold what the store answers to it, the rows and the driver error of `Find` (a SQL store
rejects the statement). -/
structure Session where
  policies : List Policy := []
  policyGroups : List PolicyGroup := []
  policyRels : List PolicyRel := []
  policySuppresses : List PolicySuppress := []
  policyResults : List PolicyResult := []
  envs : List Env := []
  templates : List Template := []
  scanTasks : List ScanTask := []
  projects : List Project := []
  fault : Query → Option DbErr := fun _ => none
  malformed : Query → List PolicyScanSummary × Option DbErr :=
    fun _ => ([], some (DbErr.Other "SQL syntax"))
  malformedStatus : List ScanStatus × Option DbErr := ([], some (DbErr.Other "SQL syntax"))

/-- Source `IsTemplateEnabledScan` (policy.go 766-772):
`Where("tpl_id = ? and group_id = ''", tplId).Exists()`. -/
def IsTemplateEnabledScan (tx : Session) (tplId : models.Id) : Bool × Option Error :=
  match tx.fault Query.templateEnabledScan with
  | some err => (false, some ⟨ErrCode.DBError, err⟩)
  | none => (tx.policyRels.any (fun r => r.TplId == tplId && r.GroupId == ""), none)

/-- Source `IsEnvEnabledScan` (policy.go 774-780):
`Where("env_id = ? and group_id = ''", envId).Exists()`. -/
def IsEnvEnabledScan (tx : Session) (envId : models.Id) : Bool × Option Error :=
  match tx.fault Query.envEnabledScan with
  | some err => (false, some ⟨ErrCode.DBError, err⟩)
  | none => (tx.policyRels.any (fun r => r.EnvId == envId && r.GroupId == ""), none)

/-- Source `GetPoliciesByEnvId` (policy.go 194-209): `iac_policy` joined with
`iac_policy_group` on `group_id` and with `iac_policy_rel` on the group id, restricted to
`iac_policy_rel.env_id = envId and iac_policy_rel.scope = ScopeEnv`. -/
def GetPoliciesByEnvId (query : Session) (envId : models.Id) : List Policy × Option Error :=
  match query.fault Query.policiesByEnvId with
  | some err =>
    if err = DbErr.RecordNotFound then ([], some ⟨ErrCode.PolicyNotExist, err⟩)
    else ([], some ⟨ErrCode.DBError, err⟩)
  | none =>
    (query.policies.flatMap (fun p =>
      (query.policyGroups.filter (fun g => g.Id == p.GroupId)).flatMap (fun g =>
        (query.policyRels.filter (fun r =>
          r.GroupId == g.Id && (r.EnvId == envId && r.Scope == consts.ScopeEnv))).map
            (fun _ => p))), none)

/-- Source `GetPoliciesByTemplateId` (policy.go 211-226): the same join restricted to
`iac_policy_rel.tpl_id = tplId and iac_policy_rel.scope = ScopeTemplate`. -/
def GetPoliciesByTemplateId (query : Session) (tplId : models.Id) : List Policy × Option Error :=
  match query.fault Query.policiesByTemplateId with
  | some err =>
    if err = DbErr.RecordNotFound then ([], some ⟨ErrCode.PolicyNotExist, err⟩)
    else ([], some ⟨ErrCode.DBError, err⟩)
  | none =>
    (query.policies.flatMap (fun p =>
      (query.policyGroups.filter (fun g => g.Id == p.GroupId)).flatMap (fun g =>
        (query.policyRels.filter (fun r =>
          r.GroupId == g.Id && (r.TplId == tplId && r.Scope == consts.ScopeTemplate))).map
            (fun _ => p))), none)

/-- Type of `FilterSuppressPolicies(query, policies, targetId, scope)`, whose body is not
among the sources: it returns `(validPolicies, suppressedPolicies, err)`. -/
abbrev FilterFn :=
  Session → List Policy → models.Id → String → List Policy × List Policy × Option Error

/-- Type of `MergePolicies(policies1, policies2)`, whose body is not among the sources. -/
abbrev MergeFn := List Policy → List Policy → List Policy

/-- Lines 112-123 of `GetValidPolicies`: the template stage, giving
`(tplValidPolicies, tplSuppressedPolicies, err)`. -/
def GetValidPolicies.tplStage (filter : FilterFn) (query : Session) (tplId : models.Id) :
    List Policy × List Policy × Option Error :=
  match IsTemplateEnabledScan query tplId with
  | (_, some err) => ([], [], some err)
  | (enabled, none) =>
    if enabled then
      match GetPoliciesByTemplateId query tplId with
      | (_, some err) => ([], [], some err)
      | (tplPolicies, none) =>
        match filter query tplPolicies tplId consts.ScopeTemplate with
        | (_, _, some err) => ([], [], some err)
        | (tplValidPolicies, tplSuppressedPolicies, none) =>
          (tplValidPolicies, tplSuppressedPolicies, none)
    else ([], [], none)

/-- Source `GetValidPolicies` (policy.go 104-158).  The named results `validPolicies`
and `suppressedPolicies` are still nil at every early `return` but the one after the
second `FilterSuppressPolicies`, which has already assigned `validPolicies`. -/
def GetValidPolicies (filter : FilterFn) (merge : MergeFn) (query : Session)
    (tplId envId : models.Id) :
    List Policy × List Policy × Option Error :=
  match GetValidPolicies.tplStage filter query tplId with
  | (_, _, some err) => ([], [], some err)
  | (tplValidPolicies, tplSuppressedPolicies, none) =>
    match IsEnvEnabledScan query envId with
    | (_, some err) => ([], [], some err)
    | (enabled, none) =>
      if envId ≠ "" ∧ enabled = true then
        match GetPoliciesByEnvId query envId with
        | (_, some err) => ([], [], some err)
        | (envPolicies, none) =>
          let policies := merge tplValidPolicies envPolicies
          match filter query policies envId consts.ScopeEnv with
          | (validPolicies, _, some err) => (validPolicies, [], some err)
          | (validPolicies, envSuppressedPolicies, none) =>
            let envValidPoliciesMap : List models.Id := envPolicies.map Policy.Id
            let suppressedPolicies :=
              tplSuppressedPolicies.filter (fun policy => !envValidPoliciesMap.contains policy.Id)
            (validPolicies, merge suppressedPolicies envSuppressedPolicies, none)
      else (tplValidPolicies, tplSuppressedPolicies, none)

/-- Modelled from the spec: `FetchSuppressions(target, scope)` of section 6, the
suppression records whose own scope target is `(scope, targetId)`: `targetType2` is the
scope, and `envId` (env scope) or `tplId` (template scope) is the target. -/
def FetchSuppressions (query : Session) (targetId : models.Id) (scope : String) :
    List PolicySuppress :=
  query.policySuppresses.filter (fun r =>
    r.TargetType2 == scope &&
      ((scope == consts.ScopeEnv && r.EnvId == targetId) ||
        (scope == consts.ScopeTemplate && r.TplId == targetId)))

/-- Modelled from the spec: section 4.2, a policy is suppressed for a target and scope
iff (a) a suppression record of that target and scope names the policy id directly, or
(b) one names the policy's group id (group-level suppression). -/
def IsSuppressedBy (sups : List PolicySuppress) (p : Policy) : Bool :=
  sups.any (fun r =>
    (r.TargetType == consts.ScopePolicy && r.TargetId == p.Id) ||
      (r.TargetType == consts.ScopePolicyGroup && r.TargetId == p.GroupId))

/-- Modelled from the spec: `FilterSuppressPolicies` (section 4.2, `Partition`) is called by
`GetValidPolicies` but its body is not among the sources.  Every input policy is placed
in `valid` or in `suppressed` according to `IsSuppressedBy`; a storage error propagates
as a database-kind error; an empty input yields two empty outputs and no error. -/
def FilterSuppressPolicies : FilterFn := fun query policies targetId scope =>
  if policies = [] then ([], [], none)
  else
    match query.fault Query.policySuppress with
    | some err => ([], [], some ⟨ErrCode.DBError, err⟩)
    | none =>
      let sups := FetchSuppressions query targetId scope
      (policies.filter (fun p => !IsSuppressedBy sups p),
        policies.filter (fun p => IsSuppressedBy sups p), none)

/-- Keeps the first policy of each id. -/
def dedupById : List Policy → List Policy
  | [] => []
  | p :: ps => p :: (dedupById ps).filter (fun q => q.Id != p.Id)

/-- Modelled from the spec: `MergePolicies` (section 4.3 step 3, `Union` deduplicated by
policy identity) is called by `GetValidPolicies` but its body is not among the sources:
the policies of the first list, plus those of the second whose id is new. -/
def MergePolicies : MergeFn := fun policies1 policies2 =>
  dedupById (policies1 ++ policies2)

/-- `FilterSuppressPolicies` partitions its input: each input policy is in exactly one
output and nothing else is added. -/
def FilterPartitions (filter : FilterFn) : Prop :=
  ∀ query policies targetId scope valid suppressed,
    filter query policies targetId scope = (valid, suppressed, none) →
      (valid ++ suppressed).Perm policies ∧ List.Disjoint valid suppressed

/-- `MergePolicies` is the union deduplicated by policy id: the result has one policy per
id, every result policy comes from an argument, and every argument id is kept. -/
def MergeIsUnionById (merge : MergeFn) : Prop :=
  ∀ a b, ((merge a b).map Policy.Id).Nodup ∧ (∀ p ∈ merge a b, p ∈ a ∨ p ∈ b) ∧
    (∀ p, p ∈ a ∨ p ∈ b → p.Id ∈ (merge a b).map Policy.Id)

/-- Column `id` is the primary key of `iac_policy`: no two rows share an id. -/
@[reducible]
def PolicyPrimaryKey (query : Session) : Prop :=
  (query.policies.map Policy.Id).Nodup

/-- The claim's reading of template scan enablement: the store holds a relation for the
template with empty group id and `enabled = true`. -/
def TemplateScanRelEnabled (tx : Session) (tplId : models.Id) : Bool :=
  tx.policyRels.any (fun r => r.TplId == tplId && r.GroupId == "" && r.Enabled)

/-- The claim's reading of environment scan enablement: the store holds a relation for
the environment with empty group id and `enabled = true`. -/
def EnvScanRelEnabled (tx : Session) (envId : models.Id) : Bool :=
  tx.policyRels.any (fun r => r.EnvId == envId && r.GroupId == "" && r.Enabled)

/-- A store whose only relations for template `T1` and for environment `E1` are their
empty-group markers, both switched off. -/
def disabledMarkerStore : Session :=
  { policyRels :=
      [{ TplId := "T1", Scope := consts.ScopeTemplate, Enabled := false },
       { EnvId := "E1", Scope := consts.ScopeEnv, Enabled := false }] }

/-- The claim's reading of a template binding: a relation of the policy's group to the
template with scope template and `enabled = true`. -/
def EnabledTemplateRel (query : Session) (p : Policy) (tplId : models.Id) : Bool :=
  query.policyRels.any (fun r =>
    r.GroupId == p.GroupId && r.TplId == tplId && r.Scope == consts.ScopeTemplate && r.Enabled)

/-- A store in which the group of `P1` is related to template `T1` only through a
disabled relation. -/
def disabledRelStore : Session :=
  { policies := [{ Id := "P1", GroupId := "G1", Severity := "high" }]
    policyGroups := [{ Id := "G1" }]
    policyRels :=
      [{ TplId := "T1", GroupId := "G1", Scope := consts.ScopeTemplate, Enabled := false }] }

/-- Policy `P1` of the scenario of section 8 (severity high, group `G1`). -/
def policyP1 : Policy := { Id := "P1", GroupId := "G1", Severity := "high" }

/-- Policy `P2` of the scenario of section 8 (group `G2`). -/
def policyP2 : Policy := { Id := "P2", GroupId := "G2", Severity := "low" }

/-- The scenario of section 8: template `T1` has scanning on and binds the groups of `P1`
and `P2`, `P2` is suppressed at template scope; environment `E1` has scanning on and
binds the group of `P2` with no suppression at environment scope. -/
def scenarioStore : Session :=
  { policies := [policyP1, policyP2]
    policyGroups := [{ Id := "G1", Name := "group-1" }, { Id := "G2", Name := "group-2" }]
    policyRels :=
      [{ TplId := "T1", Scope := consts.ScopeTemplate },
       { TplId := "T1", GroupId := "G1", Scope := consts.ScopeTemplate },
       { TplId := "T1", GroupId := "G2", Scope := consts.ScopeTemplate },
       { EnvId := "E1", Scope := consts.ScopeEnv },
       { EnvId := "E1", GroupId := "G2", Scope := consts.ScopeEnv }]
    policySuppresses :=
      [{ TargetType := consts.ScopePolicy, TargetId := "P2",
         TargetType2 := consts.ScopeTemplate, TplId := "T1" }] }

/-- Policy `P3` (group `G3`). -/
def policyP3 : Policy := { Id := "P3", GroupId := "G3", Severity := "medium" }

/-- A store with both layers active: template `T1` binds `P1`, `P2`, `P3` and suppresses
`P2` and `P3`; environment `E1` binds `P2` again and suppresses `P1` at environment scope. -/
def layeredStore : Session :=
  { policies := [policyP1, policyP2, policyP3]
    policyGroups := [{ Id := "G1" }, { Id := "G2" }, { Id := "G3" }]
    policyRels :=
      [{ TplId := "T1", Scope := consts.ScopeTemplate },
       { TplId := "T1", GroupId := "G1", Scope := consts.ScopeTemplate },
       { TplId := "T1", GroupId := "G2", Scope := consts.ScopeTemplate },
       { TplId := "T1", GroupId := "G3", Scope := consts.ScopeTemplate },
       { EnvId := "E1", Scope := consts.ScopeEnv },
       { EnvId := "E1", GroupId := "G2", Scope := consts.ScopeEnv }]
    policySuppresses :=
      [{ TargetType := consts.ScopePolicy, TargetId := "P2",
         TargetType2 := consts.ScopeTemplate, TplId := "T1" },
       { TargetType := consts.ScopePolicyGroup, TargetId := "G3",
         TargetType2 := consts.ScopeTemplate, TplId := "T1" },
       { TargetType := consts.ScopePolicy, TargetId := "P1",
         TargetType2 := consts.ScopeEnv, EnvId := "E1" }] }

/-- The session in which the query of `GetPoliciesByEnvId` fails with `err`, everything
else being as in `query`. -/
def failPoliciesByEnvId (query : Session) (err : DbErr) : Session :=
  { query with
    fault := fun q => if q = Query.policiesByEnvId then some err else query.fault q }

/-- `FilterSuppressPolicies` returns no partial result alongside an error (section 7 of
the specification): when it fails, both of its lists are empty. -/
def FilterErrorsEmpty (filter : FilterFn) : Prop :=
  ∀ query policies targetId scope valid suppressed err,
    filter query policies targetId scope = (valid, suppressed, some err) →
      valid = [] ∧ suppressed = []

/-- The error of a statement a SQL database rejects, wrapped as `DBError`. -/
def sqlSyntaxError : Error := ⟨ErrCode.DBError, DbErr.Other "SQL syntax"⟩

/-- The error handling after `q.Find` (policy.go 458-463, 489-494, 561-566, 756-761), on
what the store answered: a record-not-found error gives no rows and a nil error, any
other error no rows and the error wrapped as `DBError`; without an error the rows are
returned. -/
def findResult {α : Type} (answer : List α × Option DbErr) : List α × Option Error :=
  match answer.2 with
  | some err =>
    if err = DbErr.RecordNotFound then ([], none) else ([], some ⟨ErrCode.DBError, err⟩)
  | none => (answer.1, none)

/-- The `switch scope` of `PolicySummary` (policy.go 437-445): the column `key`. -/
def PolicySummary.key (scope : String) : Option (PolicyResult → models.Id) :=
  if scope = consts.ScopePolicy then some PolicyResult.PolicyId
  else if scope = consts.ScopePolicyGroup then some PolicyResult.PolicyGroupId
  else if scope = consts.ScopeTask then some PolicyResult.TaskId
  else none

/-- The `GROUP BY` columns of the sub-query of `PolicySummary` (policy.go 448-452):
`key,env_id,tpl_id,policy_id` for task scope, `key,env_id,tpl_id` otherwise. -/
def PolicySummary.groupKey (scope : String) (key : PolicyResult → models.Id)
    (r : PolicyResult) : models.Id × models.Id × models.Id × models.Id :=
  if scope = consts.ScopeTask then (key r, r.EnvId, r.TplId, r.PolicyId)
  else (key r, r.EnvId, r.TplId, "")

/-- SQL `max(id)` over a group of rows. -/
def maxId (rs : List PolicyResult) : Nat :=
  (rs.map PolicyResult.Id).foldr max 0

/-- The sub-query of `PolicySummary` (policy.go 446-452):
`SELECT max(id) WHERE key IN (ids) GROUP BY ...`. -/
def PolicySummary.subQuery (rows : List PolicyResult) (ids : List models.Id) (scope : String)
    (key : PolicyResult → models.Id) : List Nat :=
  let selected := rows.filter (fun r => ids.contains (key r))
  ((selected.map (PolicySummary.groupKey scope key)).dedup).map (fun g =>
    maxId (selected.filter (fun r => PolicySummary.groupKey scope key r == g)))

/-- The rows that `PolicySummary` counts: `WHERE id IN (subQuery)` (policy.go 455). -/
def PolicySummary.counted (rows : List PolicyResult) (ids : List models.Id) (scope : String)
    (key : PolicyResult → models.Id) : List PolicyResult :=
  rows.filter (fun r => (PolicySummary.subQuery rows ids scope key).contains r.Id)

/-- SQL `SELECT key as id, count(*) as count, status ... GROUP BY key,status`. -/
def groupCount (rows : List PolicyResult) (key : PolicyResult → models.Id) :
    List PolicyScanSummary :=
  let pairs := rows.map (fun r => (key r, r.Status))
  pairs.dedup.map (fun ks =>
    ⟨ks.1, rows.countP (fun r => key r == ks.1 && r.Status == ks.2), ks.2⟩)

/-- Source `PolicySummary` (policy.go 435-466).  A record-not-found error gives
`nil, nil`; any other error is wrapped as `DBError`.  The function does not check
`scope`: for an unknown one the statement has an empty column name, and the result is
what the store answers to it. -/
def PolicySummary (query : Session) (ids : List models.Id) (scope : String) :
    List PolicyScanSummary × Option Error :=
  match PolicySummary.key scope with
  | none => findResult (query.malformed Query.policySummary)
  | some key =>
    match query.fault Query.policySummary with
    | some err =>
      if err = DbErr.RecordNotFound then ([], none) else ([], some ⟨ErrCode.DBError, err⟩)
    | none => (groupCount (PolicySummary.counted query.policyResults ids scope key) key, none)

/-- The count a summary reports for scope-key `k` and status `s` (0 when absent). -/
def summaryCount (summary : List PolicyScanSummary) (k : models.Id) (s : String) : Nat :=
  ((summary.filter (fun x => x.Id == k && x.Status == s)).map PolicyScanSummary.Count).sum

/-- The total a summary reports for scope-key `k` over all statuses. -/
def summaryTotal (summary : List PolicyScanSummary) (k : models.Id) : Nat :=
  ((summary.filter (fun x => x.Id == k)).map PolicyScanSummary.Count).sum

/-- Column `id` is the primary key of `iac_policy_result`: row ids are unique. -/
@[reducible]
def ResultPrimaryKey (query : Session) : Prop :=
  (query.policyResults.map PolicyResult.Id).Nodup

/-- The scopes `PolicySummary` is defined for. -/
@[reducible]
def SummaryScope (scope : String) : Prop :=
  scope = consts.ScopePolicy ∨ scope = consts.ScopePolicyGroup ∨ scope = consts.ScopeTask

/-- The scope-key of a result row, in the claim's words: the task id at task scope, the
policy group id at policy-group scope, the policy id at policy scope. -/
def scopeKey (scope : String) (r : PolicyResult) : models.Id :=
  if scope = consts.ScopeTask then r.TaskId
  else if scope = consts.ScopePolicyGroup then r.PolicyGroupId
  else if scope = consts.ScopePolicy then r.PolicyId
  else ""

/-- The grouping key of a result row, in the claim's words: (scope-key, env id, tpl id,
policy id) at task scope, (scope-key, env id, tpl id) at policy-group and at policy
scope, written as the list of its columns. -/
def groupingKey (scope : String) (r : PolicyResult) : List models.Id :=
  if scope = consts.ScopeTask then [r.TaskId, r.EnvId, r.TplId, r.PolicyId]
  else if scope = consts.ScopePolicyGroup then [r.PolicyGroupId, r.EnvId, r.TplId]
  else if scope = consts.ScopePolicy then [r.PolicyId, r.EnvId, r.TplId]
  else []

/-- The claim's count for `(k, s)`: the number of distinct grouping keys, among the rows
whose scope-key is in `ids`, whose maximum-id row has scope-key `k` and status `s`. -/
def latestCount (rows : List PolicyResult) (ids : List models.Id) (scope : String)
    (k : models.Id) (s : String) : Nat :=
  let selected := rows.filter (fun r => ids.contains (scopeKey scope r))
  let groups := (selected.map (groupingKey scope)).dedup
  (groups.filter (fun g =>
    selected.any (fun x =>
      groupingKey scope x == g &&
      selected.all (fun y => groupingKey scope y != g || decide (y.Id ≤ x.Id)) &&
      scopeKey scope x == k && x.Status == s))).length

/-- The claim's currently counted row of a grouping key: a row of the log whose scope-key
is in `ids` and whose id is the largest among the rows of its grouping key. -/
@[reducible]
def CountedRow (rows : List PolicyResult) (ids : List models.Id) (scope : String)
    (m : PolicyResult) : Prop :=
  m ∈ rows ∧ ids.contains (scopeKey scope m) = true ∧
    ∀ y ∈ rows, groupingKey scope y = groupingKey scope m → y.Id ≤ m.Id

/-- The session after one more row is inserted into `iac_policy_result`. -/
def insertResult (query : Session) (r : PolicyResult) : Session :=
  { query with policyResults := query.policyResults ++ [r] }

/-- The log of the scenario of section 8: three results of policy `P1` on environment
`E1`, with ids 10 (violated), 14 (passed) and 9 (failed). -/
def scenarioLog : Session :=
  { policyResults :=
      [{ Id := 10, PolicyId := "P1", PolicyGroupId := "G1", TaskId := "run-1", EnvId := "E1",
         TplId := "T1", Status := "violated" },
       { Id := 14, PolicyId := "P1", PolicyGroupId := "G1", TaskId := "run-2", EnvId := "E1",
         TplId := "T1", Status := "passed" },
       { Id := 9, PolicyId := "P1", PolicyGroupId := "G1", TaskId := "run-0", EnvId := "E1",
         TplId := "T1", Status := "failed" }] }

/-- Row `x` is the latest of its group: its scope-key is in `ids` and no row of the same
grouping key has a larger id. -/
def PolicySummary.IsLatest (rows : List PolicyResult) (ids : List models.Id) (scope : String)
    (key : PolicyResult → models.Id) (x : PolicyResult) : Prop :=
  ids.contains (key x) = true ∧
    ∀ y ∈ rows, PolicySummary.groupKey scope key y = PolicySummary.groupKey scope key x →
      y.Id ≤ x.Id

/-- A log with several policies and targets: ids 1 and 3 are results of `P1` on `E1`,
id 2 of `P2` on `E1`, id 4 of `P1` on `E2`. -/
def mixedLog : Session :=
  { policyResults :=
      [{ Id := 1, PolicyId := "P1", PolicyGroupId := "G1", TaskId := "run-1", EnvId := "E1",
         TplId := "T1", Status := "passed" },
       { Id := 2, PolicyId := "P2", PolicyGroupId := "G1", TaskId := "run-1", EnvId := "E1",
         TplId := "T1", Status := "violated" },
       { Id := 3, PolicyId := "P1", PolicyGroupId := "G1", TaskId := "run-2", EnvId := "E1",
         TplId := "T1", Status := "violated" },
       { Id := 4, PolicyId := "P1", PolicyGroupId := "G1", TaskId := "run-3", EnvId := "E2",
         TplId := "T1", Status := "passed" }] }

/-- A log in which two tasks each evaluated policy `P1` on environment `E1`. -/
def twoTaskLog : Session :=
  { policyResults :=
      [{ Id := 1, PolicyId := "P1", PolicyGroupId := "G1", TaskId := "run-1", EnvId := "E1",
         TplId := "T1", Status := "passed" },
       { Id := 2, PolicyId := "P1", PolicyGroupId := "G1", TaskId := "run-2", EnvId := "E1",
         TplId := "T1", Status := "passed" }] }

/-- The `switch scope` of `PolicyTargetSummary` (policy.go 545-552): the column `key` and
the joined table, as its rows `(id, last_scan_task_id)`. -/
def PolicyTargetSummary.target (query : Session) (scope : String) :
    Option ((PolicyResult → models.Id) × List (models.Id × models.Id)) :=
  if scope = consts.ScopeEnv then
    some (PolicyResult.EnvId, query.envs.map (fun e => (e.Id, e.LastScanTaskId)))
  else if scope = consts.ScopeTemplate then
    some (PolicyResult.TplId, query.templates.map (fun t => (t.Id, t.LastScanTaskId)))
  else none

/-- The rows that `PolicyTargetSummary` counts (policy.go 553-557): `iac_policy_result`
joined with the target table on `table.id = key and table.last_scan_task_id = task_id`,
restricted to `key IN (ids)`. -/
def PolicyTargetSummary.counted (rows : List PolicyResult)
    (table : List (models.Id × models.Id)) (ids : List models.Id)
    (key : PolicyResult → models.Id) : List PolicyResult :=
  (rows.flatMap (fun r =>
    (table.filter (fun t => t.1 == key r && t.2 == r.TaskId)).map (fun _ => r))).filter
      (fun r => ids.contains (key r))

/-- Source `PolicyTargetSummary` (policy.go 539-569).  The function does not check
`scope`: for an unknown one `key` and `table` stay empty, and the result is what the
store answers to the statement built with them. -/
def PolicyTargetSummary (query : Session) (ids : List models.Id) (scope : String) :
    List PolicyScanSummary × Option Error :=
  match PolicyTargetSummary.target query scope with
  | none => findResult (query.malformed Query.policyTargetSummary)
  | some (key, table) =>
    match query.fault Query.policyTargetSummary with
    | some err =>
      if err = DbErr.RecordNotFound then ([], none) else ([], some ⟨ErrCode.DBError, err⟩)
    | none => (groupCount (PolicyTargetSummary.counted query.policyResults table ids key) key,
        none)

/-- SQL `date(start_at)`: the day a time in seconds falls on. -/
def dateOf (startAt : Nat) : Nat := startAt / 86400

/-- The `switch scope` of `GetPolicyScanStatus` (policy.go 475-481). -/
def GetPolicyScanStatus.key (scope : String) : Option (PolicyResult → models.Id) :=
  if scope = consts.ScopePolicyGroup then some PolicyResult.PolicyGroupId
  else if scope = consts.ScopePolicy then some PolicyResult.PolicyId
  else none

/-- SQL `SELECT count(*) as count, date(start_at) as date, status ...
GROUP BY date(start_at), status ORDER BY date(start_at)`. -/
def groupByDate (rows : List PolicyResult) : List ScanStatus :=
  let pairs := rows.map (fun r => (dateOf r.StartAt, r.Status))
  (pairs.dedup.map (fun ds =>
    (⟨ds.1, rows.countP (fun r => dateOf r.StartAt == ds.1 && r.Status == ds.2), ds.2⟩ :
      ScanStatus))).insertionSort (fun a b => a.Date ≤ b.Date)

/-- Source `GetPolicyScanStatus` (policy.go 474-497): rows of the window `[from, to)` (here `fromTime`, `toTime`)
with `key = id`, of every status.  The function does not check `scope`: for an unknown
one the condition has an empty column name, and the result is what the store answers to
the statement. -/
def GetPolicyScanStatus (query : Session) (id : models.Id) (fromTime toTime : Nat) (scope : String) :
    List ScanStatus × Option Error :=
  match GetPolicyScanStatus.key scope with
  | none => findResult query.malformedStatus
  | some key =>
    match query.fault Query.policyScanStatus with
    | some err =>
      if err = DbErr.RecordNotFound then ([], none) else ([], some ⟨ErrCode.DBError, err⟩)
    | none =>
      (groupByDate (query.policyResults.filter (fun r =>
        decide (fromTime ≤ r.StartAt) && decide (r.StartAt < toTime) && key r == id)), none)

/-- Go `ScanStatusByTarget` (policy.go 499-504). -/
structure ScanStatusByTarget where
  ID : String
  Count : Nat
  Status : String
  Name : String
deriving DecidableEq, Repr

/-- SQL `LEFT JOIN`: the names of the matching rows, or one NULL when none matches. -/
def leftJoinNames (names : List String) : List (Option String) :=
  if names = [] then [none] else names.map some

/-- The outer query of `GetPolicyScanByTarget` (policy.go 513-517) over the grouped rows
`(count, tpl_id, env_id)`: the name is the template's when `env_id` is empty and the
environment's otherwise (NULL scans as the empty string); the selected columns fill
only `Count` and `Name`; `ORDER BY count desc LIMIT showCount`. -/
def scanByTargetRows (query : Session) (groups : List (Nat × models.Id × models.Id))
    (showCount : Nat) : List ScanStatusByTarget :=
  ((groups.flatMap (fun g =>
    (leftJoinNames ((query.envs.filter (fun e => e.Id == g.2.2)).map Env.Name)).flatMap
      (fun en =>
        (leftJoinNames ((query.templates.filter (fun t => t.Id == g.2.1)).map
          Template.Name)).map (fun tn =>
            (⟨"", g.1, "", ((if g.2.2 = "" then tn else en).getD "")⟩ :
              ScanStatusByTarget))))).insertionSort
    (fun a b => b.Count ≤ a.Count)).take showCount

/-- Source `GetPolicyScanByTarget` (policy.go 506-527): rows of the window with
`policy_id = policyId` and `status != 'pending'`, grouped by `tpl_id, env_id`. -/
def GetPolicyScanByTarget (query : Session) (policyId : models.Id) (fromTime toTime : Nat)
    (showCount : Nat) : List ScanStatusByTarget × Option Error :=
  match query.fault Query.policyScanByTarget with
  | some err =>
    if err = DbErr.RecordNotFound then ([], none) else ([], some ⟨ErrCode.DBError, err⟩)
  | none =>
    let rows := query.policyResults.filter (fun r =>
      (decide (fromTime ≤ r.StartAt) && decide (r.StartAt < toTime) && r.PolicyId == policyId) &&
        r.Status != "pending")
    let targets := (rows.map (fun r => (r.TplId, r.EnvId))).dedup
    let groups := targets.map (fun te =>
      (rows.countP (fun r => r.TplId == te.1 && r.EnvId == te.2), te.1, te.2))
    (scanByTargetRows query groups showCount, none)

/-- The log without its pending rows. -/
def removePending (query : Session) : Session :=
  { query with policyResults := query.policyResults.filter (fun r => r.Status != "pending") }

/-- The `switch scope` of `PolicyTargetSuppressSummary` (policy.go 730-736): the column
`key` of `iac_policy_rel`. -/
def PolicyTargetSuppressSummary.key (scope : String) : Option (PolicyRel → models.Id) :=
  if scope = consts.ScopeEnv then some PolicyRel.EnvId
  else if scope = consts.ScopeTemplate then some PolicyRel.TplId
  else none

/-- The rows `(policy_id, target_id, target_type)` of `suppressBySourceQuery`
(policy.go 738-740): suppressions recorded against a target in `ids`. -/
def suppressBySource (query : Session) (ids : List models.Id) (scope : String) :
    List (models.Id × models.Id × String) :=
  (query.policySuppresses.filter (fun s => s.TargetType == scope && ids.contains s.TargetId)).map
    (fun s => (s.PolicyId, s.TargetId, s.TargetType))

/-- The rows `(policy_id, target_id, target_type)` of `suppressByPolicyQuery`
(policy.go 742-746): `iac_policy` joined with `iac_policy_rel` on the group id and with
`iac_policy_suppress` on `iac_policy.id = target_id`, for relations to a target in `ids`. -/
def suppressByPolicy (query : Session) (ids : List models.Id)
    (key : PolicyRel → models.Id) : List (models.Id × models.Id × String) :=
  (query.policies.flatMap (fun p =>
    (query.policyRels.filter (fun rel => rel.GroupId == p.GroupId)).flatMap (fun rel =>
      (query.policySuppresses.filter (fun s => p.Id == s.TargetId)).map (fun s =>
        (p.Id, key rel, s.TargetType))))).filter (fun row => ids.contains row.2.1)

/-- The outer queries of `PolicyTargetSuppressSummary` (policy.go 748-753): `UNION`,
`SELECT DISTINCT policy_id, target_id`, then `count(*) ... GROUP BY target_id`. -/
def countSuppressed (rows : List (models.Id × models.Id × String)) :
    List PolicyScanSummary :=
  let distinct := (rows.dedup.map (fun row => (row.1, row.2.1))).dedup
  ((distinct.map Prod.snd).dedup).map (fun t =>
    ⟨t, distinct.countP (fun pt => pt.2 == t), "suppressed"⟩)

/-- Source `PolicyTargetSuppressSummary` (policy.go 728-764).  The function does not
check `scope`: for an unknown one `key` stays empty, and the result is what the store
answers to the statement built with it. -/
def PolicyTargetSuppressSummary (query : Session) (ids : List models.Id) (scope : String) :
    List PolicyScanSummary × Option Error :=
  match PolicyTargetSuppressSummary.key scope with
  | none => findResult (query.malformed Query.policyTargetSuppressSummary)
  | some key =>
    match query.fault Query.policyTargetSuppressSummary with
    | some err =>
      if err = DbErr.RecordNotFound then ([], none) else ([], some ⟨ErrCode.DBError, err⟩)
    | none =>
      (countSuppressed (suppressBySource query ids scope ++ suppressByPolicy query ids key),
        none)

/-- The claim's count for a target: the number of distinct policy ids in the union of the
two suppression sources for that target. -/
def suppressedPolicyCount (query : Session) (ids : List models.Id) (scope : String)
    (key : PolicyRel → models.Id) (target : models.Id) : Nat :=
  ((((suppressBySource query ids scope ++ suppressByPolicy query ids key).filter
    (fun row => row.2.1 == target)).map (fun row => row.1)).dedup).length

/-- Column `id` is the primary key of the target table: no two rows share an id. -/
@[reducible]
def TargetPrimaryKey (table : List (models.Id × models.Id)) : Prop :=
  (table.map Prod.fst).Nodup

/-- Environment `E1` whose last scan task `run-2` left two result rows for policy `P1`;
an older task `run-1` left a row with a larger id. -/
def lastTaskLog : Session :=
  { envs := [{ Id := "E1", Name := "env-1", LastScanTaskId := "run-2" }]
    policyResults :=
      [{ Id := 1, PolicyId := "P1", TaskId := "run-2", EnvId := "E1", TplId := "T1",
         Status := "passed" },
       { Id := 2, PolicyId := "P1", TaskId := "run-2", EnvId := "E1", TplId := "T1",
         Status := "passed" },
       { Id := 3, PolicyId := "P1", TaskId := "run-1", EnvId := "E1", TplId := "T1",
         Status := "violated" }] }

/-- A log of policy `P1` on day 0: one passed and one pending result. -/
def pendingLog : Session :=
  { envs := [{ Id := "E1", Name := "env-1" }]
    policyResults :=
      [{ Id := 1, PolicyId := "P1", EnvId := "E1", TplId := "T1", Status := "passed",
         StartAt := 100 },
       { Id := 2, PolicyId := "P1", EnvId := "E1", TplId := "T1", Status := "pending",
         StartAt := 200 }] }

/-- A store in which policy `P1` is suppressed for environment `E1` twice: by a record
against the environment, and by a record against the policy, whose group is bound to
`E1`; policy `P2` is suppressed for `E1` by a record against the environment only. -/
def suppressStore : Session :=
  { policies := [policyP1, policyP2]
    policyRels := [{ EnvId := "E1", GroupId := "G1", Scope := consts.ScopeEnv }]
    policySuppresses :=
      [{ PolicyId := "P1", TargetId := "E1", TargetType := consts.ScopeEnv },
       { PolicyId := "P1", TargetId := "P1", TargetType := consts.ScopePolicy },
       { PolicyId := "P2", TargetId := "E1", TargetType := consts.ScopeEnv }] }

/-- The claim's reading of an active binding: a relation of the policy's group to the
target with `enabled = true`. -/
def EnabledRelTo (query : Session) (key : PolicyRel → models.Id) (p : Policy)
    (target : models.Id) : Bool :=
  query.policyRels.any (fun rel => rel.GroupId == p.GroupId && key rel == target && rel.Enabled)

/-- A store in which policy `P1` is suppressed by a record against the policy, and the
only relation of its group to environment `E1` is disabled. -/
def disabledBindingStore : Session :=
  { policies := [policyP1]
    policyRels := [{ EnvId := "E1", GroupId := "G1", Scope := consts.ScopeEnv, Enabled := false }]
    policySuppresses :=
      [{ PolicyId := "P1", TargetId := "P1", TargetType := consts.ScopePolicy }] }

/-- Result of a lookup by id that can fail (`First`): the row, or the error of the
lookup;  `notFound` is the code given to a record-not-found error. -/
def lookupById {α : Type} (fault : Option DbErr) (row : Option α) (notFound : ErrCode) :
    Option α × Option Error :=
  match fault with
  | some err =>
    if err = DbErr.RecordNotFound then (none, some ⟨notFound, err⟩)
    else (none, some ⟨ErrCode.DBError, err⟩)
  | none =>
    match row with
    | some r => (some r, none)
    | none => (none, some ⟨notFound, DbErr.RecordNotFound⟩)

/-- Go `GetScanTaskById`, called by `GetTaskPolicies`.  Its body is not among the
sources; it is written as the lookup `GetPolicyById` (policy.go 54-63) is: the row with
the id in `iac_scan_task`, a not-found error when there is none, a database error when
the store fails. -/
def GetScanTaskById (query : Session) (taskId : models.Id) :
    Option ScanTask × Option Error :=
  lookupById (query.fault Query.scanTaskById)
    (query.scanTasks.find? (fun t => t.Id == taskId)) ErrCode.TaskNotExists

/-- Go `GetPolicyGroupById`, called by `GetTaskPolicies`.  Its body is not among the
sources; it is written as the lookup `GetPolicyById` (policy.go 54-63) is: the row with
the id in `iac_policy_group`, a not-found error when there is none, a database error
when the store fails. -/
def GetPolicyGroupById (query : Session) (id : models.Id) : Option PolicyGroup × Option Error :=
  lookupById (query.fault Query.policyGroupById)
    (query.policyGroups.find? (fun g => g.Id == id)) ErrCode.PolicyGroupNotExist

/-- Go `strings.ToUpper` on the ASCII letters, which the severities are written in; Go
also maps the letters outside ASCII, which are left as they are here. -/
def strings.ToUpper (s : String) : String := ⟨s.data.map Char.toUpper⟩

/-- The `meta` map built by `GetTaskPolicies` (policy.go 84-94), one field per key. -/
structure TaskPolicyMeta where
  name : String
  file : String
  policy_type : String
  resource_type : String
  severity : String
  reference_id : String
  category : String
  version : Nat
  id : String
deriving DecidableEq, Repr

/-- Go `runner.TaskPolicy` (runner/types.go 74-78). -/
structure TaskPolicy where
  PolicyId : String
  Meta : TaskPolicyMeta
  Rego : String
deriving DecidableEq, Repr

/-- The body of the loop of `GetTaskPolicies` (policy.go 78-99): the error of the group
lookup is discarded (`group, _ :=`), and a nil group leaves the category `general`. -/
def GetTaskPolicies.taskPolicy (query : Session) (policy : Policy) : TaskPolicy :=
  let category :=
    match (GetPolicyGroupById query policy.GroupId).1 with
    | some group => group.Name
    | none => "general"
  { PolicyId := policy.Id
    Meta :=
      { name := policy.RuleName
        file := "policy.rego"
        policy_type := policy.PolicyType
        resource_type := policy.ResourceType
        severity := strings.ToUpper policy.Severity
        reference_id := policy.ReferenceId
        category := category
        version := policy.Revision
        id := policy.Id }
    Rego := policy.Rego }

/-- Source `GetTaskPolicies` (policy.go 65-102).  A lookup gives a row or an error, so the
case of a nil task with a nil error does not occur. -/
def GetTaskPolicies (filter : FilterFn) (merge : MergeFn) (query : Session)
    (taskId : models.Id) : List TaskPolicy × Option Error :=
  match GetScanTaskById query taskId with
  | (_, some err) => ([], some err)
  | (none, none) => ([], none)
  | (some task, none) =>
    match GetValidPolicies filter merge query task.TplId task.EnvId with
    | (_, _, some err) => ([], some err)
    | (policies, _, none) => (policies.map (GetTaskPolicies.taskPolicy query), none)

/-- The layered store with named groups and one scan task of template `T1` and
environment `E1`. -/
def namedGroupStore : Session :=
  { layeredStore with
    policyGroups := [{ Id := "G1", Name := "security" }, { Id := "G2", Name := "network" },
      { Id := "G3", Name := "storage" }]
    scanTasks := [{ Id := "run-1", TplId := "T1", EnvId := "E1" }] }

/-- The session in which the lookup of a policy group fails with `err`. -/
def failGroupLookup (query : Session) (err : DbErr) : Session :=
  { query with
    fault := fun q => if q = Query.policyGroupById then some err else query.fault q }

/-- SQL `LIKE` on character lists: `%` in the pattern stands for any run of characters,
an underscore for any one character, every other character for itself.  No escape
character is modelled. -/
def likeMatch : List Char → List Char → Bool
  | [], s => s.isEmpty
  | c :: p, s =>
    if c = '%' then s.tails.any (likeMatch p)
    else
      match s with
      | [] => false
      | d :: s' => (c = '_' || c = d) && likeMatch p s'

/-- Byte-wise comparison of `reference_id` values of equal length. -/
def lexLt : List Char → List Char → Bool
  | [], [] => false
  | [], _ :: _ => true
  | _ :: _, [] => false
  | a :: as, b :: bs => a.toNat < b.toNat || (a = b && lexLt as bs)

/-- The order of `ORDER BY length(reference_id), reference_id`: `refLt a b` when `a`
sorts strictly before `b`. -/
def refLt (a b : List Char) : Bool :=
  a.length < b.length || (a.length = b.length && lexLt a b)

/-- The row that `Order("length(reference_id) DESC, reference_id DESC").Last` reads: the
row whose reference id is greatest in the order `refLt`, if there is a row. -/
def lastByReferenceId : List Policy → Option Policy
  | [] => none
  | p :: rows =>
    match lastByReferenceId rows with
    | none => some p
    | some q => if refLt p.ReferenceId.data q.ReferenceId.data then some q else some p

/-- Go `strings.LastIndex(s, string(c))`, scanning from position `i` with `best` the
last position found so far. -/
def strings.LastIndex.go (c : Char) : List Char → Nat → Int → Int
  | [], _, best => best
  | x :: xs, i, best => strings.LastIndex.go c xs (i + 1) (if x = c then (i : Int) else best)

/-- Go `strings.LastIndex(s, string(c))`: the position of the last `c` in `s`, or `-1`. -/
def strings.LastIndex (s : List Char) (c : Char) : Int :=
  strings.LastIndex.go c s 0 (-1)

/-- A decimal digit character. -/
def isDigit (c : Char) : Bool := decide (48 ≤ c.toNat) && decide (c.toNat ≤ 57)

/-- The number written by a run of decimal digits. -/
def decimalValue (ds : List Char) : Nat :=
  ds.foldl (fun acc c => acc * 10 + (c.toNat - 48)) 0

/-- Go `math.MaxInt64`, the greatest value of `int` on a 64-bit platform. -/
def math.MaxInt64 : Int := 2 ^ 63 - 1

/-- Go `strconv.Atoi` with the error dropped (`lastId, _ = strconv.Atoi(..)`), `int`
being 64 bits wide: an optional sign and a non-empty run of decimal digits give the
number, cut off at the range of `int`; any other string gives `0`. -/
def strconv.Atoi (s : List Char) : Int :=
  let signed : Bool × List Char :=
    match s with
    | '-' :: r => (true, r)
    | '+' :: r => (false, r)
    | r => (false, r)
  if signed.2.isEmpty || !signed.2.all isDigit then 0
  else if signed.1 then
    if (2 : Int) ^ 63 < decimalValue signed.2 then -(2 : Int) ^ 63
    else -(decimalValue signed.2 : Int)
  else if math.MaxInt64 < decimalValue signed.2 then math.MaxInt64
  else (decimalValue signed.2 : Int)

/-- Go addition on `int` (64 bits, two's complement): the sum is reduced into
`[-2^63, 2^63)`. -/
def wrapInt64 (x : Int) : Int := (x + 2 ^ 63) % 2 ^ 64 - 2 ^ 63

/-- The decimal digits of `n`, most significant first, in front of `acc`; `fuel` bounds
the number of digits. -/
def formatNat.go : Nat → Nat → List Char → List Char
  | 0, _, acc => acc
  | fuel + 1, n, acc =>
    if n < 10 then Char.ofNat (48 + n) :: acc
    else formatNat.go fuel (n / 10) (Char.ofNat (48 + n % 10) :: acc)

/-- The decimal digits of `n`, without leading zeros (`0` for zero). -/
def formatNat (n : Nat) : List Char := formatNat.go (n + 1) n []

/-- Go `fmt.Sprintf("%d", x)`. -/
def formatInt (x : Int) : List Char :=
  if x < 0 then '-' :: formatNat x.natAbs else formatNat x.toNat

/-- The type part of a reference id (policy.go 32-35): the policy type, `iac` when the
policy has none. -/
def GetPolicyReferenceId.typ (policy : Policy) : String :=
  if policy.PolicyType ≠ "" then policy.PolicyType else "iac"

/-- The rows of `Where("reference_id LIKE ?", "iac_"+typ+"%")`. -/
def GetPolicyReferenceId.matching (query : Session) (typ : String) : List Policy :=
  query.policies.filter (fun p => likeMatch ("iac_" ++ typ ++ "%").data p.ReferenceId.data)

/-- The value of `lastId` after policy.go 36-47, `referenceId` being `po.ReferenceId`. -/
def GetPolicyReferenceId.lastId (referenceId : List Char) : Int :=
  let idx := strings.LastIndex referenceId '_'
  if idx ≠ -1 then strconv.Atoi (referenceId.drop (idx + 1).toNat) else 0

/-- The result of policy.go 43-51 when `po.ReferenceId` is `referenceId`; the scope is
always `public`. -/
def GetPolicyReferenceId.generate (typ referenceId : String) : String :=
  "iac_" ++ typ ++ "_public_" ++
    ⟨formatInt (wrapInt64 (GetPolicyReferenceId.lastId referenceId.data + 1))⟩

/-- Source `GetPolicyReferenceId` (policy.go 29-52).  A driver error other than
record-not-found ends the call with a database error; with record-not-found, or with no
matching row, `po` keeps its zero value. -/
def GetPolicyReferenceId (query : Session) (policy : Policy) : String × Option Error :=
  let typ := GetPolicyReferenceId.typ policy
  match query.fault Query.policyReferenceId with
  | some err =>
    if err = DbErr.RecordNotFound then (GetPolicyReferenceId.generate typ "", none)
    else ("", some ⟨ErrCode.DBError, err⟩)
  | none =>
    match lastByReferenceId (GetPolicyReferenceId.matching query typ) with
    | some po => (GetPolicyReferenceId.generate typ po.ReferenceId, none)
    | none => (GetPolicyReferenceId.generate typ "", none)

/-- A positive decimal number without leading zeros: a non-empty run of decimal digits
that does not start with `0`. -/
def IsPositiveDecimal (ds : List Char) : Bool :=
  match ds with
  | [] => false
  | c :: _ => c != '0' && ds.all isDigit

/-- The reference id `s` has the form `iac_<typ>_public_<k>`, `k` a positive decimal
number without leading zeros. -/
def HasReferenceForm (typ : String) (s : String) : Bool :=
  ("iac_" ++ typ ++ "_public_").data.isPrefixOf s.data &&
    IsPositiveDecimal (s.data.drop ("iac_" ++ typ ++ "_public_").data.length)

/-- Every reference id of the store that matches `iac_<typ>%` has the form
`iac_<typ>_public_<k>`. -/
def WellFormedReferenceIds (query : Session) (typ : String) : Bool :=
  query.policies.all (fun p =>
    !likeMatch ("iac_" ++ typ ++ "%").data p.ReferenceId.data ||
      HasReferenceForm typ p.ReferenceId)

/-- The digits at the end of a reference id, read as a number (`0` when there is none). -/
def numericSuffix (s : List Char) : Nat :=
  decimalValue (s.reverse.takeWhile isDigit).reverse

/-- The claim's words: `iac_<typ>_public_<n>`, `n` one more than the maximum numeric
suffix among the reference ids matching `iac_<typ>%`, and 1 when none matches. -/
def nextReferenceId (query : Session) (typ : String) : String :=
  "iac_" ++ typ ++ "_public_" ++
    ⟨formatNat
      (((GetPolicyReferenceId.matching query typ).map
        (fun p => numericSuffix p.ReferenceId.data)).foldr max 0 + 1)⟩

/-- A policy row with the given reference id. -/
def policyWithRef (id : models.Id) (referenceId : String) : Policy :=
  { Id := id, ReferenceId := referenceId }

/-- A store with policies of two types whose names share a beginning: `aws` with the
sequence numbers 1 and 2, and `awscc` with the sequence number 1. -/
def sharedTypeStore : Session :=
  { policies :=
      [policyWithRef "P1" "iac_aws_public_1", policyWithRef "P2" "iac_aws_public_2",
       policyWithRef "P3" "iac_awscc_public_1"] }

/-- A store with the `aws` sequence numbers 9 and 10. -/
def sequenceStore : Session :=
  { policies :=
      [policyWithRef "P1" "iac_aws_public_9", policyWithRef "P2" "iac_aws_public_10",
       policyWithRef "P3" "iac_k8s_public_4"] }

/-- Value of `consts.OrgRoleAdmin`.  The declaration is not among the sources; the value
is the name of the organisation administrator role. -/
def consts.OrgRoleAdmin : String := "admin"

/-- Go `models.UserOrg`: one membership of a user in an organisation. -/
structure UserOrg where
  UserId : models.Id
  OrgId : models.Id
deriving DecidableEq, Repr

/-- Go `models.UserProject`: one membership of a user in a project. -/
structure UserProject where
  UserId : models.Id
  ProjectId : models.Id
deriving DecidableEq, Repr

/-- The user lookups that `SubQueryUserEnvIds` calls; their bodies are not among the
sources, so the function takes them as they are. -/
structure UserLookups where
  UserIsSuperAdmin : Session → models.Id → Bool
  getUserOrgs : models.Id → List UserOrg
  UserHasOrgRole : models.Id → models.Id → String → Bool
  getUserProjects : models.Id → List UserProject

/-- Source `SubQueryUserEnvIds` (policy.go 571-605), as the list of environment ids that
the returned sub-query selects.  `orgAdminProjectQuery` is `SELECT id FROM iac_project`;
of `orgAdminIds` and `projectIds` the conditions read the first only for its length. -/
def SubQueryUserEnvIds (lookups : UserLookups) (query : Session) (userId : models.Id) :
    List models.Id :=
  let q := query.envs
  if lookups.UserIsSuperAdmin query userId then q.map Env.Id
  else
    let userOrgs := lookups.getUserOrgs userId
    let orgAdminProjectQuery := query.projects.map Project.Id
    let orgAdminIds :=
      (userOrgs.filter (fun userOrg =>
        lookups.UserHasOrgRole userId userOrg.OrgId consts.OrgRoleAdmin)).map UserOrg.OrgId
    let projectIds := (lookups.getUserProjects userId).map UserProject.ProjectId
    if orgAdminIds.length > 0 ∧ projectIds.length > 0 then
      (q.filter (fun env =>
        orgAdminProjectQuery.contains env.OrgId || projectIds.contains env.ProjectId)).map
        Env.Id
    else if orgAdminIds.length > 0 then
      (q.filter (fun env => orgAdminProjectQuery.contains env.OrgId)).map Env.Id
    else if projectIds.length > 0 then
      (q.filter (fun env => projectIds.contains env.ProjectId)).map Env.Id
    else []

/-- The claim's words: the environment's org is one in which the user holds the org-admin
role, or the environment's project is one the user is a member of. -/
def userMaySeeEnv (lookups : UserLookups) (userId : models.Id) (env : Env) : Bool :=
  (lookups.getUserOrgs userId).any (fun userOrg =>
    userOrg.OrgId == env.OrgId &&
      lookups.UserHasOrgRole userId userOrg.OrgId consts.OrgRoleAdmin) ||
  (lookups.getUserProjects userId).any (fun userProject =>
    userProject.ProjectId == env.ProjectId)

/-- User `U1` administers organisation `O1` and is a member of no project; nobody is a
super admin. -/
def orgAdminLookups : UserLookups :=
  { UserIsSuperAdmin := fun _ _ => false
    getUserOrgs := fun userId => if userId = "U1" then [{ UserId := "U1", OrgId := "O1" }] else []
    UserHasOrgRole := fun userId orgId role =>
      userId == "U1" && orgId == "O1" && role == consts.OrgRoleAdmin
    getUserProjects := fun _ => [] }

/-- Organisation `O1` has the project `J1` with the environment `E1`. -/
def orgStore : Session :=
  { envs := [{ Id := "E1", OrgId := "O1", ProjectId := "J1" }]
    projects := [{ Id := "J1", OrgId := "O1" }] }

/-- Go `error` as returned by the VCS repository: an `e.Error` with its code, or an
error of another type. -/
inductive VcsErr where
  | coded (code : ErrCode) (msg : String)
  | foreign (msg : String)
deriving DecidableEq, Repr

/-- Go `e.Is(err, code)`.  The declaration is not among the sources: an error has the
code when it is an `e.Error` with that code, and the nil error has none. -/
def e.Is (err : Option VcsErr) (code : ErrCode) : Bool :=
  match err with
  | some (VcsErr.coded c _) => c == code
  | _ => false

/-- Go `vcsrv.RepoIface`, with the one method `GenerateTaskPipeline` calls:
`ReadFileContent(revision, path)` returns the content and the error. -/
structure VcsRepo where
  ReadFileContent : String → String → String × Option VcsErr

/-- The error of `GenerateTaskPipeline`: the error of the repository lookup passed on,
`e.New(e.VcsError, err)` around the error of the read (which can be nil), or
`e.New(e.InvalidPipeline, err)` around the error of the decoder. -/
inductive PipelineErr where
  | repo (er : Error)
  | vcs (err : Option VcsErr)
  | invalid (msg : String)
deriving DecidableEq, Repr

/-- The code of the error. -/
def PipelineErr.code : PipelineErr → ErrCode
  | PipelineErr.repo er => er.code
  | PipelineErr.vcs _ => ErrCode.VcsError
  | PipelineErr.invalid _ => ErrCode.InvalidPipeline

/-- What `GenerateTaskPipeline` uses and the sources do not hold, for a pipeline type
`P`: the repository lookup, the name of the pipeline file, the zero and the default
pipeline, and the YAML decoder (which fills the pipeline it is given). -/
structure PipelineEnv (P : Type) where
  GetVcsRepoByTplId : Session → models.Id → Except Error VcsRepo
  PipelineFileName : String
  zero : P
  DefaultPipeline : P
  Decode : String → P → P × Option String

/-- The elements of a path, the runs of characters between its separators. -/
def filepath.elements : List Char → List (List Char)
  | [] => [[]]
  | c :: cs =>
    if c = '/' then [] :: filepath.elements cs
    else
      match filepath.elements cs with
      | [] => [[c]]
      | element :: rest => (c :: element) :: rest

/-- One step of Go `filepath.Clean` on the next element, `kept` being the elements kept
so far, last first: an empty element and `.` are dropped; `..` removes the element
before it, is dropped at the root, and is kept where there is nothing to remove. -/
def filepath.Clean.step (rooted : Bool) (kept : List (List Char)) (element : List Char) :
    List (List Char) :=
  if element = [] ∨ element = ['.'] then kept
  else if element = ['.', '.'] then
    match kept with
    | [] => if rooted then [] else [element]
    | last :: before => if last = ['.', '.'] then element :: kept else before
  else element :: kept

/-- Go `filepath.Clean` for slash-separated paths: the shortest path equivalent to
`path` by lexical processing, `.` for the empty path. -/
def filepath.Clean (path : String) : String :=
  let rooted := path.data.head? == some '/'
  let kept := ((filepath.elements path.data).foldl (filepath.Clean.step rooted) []).reverse
  let body : String := ⟨List.intercalate ['/'] kept⟩
  if rooted then "/" ++ body else if body = "" then "." else body

/-- Go `filepath.Join(dir, name)`: the elements from the first non-empty one on are joined
with the separator and the result is cleaned; two empty elements give the empty
string. -/
def filepath.Join (dir name : String) : String :=
  if dir ≠ "" then filepath.Clean (dir ++ "/" ++ name)
  else if name ≠ "" then filepath.Clean name
  else ""

/-- The loop of `GenerateTaskPipeline` (task_pipeline.go 30-38) over the remaining
paths, `content` being the content of the last read: a read whose error is
`ObjectNotExists` goes on to the next path, every other read returns with its error
(`Except.error`); the end of the paths leaves the last content (`Except.ok`). -/
def GenerateTaskPipeline.loop (repo : VcsRepo) (revision : String) :
    List String → String → Except (Option VcsErr) String
  | [], content => Except.ok content
  | path :: paths, _ =>
    if e.Is (repo.ReadFileContent revision path).2 ErrCode.ObjectNotExists then
      GenerateTaskPipeline.loop repo revision paths (repo.ReadFileContent revision path).1
    else Except.error (repo.ReadFileContent revision path).2

/-- Source `GenerateTaskPipeline` (task_pipeline.go 15-50). -/
def GenerateTaskPipeline {P : Type} (env : PipelineEnv P) (sess : Session)
    (tplId : models.Id) (revision workdir : String) : P × Option PipelineErr :=
  match env.GetVcsRepoByTplId sess tplId with
  | Except.error er => (env.zero, some (PipelineErr.repo er))
  | Except.ok repo =>
    let paths :=
      [filepath.Join workdir env.PipelineFileName] ++
        (if workdir ≠ "" then [env.PipelineFileName] else [])
    match GenerateTaskPipeline.loop repo revision paths "" with
    | Except.error err => (env.zero, some (PipelineErr.vcs err))
    | Except.ok content =>
      if content.length = 0 then (env.DefaultPipeline, none)
      else
        match env.Decode content env.zero with
        | (pipeline, some err) => (pipeline, some (PipelineErr.invalid err))
        | (pipeline, none) => (pipeline, none)

/-- A pipeline with its version, standing for `models.Pipeline`. -/
structure Pipeline where
  Version : String := ""
deriving DecidableEq, Repr

/-- A repository that holds the pipeline file at its root, with content that decodes,
and reports `ObjectNotExists` for every other path. -/
def pipelineRepo : VcsRepo :=
  { ReadFileContent := fun _ path =>
      if path = ".cloudiac-pipeline.yml" then ("version: 0.4", none)
      else ("", some (VcsErr.coded ErrCode.ObjectNotExists "file not found")) }

/-- A repository without a pipeline file. -/
def emptyRepo : VcsRepo :=
  { ReadFileContent := fun _ _ =>
      ("", some (VcsErr.coded ErrCode.ObjectNotExists "file not found")) }

/-- An environment of `GenerateTaskPipeline` over `repo`: the decoder reads the one
document `version: 0.4`. -/
def pipelineEnv (repo : VcsRepo) : PipelineEnv Pipeline :=
  { GetVcsRepoByTplId := fun _ _ => Except.ok repo
    PipelineFileName := ".cloudiac-pipeline.yml"
    zero := {}
    DefaultPipeline := { Version := "0.2" }
    Decode := fun content pipeline =>
      if content = "version: 0.4" then ({ Version := "0.4" }, none)
      else (pipeline, some "yaml: unmarshal error") }

/-- A store that answers the statement of an unknown scope with one row and no error. -/
def answeringStore : Session :=
  { malformed := fun _ => ([⟨"", 3, "passed"⟩], none) }

/-- A store that answers the statement of an unknown scope with a record-not-found
error. -/
def notFoundStore : Session :=
  { malformed := fun _ => ([], some DbErr.RecordNotFound) }

/-- A store holding the scan-disabled marker of template `T1` (empty group id,
`enabled = false`) and a relation of group `G1`, the group of policy `P1`, to `T1`. -/
def disabledTemplateStore : Session :=
  { policies := [{ Id := "P1", GroupId := "G1", Severity := "high" }]
    policyGroups := [{ Id := "G1" }]
    policyRels :=
      [{ TplId := "T1", Scope := consts.ScopeTemplate, Enabled := false },
       { TplId := "T1", GroupId := "G1", Scope := consts.ScopeTemplate }] }

/-! ## Helper lemmas -/

theorem dedupById_subset (l : List Policy) : ∀ p ∈ dedupById l, p ∈ l := by
  induction l with
  | nil => simp [dedupById]
  | cons a l ih =>
    intro p hp
    simp only [dedupById, List.mem_cons, List.mem_filter] at hp
    rcases hp with rfl | ⟨h, _⟩
    · exact List.mem_cons_self _ _
    · exact List.mem_cons_of_mem _ (ih p h)

theorem dedupById_nodup (l : List Policy) : ((dedupById l).map Policy.Id).Nodup := by
  induction l with
  | nil => simp [dedupById]
  | cons a l ih =>
    simp only [dedupById, List.map_cons, List.nodup_cons, List.mem_map, List.mem_filter]
    refine ⟨?_, ?_⟩
    · rintro ⟨q, ⟨_, hq⟩, hqa⟩
      simp [hqa] at hq
    · exact (ih.sublist ((List.filter_sublist _).map Policy.Id))

theorem dedupById_ids (l : List Policy) :
    ∀ p ∈ l, p.Id ∈ (dedupById l).map Policy.Id := by
  induction l with
  | nil => simp
  | cons a l ih =>
    intro p hp
    simp only [dedupById, List.map_cons, List.mem_cons]
    by_cases hpa : p.Id = a.Id
    · exact Or.inl hpa
    · right
      rcases List.mem_cons.1 hp with rfl | hpl
      · exact absurd rfl hpa
      · obtain ⟨q, hq, hqp⟩ := List.mem_map.1 (ih p hpl)
        refine List.mem_map.2 ⟨q, List.mem_filter.2 ⟨hq, ?_⟩, hqp⟩
        simp [hqp, hpa]

theorem MergePolicies_isUnionById : MergeIsUnionById MergePolicies := by
  intro a b
  refine ⟨dedupById_nodup _, ?_, ?_⟩
  · intro p hp
    exact List.mem_append.1 (dedupById_subset _ p hp)
  · intro p hp
    exact dedupById_ids _ p (List.mem_append.2 hp)

theorem FilterSuppressPolicies_partitions : FilterPartitions FilterSuppressPolicies := by
  intro query policies targetId scope valid suppressed h
  unfold FilterSuppressPolicies at h
  by_cases hnil : policies = []
  · simp [hnil] at h
    obtain ⟨rfl, rfl⟩ := h
    simp [hnil]
  · simp only [hnil, if_false] at h
    cases hf : query.fault Query.policySuppress with
    | some err => simp [hf] at h
    | none =>
      simp only [hf, Prod.mk.injEq, and_true] at h
      obtain ⟨rfl, rfl⟩ := h
      refine ⟨?_, ?_⟩
      · exact List.perm_append_comm.trans (List.filter_append_perm _ _)
      · intro p hv hs
        simp only [List.mem_filter] at hv hs
        simp [hs.2] at hv

theorem tplStage_ok_cases (filter : FilterFn) (query : Session) (tplId : models.Id)
    (tv ts : List Policy)
    (h : GetValidPolicies.tplStage filter query tplId = (tv, ts, none)) :
    ∃ en, IsTemplateEnabledScan query tplId = (en, none) ∧
      ((en = false ∧ tv = [] ∧ ts = []) ∨
        (en = true ∧ ∃ tp, GetPoliciesByTemplateId query tplId = (tp, none) ∧
          filter query tp tplId consts.ScopeTemplate = (tv, ts, none))) := by
  unfold GetValidPolicies.tplStage at h
  rcases hen : IsTemplateEnabledScan query tplId with ⟨en, _ | err⟩
  · simp only [hen] at h
    refine ⟨en, rfl, ?_⟩
    cases en with
    | false =>
      simp only [Bool.false_eq_true, if_false, Prod.mk.injEq, and_true] at h
      exact Or.inl ⟨rfl, h.1.symm, h.2.symm⟩
    | true =>
      simp only [if_true] at h
      rcases htp : GetPoliciesByTemplateId query tplId with ⟨tp, _ | err⟩
      · simp only [htp] at h
        rcases hf : filter query tp tplId consts.ScopeTemplate with ⟨v, sp, _ | err⟩
        · simp only [hf, Prod.mk.injEq, and_true] at h
          obtain ⟨rfl, rfl⟩ := h
          exact Or.inr ⟨rfl, tp, rfl, hf⟩
        · simp [hf] at h
      · simp [htp] at h
  · simp [hen] at h

theorem GetValidPolicies_ok_cases (filter : FilterFn) (merge : MergeFn) (query : Session)
    (tplId envId : models.Id) (valid suppressed : List Policy)
    (h : GetValidPolicies filter merge query tplId envId = (valid, suppressed, none)) :
    ∃ tv ts en, GetValidPolicies.tplStage filter query tplId = (tv, ts, none) ∧
      IsEnvEnabledScan query envId = (en, none) ∧
      ((¬ (envId ≠ "" ∧ en = true) ∧ valid = tv ∧ suppressed = ts) ∨
        ((envId ≠ "" ∧ en = true) ∧ ∃ ep es, GetPoliciesByEnvId query envId = (ep, none) ∧
          filter query (merge tv ep) envId consts.ScopeEnv = (valid, es, none) ∧
          suppressed =
            merge (ts.filter (fun policy => !(ep.map Policy.Id).contains policy.Id)) es)) := by
  unfold GetValidPolicies at h
  rcases hts : GetValidPolicies.tplStage filter query tplId with ⟨tv, ts, _ | err⟩
  · simp only [hts] at h
    rcases hen : IsEnvEnabledScan query envId with ⟨en, _ | err⟩
    · simp only [hen] at h
      refine ⟨tv, ts, en, rfl, rfl, ?_⟩
      by_cases hc : envId ≠ "" ∧ en = true
      · rw [if_pos hc] at h
        right
        refine ⟨hc, ?_⟩
        rcases hep : GetPoliciesByEnvId query envId with ⟨ep, _ | err⟩
        · simp only [hep] at h
          rcases hf : filter query (merge tv ep) envId consts.ScopeEnv with ⟨v, es, _ | err⟩
          · simp only [hf, Prod.mk.injEq, and_true] at h
            obtain ⟨rfl, rfl⟩ := h
            exact ⟨ep, es, rfl, hf, rfl⟩
          · simp [hf] at h
        · simp [hep] at h
      · rw [if_neg hc] at h
        simp only [Prod.mk.injEq, and_true] at h
        exact Or.inl ⟨hc, h.1.symm, h.2.symm⟩
    · simp [hen] at h
  · simp [hts] at h

theorem GetPoliciesByTemplateId_mem (query : Session) (tplId : models.Id) (tp : List Policy)
    (h : GetPoliciesByTemplateId query tplId = (tp, none)) (p : Policy) :
    p ∈ tp ↔ p ∈ query.policies ∧ ∃ g ∈ query.policyGroups, g.Id = p.GroupId ∧
      ∃ r ∈ query.policyRels, r.GroupId = g.Id ∧ r.TplId = tplId ∧
        r.Scope = consts.ScopeTemplate := by
  unfold GetPoliciesByTemplateId at h
  cases hf : query.fault Query.policiesByTemplateId with
  | some err =>
    rw [hf] at h
    by_cases he : err = DbErr.RecordNotFound <;> simp [he] at h
  | none =>
    simp only [hf, Prod.mk.injEq, and_true] at h
    subst h
    simp only [List.mem_flatMap, List.mem_filter, List.mem_map, Bool.and_eq_true, beq_iff_eq]
    constructor
    · rintro ⟨q, hq, g, ⟨hg, hgq⟩, r, ⟨hr, hrg, hrt, hrs⟩, rfl⟩
      exact ⟨hq, g, hg, hgq, r, hr, hrg, hrt, hrs⟩
    · rintro ⟨hq, g, hg, hgq, r, hr, hrg, hrt, hrs⟩
      exact ⟨p, hq, g, ⟨hg, hgq⟩, r, ⟨hr, hrg, hrt, hrs⟩, rfl⟩

theorem GetPoliciesByEnvId_mem (query : Session) (envId : models.Id) (ep : List Policy)
    (h : GetPoliciesByEnvId query envId = (ep, none)) (p : Policy) :
    p ∈ ep ↔ p ∈ query.policies ∧ ∃ g ∈ query.policyGroups, g.Id = p.GroupId ∧
      ∃ r ∈ query.policyRels, r.GroupId = g.Id ∧ r.EnvId = envId ∧
        r.Scope = consts.ScopeEnv := by
  unfold GetPoliciesByEnvId at h
  cases hf : query.fault Query.policiesByEnvId with
  | some err =>
    rw [hf] at h
    by_cases he : err = DbErr.RecordNotFound <;> simp [he] at h
  | none =>
    simp only [hf, Prod.mk.injEq, and_true] at h
    subst h
    simp only [List.mem_flatMap, List.mem_filter, List.mem_map, Bool.and_eq_true, beq_iff_eq]
    constructor
    · rintro ⟨q, hq, g, ⟨hg, hgq⟩, r, ⟨hr, hrg, hrt, hrs⟩, rfl⟩
      exact ⟨hq, g, hg, hgq, r, hr, hrg, hrt, hrs⟩
    · rintro ⟨hq, g, hg, hgq, r, hr, hrg, hrt, hrs⟩
      exact ⟨p, hq, g, ⟨hg, hgq⟩, r, ⟨hr, hrg, hrt, hrs⟩, rfl⟩

theorem primaryKey_inj (query : Session) (hK : PolicyPrimaryKey query) (p q : Policy)
    (hp : p ∈ query.policies) (hq : q ∈ query.policies) (h : p.Id = q.Id) : p = q :=
  List.inj_on_of_nodup_map hK hp hq h

theorem tplStage_facts (filter : FilterFn) (hF : FilterPartitions filter) (query : Session)
    (tplId : models.Id) (tv ts : List Policy)
    (h : GetValidPolicies.tplStage filter query tplId = (tv, ts, none)) :
    (∀ p ∈ tv, p ∈ query.policies) ∧ (∀ p ∈ ts, p ∈ query.policies) ∧ List.Disjoint tv ts := by
  obtain ⟨en, _, hcase⟩ := tplStage_ok_cases filter query tplId tv ts h
  rcases hcase with ⟨_, rfl, rfl⟩ | ⟨_, tp, htp, hf⟩
  · simp
  · obtain ⟨hperm, hdis⟩ := hF query tp tplId consts.ScopeTemplate tv ts hf
    have hsub : ∀ p, p ∈ tv ∨ p ∈ ts → p ∈ query.policies := by
      intro p hp
      have : p ∈ tp := hperm.subset (List.mem_append.2 hp)
      exact ((GetPoliciesByTemplateId_mem query tplId tp htp p).1 this).1
    exact ⟨fun p hp => hsub p (Or.inl hp), fun p hp => hsub p (Or.inr hp), hdis⟩

theorem envStage_facts (filter : FilterFn) (merge : MergeFn) (hF : FilterPartitions filter)
    (hM : MergeIsUnionById merge) (query : Session) (tplId envId : models.Id)
    (tv ts ep v es : List Policy)
    (hts : GetValidPolicies.tplStage filter query tplId = (tv, ts, none))
    (hep : GetPoliciesByEnvId query envId = (ep, none))
    (hf : filter query (merge tv ep) envId consts.ScopeEnv = (v, es, none)) :
    (∀ p ∈ v, p ∈ tv ∨ p ∈ ep) ∧ (∀ p ∈ es, p ∈ tv ∨ p ∈ ep) ∧
      (∀ p ∈ ep, p ∈ query.policies) ∧ (∀ p ∈ v, p ∈ query.policies) ∧
      (∀ p ∈ es, p ∈ query.policies) ∧ List.Disjoint v es := by
  obtain ⟨htv, _, _⟩ := tplStage_facts filter hF query tplId tv ts hts
  obtain ⟨hperm, hdis⟩ := hF query (merge tv ep) envId consts.ScopeEnv v es hf
  obtain ⟨_, hsub, _⟩ := hM tv ep
  have hepS : ∀ p ∈ ep, p ∈ query.policies := fun p hp =>
    ((GetPoliciesByEnvId_mem query envId ep hep p).1 hp).1
  have hv : ∀ p ∈ v, p ∈ tv ∨ p ∈ ep := fun p hp =>
    hsub p (hperm.subset (List.mem_append_left _ hp))
  have hes : ∀ p ∈ es, p ∈ tv ∨ p ∈ ep := fun p hp =>
    hsub p (hperm.subset (List.mem_append_right _ hp))
  refine ⟨hv, hes, hepS, ?_, ?_, hdis⟩
  · intro p hp
    rcases hv p hp with h | h
    exacts [htv p h, hepS p h]
  · intro p hp
    rcases hes p hp with h | h
    exacts [htv p h, hepS p h]

theorem valid_suppressed_ids_ne (filter : FilterFn) (merge : MergeFn)
    (hF : FilterPartitions filter) (hM : MergeIsUnionById merge) (query : Session)
    (hK : PolicyPrimaryKey query) (tplId envId : models.Id) (valid suppressed : List Policy)
    (h : GetValidPolicies filter merge query tplId envId = (valid, suppressed, none)) :
    ∀ p ∈ valid, ∀ q ∈ suppressed, p.Id ≠ q.Id := by
  obtain ⟨tv, ts, en, hts, _, hcase⟩ :=
    GetValidPolicies_ok_cases filter merge query tplId envId valid suppressed h
  obtain ⟨htv, htsS, hdisT⟩ := tplStage_facts filter hF query tplId tv ts hts
  rcases hcase with ⟨_, rfl, rfl⟩ | ⟨_, ep, es, hep, hf, rfl⟩
  · intro p hp q hq hpq
    have : p = q := primaryKey_inj query hK p q (htv p hp) (htsS q hq) hpq
    exact hdisT hp (this ▸ hq)
  · obtain ⟨hv, _, _, hvS, hesS, hdis⟩ :=
      envStage_facts filter merge hF hM query tplId envId tv ts ep valid es hts hep hf
    intro p hp q hq hpq
    rcases (hM _ es).2.1 q hq with hq1 | hq2
    · obtain ⟨hqts, hqne⟩ := List.mem_filter.1 hq1
      rcases hv p hp with hptv | hpep
      · have : p = q := primaryKey_inj query hK p q (htv p hptv) (htsS q hqts) hpq
        exact hdisT hptv (this ▸ hqts)
      · have hmem : q.Id ∈ ep.map Policy.Id := hpq ▸ List.mem_map_of_mem _ hpep
        simp [hmem] at hqne
    · have : p = q := primaryKey_inj query hK p q (hvS p hp) (hesS q hq2) hpq
      exact hdis hp (this ▸ hq2)

theorem GetValidPolicies_passThrough (filter : FilterFn) (merge : MergeFn) (query : Session)
    (tplId envId : models.Id) (tv ts : List Policy) (en : Bool)
    (hts : GetValidPolicies.tplStage filter query tplId = (tv, ts, none))
    (hen : IsEnvEnabledScan query envId = (en, none)) (hc : envId = "" ∨ en = false) :
    GetValidPolicies filter merge query tplId envId = (tv, ts, none) := by
  unfold GetValidPolicies
  simp only [hts, hen]
  have hn : ¬ (envId ≠ "" ∧ en = true) := by
    rintro ⟨h1, h2⟩
    rcases hc with h | h
    · exact h1 h
    · simp [h] at h2
  rw [if_neg hn]

theorem GetValidPolicies_envBranch (filter : FilterFn) (merge : MergeFn) (query : Session)
    (tplId envId : models.Id) (tv ts ep v es : List Policy)
    (hts : GetValidPolicies.tplStage filter query tplId = (tv, ts, none))
    (hen : IsEnvEnabledScan query envId = (true, none)) (hne : envId ≠ "")
    (hep : GetPoliciesByEnvId query envId = (ep, none))
    (hf : filter query (merge tv ep) envId consts.ScopeEnv = (v, es, none)) :
    GetValidPolicies filter merge query tplId envId =
      (v, merge (ts.filter (fun policy => !(ep.map Policy.Id).contains policy.Id)) es,
        none) := by
  unfold GetValidPolicies
  simp only [hts, hen]
  rw [if_pos ⟨hne, trivial⟩]
  simp only [hep, hf]

theorem notContains_iff (ep : List Policy) (i : models.Id) :
    (!(ep.map Policy.Id).contains i) = true ↔ i ∉ ep.map Policy.Id := by
  simp

theorem mem_filter_notContains (ts ep : List Policy) (i : models.Id) :
    i ∈ (ts.filter (fun policy => !(ep.map Policy.Id).contains policy.Id)).map Policy.Id ↔
      i ∈ ts.map Policy.Id ∧ i ∉ ep.map Policy.Id := by
  constructor
  · intro h
    obtain ⟨p, hp, rfl⟩ := List.mem_map.1 h
    obtain ⟨hp1, hp2⟩ := List.mem_filter.1 hp
    exact ⟨List.mem_map_of_mem _ hp1, (notContains_iff ep p.Id).1 hp2⟩
  · rintro ⟨h, hn⟩
    obtain ⟨p, hp, rfl⟩ := List.mem_map.1 h
    exact List.mem_map_of_mem _ (List.mem_filter.2 ⟨hp, (notContains_iff ep p.Id).2 hn⟩)

theorem merge_ids (merge : MergeFn) (hM : MergeIsUnionById merge) (a b : List Policy)
    (i : models.Id) :
    i ∈ (merge a b).map Policy.Id ↔ i ∈ a.map Policy.Id ∨ i ∈ b.map Policy.Id := by
  obtain ⟨_, hsub, hkeep⟩ := hM a b
  constructor
  · intro h
    obtain ⟨p, hp, rfl⟩ := List.mem_map.1 h
    rcases hsub p hp with h1 | h1
    · exact Or.inl (List.mem_map_of_mem _ h1)
    · exact Or.inr (List.mem_map_of_mem _ h1)
  · rintro (h | h)
    · obtain ⟨p, hp, rfl⟩ := List.mem_map.1 h
      exact hkeep p (Or.inl hp)
    · obtain ⟨p, hp, rfl⟩ := List.mem_map.1 h
      exact hkeep p (Or.inr hp)

theorem partition_ids (filter : FilterFn) (hF : FilterPartitions filter) (query : Session)
    (ps : List Policy) (t : models.Id) (sc : String) (v sp : List Policy)
    (h : filter query ps t sc = (v, sp, none)) (i : models.Id) :
    i ∈ ps.map Policy.Id ↔ i ∈ v.map Policy.Id ∨ i ∈ sp.map Policy.Id := by
  have hperm := ((hF query ps t sc v sp h).1).map Policy.Id
  rw [← hperm.mem_iff, List.map_append, List.mem_append]

theorem prop_cover (V S TP TV TS EP ES : Prop) (h1 : TP ↔ TV ∨ TS)
    (h2 : (TV ∨ EP) ↔ (V ∨ ES)) (h3 : S ↔ (TS ∧ ¬ EP) ∨ ES) :
    (V ∨ S) ↔ (TP ∨ EP) := by
  by_cases hEP : EP <;> tauto

theorem IsEnvEnabledScan_ok_any (query : Session) (envId envId2 : models.Id) (en : Bool)
    (h : IsEnvEnabledScan query envId = (en, none)) :
    ∃ en2, IsEnvEnabledScan query envId2 = (en2, none) := by
  unfold IsEnvEnabledScan at h ⊢
  cases hf : query.fault Query.envEnabledScan with
  | some err => simp [hf] at h
  | none => exact ⟨_, rfl⟩

theorem tplStage_failPoliciesByEnvId (filter : FilterFn) (query : Session) (err : DbErr)
    (tplId : models.Id)
    (hfi : ∀ ps t sc, filter (failPoliciesByEnvId query err) ps t sc = filter query ps t sc) :
    GetValidPolicies.tplStage filter (failPoliciesByEnvId query err) tplId =
      GetValidPolicies.tplStage filter query tplId := by
  have h1 : IsTemplateEnabledScan (failPoliciesByEnvId query err) tplId =
      IsTemplateEnabledScan query tplId := by
    simp [IsTemplateEnabledScan, failPoliciesByEnvId]
  have h2 : GetPoliciesByTemplateId (failPoliciesByEnvId query err) tplId =
      GetPoliciesByTemplateId query tplId := by
    simp [GetPoliciesByTemplateId, failPoliciesByEnvId]
  unfold GetValidPolicies.tplStage
  simp only [h1, h2, hfi]

theorem IsEnvEnabledScan_failPoliciesByEnvId (query : Session) (err : DbErr)
    (envId : models.Id) :
    IsEnvEnabledScan (failPoliciesByEnvId query err) envId = IsEnvEnabledScan query envId := by
  simp [IsEnvEnabledScan, failPoliciesByEnvId]

theorem FilterSuppressPolicies_failPoliciesByEnvId (query : Session) (err : DbErr)
    (ps : List Policy) (t : models.Id) (sc : String) :
    FilterSuppressPolicies (failPoliciesByEnvId query err) ps t sc =
      FilterSuppressPolicies query ps t sc := by
  simp [FilterSuppressPolicies, FetchSuppressions, failPoliciesByEnvId]

theorem merge_nil_perm (merge : MergeFn) (hM : MergeIsUnionById merge) (es : List Policy)
    (hes : (es.map Policy.Id).Nodup) : (merge [] es).Perm es := by
  obtain ⟨hnd, hsub, hkeep⟩ := hM [] es
  rw [List.perm_ext_iff_of_nodup (List.Nodup.of_map _ hnd) (List.Nodup.of_map _ hes)]
  intro p
  constructor
  · intro hp
    rcases hsub p hp with h | h
    · simp at h
    · exact h
  · intro hp
    obtain ⟨q, hq, hqp⟩ := List.mem_map.1 (hkeep p (Or.inr hp))
    have hqes : q ∈ es := by
      rcases hsub q hq with h | h
      · simp at h
      · exact h
    have : q = p := List.inj_on_of_nodup_map hes hqes hp hqp
    exact this ▸ hq

theorem merge_nil_nil (merge : MergeFn) (hM : MergeIsUnionById merge) : merge [] [] = [] := by
  obtain ⟨_, hsub, _⟩ := hM [] []
  apply List.eq_nil_iff_forall_not_mem.2
  intro p hp
  rcases hsub p hp with h | h <;> simp at h

theorem FilterSuppressPolicies_errorsEmpty : FilterErrorsEmpty FilterSuppressPolicies := by
  intro query policies targetId scope valid suppressed err h
  unfold FilterSuppressPolicies at h
  by_cases hnil : policies = []
  · simp [hnil] at h
  · simp only [hnil, if_false] at h
    cases hf : query.fault Query.policySuppress with
    | some e =>
      simp only [hf, Prod.mk.injEq] at h
      exact ⟨h.1.symm, h.2.1.symm⟩
    | none => simp [hf] at h

theorem tplStage_error_cases (filter : FilterFn) (query : Session) (tplId : models.Id)
    (v sp : List Policy) (err : Error)
    (h : GetValidPolicies.tplStage filter query tplId = (v, sp, some err)) :
    v = [] ∧ sp = [] ∧
      ((IsTemplateEnabledScan query tplId).2 = some err ∨
        (IsTemplateEnabledScan query tplId = (true, none) ∧
          (GetPoliciesByTemplateId query tplId).2 = some err) ∨
        (IsTemplateEnabledScan query tplId = (true, none) ∧
          (GetPoliciesByTemplateId query tplId).2 = none ∧
          (filter query (GetPoliciesByTemplateId query tplId).1 tplId
            consts.ScopeTemplate).2.2 = some err)) := by
  unfold GetValidPolicies.tplStage at h
  rcases hen : IsTemplateEnabledScan query tplId with ⟨en, _ | e1⟩
  · simp only [hen] at h
    cases en with
    | false => simp at h
    | true =>
      simp only [if_true] at h
      rcases htp : GetPoliciesByTemplateId query tplId with ⟨tp, _ | e2⟩
      · simp only [htp] at h
        rcases hf : filter query tp tplId consts.ScopeTemplate with ⟨v1, sp1, _ | e3⟩
        · simp [hf] at h
        · simp only [hf, Prod.mk.injEq, Option.some.injEq] at h
          obtain ⟨rfl, rfl, rfl⟩ := h
          exact ⟨rfl, rfl, Or.inr (Or.inr ⟨rfl, rfl, by simp [hf]⟩)⟩
      · simp only [htp, Prod.mk.injEq, Option.some.injEq] at h
        obtain ⟨rfl, rfl, rfl⟩ := h
        exact ⟨rfl, rfl, Or.inr (Or.inl ⟨rfl, rfl⟩)⟩
  · simp only [hen, Prod.mk.injEq, Option.some.injEq] at h
    obtain ⟨rfl, rfl, rfl⟩ := h
    exact ⟨rfl, rfl, Or.inl rfl⟩

theorem foldr_max_le (l : List Nat) : ∀ x ∈ l, x ≤ l.foldr max 0 := by
  induction l with
  | nil => simp
  | cons a l ih =>
    intro x hx
    simp only [List.foldr_cons]
    rcases List.mem_cons.1 hx with rfl | h
    · exact le_max_left _ _
    · exact le_trans (ih x h) (le_max_right _ _)

theorem foldr_max_mem (l : List Nat) (h : l ≠ []) : l.foldr max 0 ∈ l := by
  induction l with
  | nil => exact absurd rfl h
  | cons a l ih =>
    simp only [List.foldr_cons]
    by_cases hl : l = []
    · subst hl; simp
    · rcases max_choice a (l.foldr max 0) with h1 | h1
      · rw [h1]; exact List.mem_cons_self _ _
      · rw [h1]; exact List.mem_cons_of_mem _ (ih hl)

theorem maxId_le (rs : List PolicyResult) (x : PolicyResult) (hx : x ∈ rs) :
    x.Id ≤ maxId rs :=
  foldr_max_le _ _ (List.mem_map_of_mem _ hx)

theorem maxId_mem (rs : List PolicyResult) (h : rs ≠ []) : ∃ x ∈ rs, x.Id = maxId rs := by
  have hne : rs.map PolicyResult.Id ≠ [] := by simpa using h
  exact List.mem_map.1 (foldr_max_mem _ hne)

theorem groupKey_key (scope : String) (key : PolicyResult → models.Id) (x y : PolicyResult)
    (h : PolicySummary.groupKey scope key y = PolicySummary.groupKey scope key x) :
    key y = key x := by
  unfold PolicySummary.groupKey at h
  by_cases hs : scope = consts.ScopeTask
  · simp only [hs, if_true, Prod.mk.injEq] at h
    exact h.1
  · simp only [hs, if_false, Prod.mk.injEq] at h
    exact h.1

theorem subQuery_mem (rows : List PolicyResult) (ids : List models.Id) (scope : String)
    (key : PolicyResult → models.Id) (i : Nat) :
    i ∈ PolicySummary.subQuery rows ids scope key ↔
      ∃ x ∈ rows, x.Id = i ∧ PolicySummary.IsLatest rows ids scope key x := by
  unfold PolicySummary.subQuery PolicySummary.IsLatest
  simp only [List.mem_map, List.mem_dedup, List.mem_filter]
  constructor
  · rintro ⟨g, ⟨x0, ⟨hx0, hc0⟩, hg⟩, rfl⟩
    have hne : (List.filter (fun r => PolicySummary.groupKey scope key r == g)
        (List.filter (fun r => ids.contains (key r)) rows)) ≠ [] := by
      apply List.ne_nil_of_mem (a := x0)
      exact List.mem_filter.2 ⟨List.mem_filter.2 ⟨hx0, hc0⟩, by simp [hg]⟩
    obtain ⟨x, hx, hxm⟩ := maxId_mem _ hne
    obtain ⟨hx1, hx2⟩ := List.mem_filter.1 hx
    obtain ⟨hxr, hxc⟩ := List.mem_filter.1 hx1
    have hxg : PolicySummary.groupKey scope key x = g := by simpa using hx2
    refine ⟨x, hxr, hxm, hxc, ?_⟩
    intro y hy hyx
    rw [hxm]
    apply maxId_le
    refine List.mem_filter.2 ⟨List.mem_filter.2 ⟨hy, ?_⟩, ?_⟩
    · rw [groupKey_key scope key x y hyx]; exact hxc
    · simp [hyx, hxg]
  · rintro ⟨x, hxr, rfl, hxc, hmax⟩
    refine ⟨PolicySummary.groupKey scope key x, ⟨x, ⟨hxr, hxc⟩, rfl⟩, ?_⟩
    have hxin : x ∈ List.filter
        (fun r => PolicySummary.groupKey scope key r == PolicySummary.groupKey scope key x)
        (List.filter (fun r => ids.contains (key r)) rows) :=
      List.mem_filter.2 ⟨List.mem_filter.2 ⟨hxr, hxc⟩, by simp⟩
    obtain ⟨y, hy, hym⟩ := maxId_mem _ (List.ne_nil_of_mem hxin)
    obtain ⟨hy1, hy2⟩ := List.mem_filter.1 hy
    have hyr : y ∈ rows := (List.mem_filter.1 hy1).1
    have h1 : y.Id ≤ x.Id := hmax y hyr (by simpa using hy2)
    have h2 : x.Id ≤ maxId _ := maxId_le _ x hxin
    omega

theorem contains_nat_iff (l : List Nat) (a : Nat) : l.contains a = true ↔ a ∈ l := by
  simp

theorem counted_mem (rows : List PolicyResult) (hU : (rows.map PolicyResult.Id).Nodup)
    (ids : List models.Id) (scope : String) (key : PolicyResult → models.Id)
    (r : PolicyResult) :
    r ∈ PolicySummary.counted rows ids scope key ↔
      r ∈ rows ∧ PolicySummary.IsLatest rows ids scope key r := by
  unfold PolicySummary.counted
  rw [List.mem_filter, contains_nat_iff, subQuery_mem]
  constructor
  · rintro ⟨hr, x, hx, hxi, hl⟩
    have : x = r := List.inj_on_of_nodup_map hU hx hr hxi
    exact ⟨hr, this ▸ hl⟩
  · rintro ⟨hr, hl⟩
    exact ⟨hr, r, hr, rfl, hl⟩

theorem count_pairs (M : List PolicyResult) (key : PolicyResult → models.Id)
    (ks : models.Id × String) :
    @List.count (models.Id × String) instBEqOfDecidableEq ks
        (M.map (fun r => (key r, r.Status))) =
      M.countP (fun r => key r == ks.1 && r.Status == ks.2) := by
  rw [@List.count_eq_countP _ instBEqOfDecidableEq, List.countP_map]
  apply List.countP_congr
  intro r _
  obtain ⟨k, s⟩ := ks
  simp only [Function.comp]
  have h1 : (@BEq.beq _ instBEqOfDecidableEq (key r, r.Status) (k, s)) =
      decide ((key r, r.Status) = (k, s)) := rfl
  rw [h1]
  simp [Prod.ext_iff]

theorem sum_groupCount (M : List PolicyResult) (key : PolicyResult → models.Id)
    (p : models.Id × String → Bool) :
    (((groupCount M key).filter (fun x => p (x.Id, x.Status))).map
      PolicyScanSummary.Count).sum = M.countP (fun r => p (key r, r.Status)) := by
  have h := List.sum_map_count_dedup_filter_eq_countP p (M.map (fun r => (key r, r.Status)))
  rw [List.countP_map] at h
  have h2 : M.countP (fun r => p (key r, r.Status)) =
      M.countP (p ∘ fun r => (key r, r.Status)) := rfl
  rw [h2, ← h]
  unfold groupCount
  simp only [List.filter_map, List.map_map]
  congr 1
  apply List.map_congr_left
  intro ks _
  simp only [Function.comp]
  exact (count_pairs M key ks).symm

theorem summaryCount_groupCount (M : List PolicyResult) (key : PolicyResult → models.Id)
    (k : models.Id) (s : String) :
    summaryCount (groupCount M key) k s = M.countP (fun r => key r == k && r.Status == s) :=
  sum_groupCount M key (fun ks => ks.1 == k && ks.2 == s)

theorem summaryTotal_groupCount (M : List PolicyResult) (key : PolicyResult → models.Id)
    (k : models.Id) :
    summaryTotal (groupCount M key) k = M.countP (fun r => key r == k) :=
  sum_groupCount M key (fun ks => ks.1 == k)

theorem groupCount_keys_nodup (M : List PolicyResult) (key : PolicyResult → models.Id) :
    ((groupCount M key).map (fun x => (x.Id, x.Status))).Nodup := by
  unfold groupCount
  simp only [List.map_map]
  have : ((fun x : PolicyScanSummary => (x.Id, x.Status)) ∘
      (fun ks : models.Id × String =>
        (⟨ks.1, M.countP (fun r => key r == ks.1 && r.Status == ks.2), ks.2⟩ :
          PolicyScanSummary))) = id := by
    funext ks; rfl
  rw [this, List.map_id]
  exact List.nodup_dedup _

theorem groupCount_mem (M : List PolicyResult) (key : PolicyResult → models.Id)
    (x : PolicyScanSummary) :
    x ∈ groupCount M key ↔
      x.Count = M.countP (fun r => key r == x.Id && r.Status == x.Status) ∧ x.Count ≠ 0 := by
  unfold groupCount
  simp only [List.mem_map, List.mem_dedup]
  constructor
  · rintro ⟨ks, ⟨r, hr, rfl⟩, rfl⟩
    refine ⟨rfl, ?_⟩
    have : 0 < M.countP (fun r' => key r' == key r && r'.Status == r.Status) :=
      List.countP_pos_iff.2 ⟨r, hr, by simp⟩
    simp only [ne_eq]
    omega
  · rintro ⟨hc, hne⟩
    have hpos : 0 < M.countP (fun r => key r == x.Id && r.Status == x.Status) := by
      omega
    obtain ⟨r, hr, hrx⟩ := List.countP_pos_iff.1 hpos
    simp only [Bool.and_eq_true, beq_iff_eq] at hrx
    refine ⟨(x.Id, x.Status), ⟨r, hr, by rw [hrx.1, hrx.2]⟩, ?_⟩
    obtain ⟨i, c, st⟩ := x
    simp only [PolicyScanSummary.mk.injEq, true_and, and_true]
    exact hc.symm

theorem summaryKey_cases (scope : String) (key : PolicyResult → models.Id)
    (h : PolicySummary.key scope = some key) :
    (scope = consts.ScopePolicy ∧ key = PolicyResult.PolicyId) ∨
    (scope = consts.ScopePolicyGroup ∧ key = PolicyResult.PolicyGroupId) ∨
    (scope = consts.ScopeTask ∧ key = PolicyResult.TaskId) := by
  unfold PolicySummary.key at h
  by_cases h1 : scope = consts.ScopePolicy
  · rw [if_pos h1] at h
    exact Or.inl ⟨h1, (Option.some.inj h).symm⟩
  · rw [if_neg h1] at h
    by_cases h2 : scope = consts.ScopePolicyGroup
    · rw [if_pos h2] at h
      exact Or.inr (Or.inl ⟨h2, (Option.some.inj h).symm⟩)
    · rw [if_neg h2] at h
      by_cases h3 : scope = consts.ScopeTask
      · rw [if_pos h3] at h
        exact Or.inr (Or.inr ⟨h3, (Option.some.inj h).symm⟩)
      · rw [if_neg h3] at h
        cases h

theorem scopeKey_eq (scope : String) (key : PolicyResult → models.Id)
    (h : PolicySummary.key scope = some key) : scopeKey scope = key := by
  funext r
  rcases summaryKey_cases scope key h with ⟨rfl, rfl⟩ | ⟨rfl, rfl⟩ | ⟨rfl, rfl⟩
  · rw [scopeKey, if_neg (by decide), if_neg (by decide), if_pos rfl]
  · rw [scopeKey, if_neg (by decide), if_pos rfl]
  · rw [scopeKey, if_pos rfl]

theorem groupingKey_eq_iff (scope : String) (key : PolicyResult → models.Id)
    (h : PolicySummary.key scope = some key) (x y : PolicyResult) :
    groupingKey scope x = groupingKey scope y ↔
      PolicySummary.groupKey scope key x = PolicySummary.groupKey scope key y := by
  rcases summaryKey_cases scope key h with ⟨rfl, rfl⟩ | ⟨rfl, rfl⟩ | ⟨rfl, rfl⟩
  · rw [groupingKey, groupingKey, PolicySummary.groupKey, PolicySummary.groupKey,
      if_neg (by decide), if_neg (by decide), if_pos rfl, if_neg (by decide),
      if_neg (by decide), if_pos rfl, if_neg (by decide), if_neg (by decide)]
    simp
  · rw [groupingKey, groupingKey, PolicySummary.groupKey, PolicySummary.groupKey,
      if_neg (by decide), if_pos rfl, if_neg (by decide), if_pos rfl, if_neg (by decide),
      if_neg (by decide)]
    simp
  · rw [groupingKey, groupingKey, PolicySummary.groupKey, PolicySummary.groupKey,
      if_pos rfl, if_pos rfl, if_pos rfl, if_pos rfl]
    simp

theorem countedRow_iff (rows : List PolicyResult) (ids : List models.Id) (scope : String)
    (key : PolicyResult → models.Id) (h : PolicySummary.key scope = some key)
    (m : PolicyResult) :
    CountedRow rows ids scope m ↔ m ∈ rows ∧ PolicySummary.IsLatest rows ids scope key m := by
  unfold CountedRow PolicySummary.IsLatest
  rw [scopeKey_eq scope key h]
  constructor
  · rintro ⟨hm, hc, hmax⟩
    exact ⟨hm, hc, fun y hy hyg => hmax y hy ((groupingKey_eq_iff scope key h y m).2 hyg)⟩
  · rintro ⟨hm, hc, hmax⟩
    exact ⟨hm, hc, fun y hy hyg => hmax y hy ((groupingKey_eq_iff scope key h y m).1 hyg)⟩

theorem isLatest_inj (rows : List PolicyResult) (hU : (rows.map PolicyResult.Id).Nodup)
    (ids : List models.Id) (scope : String) (key : PolicyResult → models.Id)
    (x y : PolicyResult) (hx : x ∈ rows) (hy : y ∈ rows)
    (hlx : PolicySummary.IsLatest rows ids scope key x)
    (hly : PolicySummary.IsLatest rows ids scope key y)
    (hg : PolicySummary.groupKey scope key x = PolicySummary.groupKey scope key y) :
    x = y := by
  have h1 : x.Id ≤ y.Id := hly.2 x hx hg
  have h2 : y.Id ≤ x.Id := hlx.2 y hy hg.symm
  exact List.inj_on_of_nodup_map hU hx hy (le_antisymm h1 h2)

theorem counted_nodup (rows : List PolicyResult) (hU : (rows.map PolicyResult.Id).Nodup)
    (ids : List models.Id) (scope : String) (key : PolicyResult → models.Id) :
    (PolicySummary.counted rows ids scope key).Nodup :=
  (List.Nodup.of_map _ hU).sublist (List.filter_sublist _)

theorem countP_counted_eq_latestCount (rows : List PolicyResult)
    (hU : (rows.map PolicyResult.Id).Nodup) (ids : List models.Id) (scope : String)
    (key : PolicyResult → models.Id) (hk : PolicySummary.key scope = some key)
    (k : models.Id) (s : String) :
    (PolicySummary.counted rows ids scope key).countP
        (fun r => key r == k && r.Status == s) =
      latestCount rows ids scope k s := by
  unfold latestCount
  rw [scopeKey_eq scope key hk, List.countP_eq_length_filter]
  have hbridge := groupingKey_eq_iff scope key hk
  have hperm : (((PolicySummary.counted rows ids scope key).filter
      (fun r => key r == k && r.Status == s)).map (groupingKey scope)).Perm
      ((((rows.filter (fun r => ids.contains (key r))).map (groupingKey scope)).dedup).filter
        (fun g =>
          (rows.filter (fun r => ids.contains (key r))).any (fun x =>
            groupingKey scope x == g &&
            (rows.filter (fun r => ids.contains (key r))).all (fun y =>
              groupingKey scope y != g || decide (y.Id ≤ x.Id)) &&
            key x == k && x.Status == s))) := by
    rw [List.perm_ext_iff_of_nodup]
    · intro g
      simp only [List.mem_map, List.mem_filter, List.mem_dedup, List.any_eq_true,
        List.all_eq_true, Bool.and_eq_true, Bool.or_eq_true, beq_iff_eq, bne_iff_ne,
        decide_eq_true_eq, counted_mem rows hU ids scope key]
      constructor
      · rintro ⟨x, ⟨⟨hx, hl⟩, hk1, hs1⟩, rfl⟩
        refine ⟨⟨x, ⟨hx, hl.1⟩, rfl⟩, x, ⟨hx, hl.1⟩, ⟨⟨⟨rfl, ?_⟩, hk1⟩, hs1⟩⟩
        intro y hy
        by_cases hyg : groupingKey scope y = groupingKey scope x
        · exact Or.inr (hl.2 y hy.1 ((hbridge y x).1 hyg))
        · exact Or.inl hyg
      · rintro ⟨-, x, ⟨hx, hc⟩, ⟨⟨⟨rfl, hall⟩, hk1⟩, hs1⟩⟩
        refine ⟨x, ⟨⟨hx, hc, ?_⟩, hk1, hs1⟩, rfl⟩
        intro y hy hyg
        have hyc : ids.contains (key y) = true := by
          rw [groupKey_key scope key x y hyg]; exact hc
        rcases hall y ⟨hy, hyc⟩ with h | h
        · exact absurd ((hbridge y x).2 hyg) h
        · exact h
    · apply List.Nodup.map_on
      · intro x hx y hy hxy
        have hx1 := (counted_mem rows hU ids scope key x).1 (List.mem_filter.1 hx).1
        have hy1 := (counted_mem rows hU ids scope key y).1 (List.mem_filter.1 hy).1
        exact isLatest_inj rows hU ids scope key x y hx1.1 hy1.1 hx1.2 hy1.2
          ((hbridge x y).1 hxy)
      · exact (counted_nodup rows hU ids scope key).sublist (List.filter_sublist _)
    · exact (List.nodup_dedup _).sublist (List.filter_sublist _)
  rw [← hperm.length_eq, List.length_map]

theorem eq_singleton_of_nodup {α : Type} (l : List α) (m : α) (hn : l.Nodup) (hm : m ∈ l)
    (hall : ∀ z ∈ l, z = m) : l = [m] := by
  cases l with
  | nil => simp at hm
  | cons a t =>
    have ha : a = m := hall a (List.mem_cons_self _ _)
    subst ha
    cases t with
    | nil => rfl
    | cons b t2 =>
      have hb : b = a := hall b (List.mem_cons_of_mem _ (List.mem_cons_self _ _))
      subst hb
      simp at hn

theorem counted_split (rows : List PolicyResult) (hU : (rows.map PolicyResult.Id).Nodup)
    (ids : List models.Id) (scope : String) (key : PolicyResult → models.Id)
    (m : PolicyResult) (hm : m ∈ PolicySummary.counted rows ids scope key)
    (P : PolicyResult → Bool) :
    (PolicySummary.counted rows ids scope key).countP P =
      ((PolicySummary.counted rows ids scope key).filter (fun z =>
        PolicySummary.groupKey scope key z != PolicySummary.groupKey scope key m)).countP P +
      (if P m = true then 1 else 0) := by
  rw [List.countP_eq_countP_filter_add (PolicySummary.counted rows ids scope key) P
    (fun z => PolicySummary.groupKey scope key z != PolicySummary.groupKey scope key m)]
  congr 1
  have hsingle : (PolicySummary.counted rows ids scope key).filter (fun z =>
      !(PolicySummary.groupKey scope key z != PolicySummary.groupKey scope key m)) = [m] := by
    apply eq_singleton_of_nodup
    · exact (counted_nodup rows hU ids scope key).sublist (List.filter_sublist _)
    · exact List.mem_filter.2 ⟨hm, by simp⟩
    · intro z hz
      obtain ⟨hz1, hz2⟩ := List.mem_filter.1 hz
      have hzg : PolicySummary.groupKey scope key z = PolicySummary.groupKey scope key m := by
        simpa using hz2
      have hz3 := (counted_mem rows hU ids scope key z).1 hz1
      have hm3 := (counted_mem rows hU ids scope key m).1 hm
      exact isLatest_inj rows hU ids scope key z m hz3.1 hm3.1 hz3.2 hm3.2 hzg
  rw [hsingle]
  by_cases hP : P m = true <;> simp [hP]

theorem nodup_ids_append (rows : List PolicyResult) (r : PolicyResult)
    (hU : (rows.map PolicyResult.Id).Nodup) (hfresh : ∀ y ∈ rows, y.Id ≠ r.Id) :
    ((rows ++ [r]).map PolicyResult.Id).Nodup := by
  rw [List.map_append, List.nodup_append]
  refine ⟨hU, by simp, ?_⟩
  intro i hi hi2
  obtain ⟨y, hy, rfl⟩ := List.mem_map.1 hi
  simp only [List.map_cons, List.map_nil, List.mem_singleton] at hi2
  exact hfresh y hy hi2

theorem counted_insert_newer (rows : List PolicyResult)
    (hU : (rows.map PolicyResult.Id).Nodup) (ids : List models.Id) (scope : String)
    (key : PolicyResult → models.Id) (r : PolicyResult)
    (hnew : ∀ y ∈ rows, y.Id < r.Id) (hc : ids.contains (key r) = true) :
    PolicySummary.counted (rows ++ [r]) ids scope key =
      (PolicySummary.counted rows ids scope key).filter (fun z =>
        PolicySummary.groupKey scope key z != PolicySummary.groupKey scope key r) ++ [r] := by
  have hU2 := nodup_ids_append rows r hU (fun y hy => Nat.ne_of_lt (hnew y hy))
  have hr : r ∈ PolicySummary.counted (rows ++ [r]) ids scope key := by
    rw [counted_mem _ hU2]
    refine ⟨by simp, hc, ?_⟩
    intro y hy _
    rcases List.mem_append.1 hy with h | h
    · exact Nat.le_of_lt (hnew y h)
    · simp only [List.mem_singleton] at h
      rw [h]
  unfold PolicySummary.counted at hr ⊢
  rw [List.filter_append, List.filter_filter]
  congr 1
  · apply List.filter_congr
    intro z hz
    rw [Bool.eq_iff_iff]
    have h1 := counted_mem (rows ++ [r]) hU2 ids scope key z
    have h2 := counted_mem rows hU ids scope key z
    unfold PolicySummary.counted at h1 h2
    simp only [List.mem_filter, List.mem_append, List.mem_singleton, hz, true_or,
      true_and] at h1 h2
    rw [h1, Bool.and_eq_true, h2]
    simp only [bne_iff_ne, ne_eq]
    constructor
    · rintro ⟨hzc, hmax⟩
      refine ⟨?_, hzc, fun y hy hyg => hmax y (List.mem_append_left _ hy) hyg⟩
      intro hg
      have := hmax r (by simp) hg.symm
      have := hnew z hz
      omega
    · rintro ⟨hne, hzc, hmax⟩
      refine ⟨hzc, ?_⟩
      intro y hy hyg
      rcases List.mem_append.1 hy with h | h
      · exact hmax y h hyg
      · simp only [List.mem_singleton] at h
        subst h
        exact absurd hyg.symm hne
  · have := (contains_nat_iff _ _).1 (List.mem_filter.1 hr).2
    simp [this]

theorem counted_insert_older (rows : List PolicyResult) (ids : List models.Id)
    (scope : String) (key : PolicyResult → models.Id) (r m : PolicyResult)
    (hfresh : ∀ y ∈ rows, y.Id ≠ r.Id) (hm : m ∈ rows)
    (hg : PolicySummary.groupKey scope key m = PolicySummary.groupKey scope key r)
    (hlt : r.Id < m.Id) :
    PolicySummary.counted (rows ++ [r]) ids scope key =
      PolicySummary.counted rows ids scope key := by
  unfold PolicySummary.counted
  rw [List.filter_append]
  have hr : ¬ r.Id ∈ PolicySummary.subQuery (rows ++ [r]) ids scope key := by
    rw [subQuery_mem]
    rintro ⟨x, hx, hxi, -, hmax⟩
    rcases List.mem_append.1 hx with h | h
    · exact hfresh x h hxi
    · simp only [List.mem_singleton] at h
      subst h
      have := hmax m (List.mem_append_left _ hm) hg
      omega
  have hnil : List.filter (fun r_1 =>
      (PolicySummary.subQuery (rows ++ [r]) ids scope key).contains r_1.Id) [r] = [] := by
    simp [hr]
  rw [hnil, List.append_nil]
  apply List.filter_congr
  intro z hz
  rw [Bool.eq_iff_iff, contains_nat_iff, contains_nat_iff, subQuery_mem, subQuery_mem]
  constructor
  · rintro ⟨x, hx, hxi, hxc, hmax⟩
    rcases List.mem_append.1 hx with h | h
    · exact ⟨x, h, hxi, hxc, fun y hy hyg => hmax y (List.mem_append_left _ hy) hyg⟩
    · simp only [List.mem_singleton] at h
      subst h
      exact absurd hxi.symm (hfresh z hz)
  · rintro ⟨x, hx, hxi, hxc, hmax⟩
    refine ⟨x, List.mem_append_left _ hx, hxi, hxc, ?_⟩
    intro y hy hyg
    rcases List.mem_append.1 hy with h | h
    · exact hmax y h hyg
    · simp only [List.mem_singleton] at h
      subst h
      have := hmax m hm (hg.trans hyg)
      omega

theorem summaryScope_key (scope : String) (hs : SummaryScope scope) :
    PolicySummary.key scope = some (scopeKey scope) := by
  have h : ∃ key, PolicySummary.key scope = some key := by
    unfold PolicySummary.key
    rcases hs with h | h | h
    · exact ⟨_, by rw [if_pos h]⟩
    · by_cases h1 : scope = consts.ScopePolicy
      · exact ⟨_, by rw [if_pos h1]⟩
      · exact ⟨_, by rw [if_neg h1, if_pos h]⟩
    · by_cases h1 : scope = consts.ScopePolicy
      · exact ⟨_, by rw [if_pos h1]⟩
      · by_cases h2 : scope = consts.ScopePolicyGroup
        · exact ⟨_, by rw [if_neg h1, if_pos h2]⟩
        · exact ⟨_, by rw [if_neg h1, if_neg h2, if_pos h]⟩
  obtain ⟨key, hk⟩ := h
  rw [scopeKey_eq scope key hk, hk]

theorem PolicySummary_ok (query : Session) (ids : List models.Id) (scope : String)
    (hs : SummaryScope scope) (hf : query.fault Query.policySummary = none) :
    PolicySummary query ids scope =
      (groupCount (PolicySummary.counted query.policyResults ids scope (scopeKey scope))
        (scopeKey scope), none) := by
  unfold PolicySummary
  rw [summaryScope_key scope hs]
  simp only [hf]

theorem groupKey_of_triple (scope : String) (key : PolicyResult → models.Id)
    (x y : PolicyResult) (hk : key y = key x) (he : y.EnvId = x.EnvId)
    (ht : y.TplId = x.TplId) (hp : y.PolicyId = x.PolicyId) :
    PolicySummary.groupKey scope key y = PolicySummary.groupKey scope key x := by
  unfold PolicySummary.groupKey
  by_cases hs : scope = consts.ScopeTask <;> simp [hs, hk, he, ht, hp]

theorem flatMap_ite_singleton {α : Type} (l : List α) (c : α → Bool) :
    l.flatMap (fun r => if c r = true then [r] else []) = l.filter c := by
  induction l with
  | nil => rfl
  | cons a t ih =>
    rw [List.flatMap_cons, ih]
    by_cases h : c a = true
    · simp [h]
    · simp [h]

theorem join_target_single (table : List (models.Id × models.Id))
    (hPK : TargetPrimaryKey table) (k t : models.Id) :
    table.filter (fun x => x.1 == k && x.2 == t) =
      if table.contains (k, t) = true then [(k, t)] else [] := by
  have hall : ∀ z ∈ table.filter (fun x => x.1 == k && x.2 == t), z = (k, t) := by
    intro z hz
    have := (List.mem_filter.1 hz).2
    simp only [Bool.and_eq_true, beq_iff_eq] at this
    exact Prod.ext this.1 this.2
  by_cases hmem : (k, t) ∈ table
  · have hc : table.contains (k, t) = true := by simpa using hmem
    rw [if_pos hc]
    apply eq_singleton_of_nodup
    · exact (List.Nodup.of_map _ hPK).sublist (List.filter_sublist _)
    · exact List.mem_filter.2 ⟨hmem, by simp⟩
    · exact hall
  · have hc : ¬ table.contains (k, t) = true := by simpa using hmem
    rw [if_neg hc]
    apply List.eq_nil_iff_forall_not_mem.2
    intro z hz
    exact hmem (hall z hz ▸ (List.mem_filter.1 hz).1)

theorem targetCounted_mem (rows : List PolicyResult) (table : List (models.Id × models.Id))
    (ids : List models.Id) (key : PolicyResult → models.Id) (r : PolicyResult) :
    r ∈ PolicyTargetSummary.counted rows table ids key ↔
      r ∈ rows ∧ ids.contains (key r) = true ∧ (key r, r.TaskId) ∈ table := by
  unfold PolicyTargetSummary.counted
  simp only [List.mem_filter, List.mem_flatMap, List.mem_map, Bool.and_eq_true, beq_iff_eq]
  constructor
  · rintro ⟨⟨x, hx, t, ⟨ht, ht1, ht2⟩, rfl⟩, hc⟩
    refine ⟨hx, hc, ?_⟩
    have : t = (key x, x.TaskId) := Prod.ext ht1 ht2
    exact this ▸ ht
  · rintro ⟨hr, hc, ht⟩
    exact ⟨⟨r, hr, (key r, r.TaskId), ⟨ht, rfl, rfl⟩, rfl⟩, hc⟩

theorem targetCounted_eq_filter (rows : List PolicyResult)
    (table : List (models.Id × models.Id)) (hPK : TargetPrimaryKey table)
    (ids : List models.Id) (key : PolicyResult → models.Id) :
    PolicyTargetSummary.counted rows table ids key =
      rows.filter (fun r => ids.contains (key r) && table.contains (key r, r.TaskId)) := by
  unfold PolicyTargetSummary.counted
  have h : (fun r : PolicyResult =>
      (table.filter (fun t => t.1 == key r && t.2 == r.TaskId)).map (fun _ => r)) =
      (fun r => if table.contains (key r, r.TaskId) = true then [r] else []) := by
    funext r
    rw [join_target_single table hPK]
    by_cases hc : table.contains (key r, r.TaskId) = true
    · rw [if_pos hc, if_pos hc]; rfl
    · rw [if_neg hc, if_neg hc]; rfl
  rw [h, flatMap_ite_singleton, List.filter_filter]

theorem PolicyTargetSummary_ok (query : Session) (ids : List models.Id) (scope : String)
    (key : PolicyResult → models.Id) (table : List (models.Id × models.Id))
    (ht : PolicyTargetSummary.target query scope = some (key, table))
    (hf : query.fault Query.policyTargetSummary = none) :
    PolicyTargetSummary query ids scope =
      (groupCount (PolicyTargetSummary.counted query.policyResults table ids key) key,
        none) := by
  unfold PolicyTargetSummary
  rw [ht]
  simp only [hf]


theorem groupByDate_mem (rows : List PolicyResult) (x : ScanStatus) :
    x ∈ groupByDate rows ↔
      x.Count = rows.countP (fun r => dateOf r.StartAt == x.Date && r.Status == x.Status) ∧
        x.Count ≠ 0 := by
  unfold groupByDate
  rw [(List.perm_insertionSort _ _).mem_iff]
  simp only [List.mem_map, List.mem_dedup]
  constructor
  · rintro ⟨ds, ⟨r, hr, rfl⟩, rfl⟩
    refine ⟨rfl, ?_⟩
    have : 0 < rows.countP (fun r' => dateOf r'.StartAt == dateOf r.StartAt &&
        r'.Status == r.Status) :=
      List.countP_pos_iff.2 ⟨r, hr, by simp⟩
    simp only [ne_eq]
    omega
  · rintro ⟨hc, hne⟩
    have hpos : 0 < rows.countP (fun r => dateOf r.StartAt == x.Date &&
        r.Status == x.Status) := by
      omega
    obtain ⟨r, hr, hrx⟩ := List.countP_pos_iff.1 hpos
    simp only [Bool.and_eq_true, beq_iff_eq] at hrx
    refine ⟨(x.Date, x.Status), ⟨r, hr, by rw [hrx.1, hrx.2]⟩, ?_⟩
    obtain ⟨d, c, st⟩ := x
    simp only [ScanStatus.mk.injEq, true_and, and_true]
    exact hc.symm

theorem groupByDate_removePending (rows : List PolicyResult) (x : ScanStatus) :
    x ∈ groupByDate (rows.filter (fun r => r.Status != "pending")) ↔
      x ∈ groupByDate rows ∧ x.Status ≠ "pending" := by
  rw [groupByDate_mem, groupByDate_mem, List.countP_filter]
  by_cases hx : x.Status = "pending"
  · have h0 : rows.countP (fun a =>
        (dateOf a.StartAt == x.Date && a.Status == x.Status) && (a.Status != "pending")) =
        0 := by
      rw [List.countP_eq_zero]
      intro a _
      simp only [Bool.and_eq_true, beq_iff_eq, bne_iff_ne, ne_eq, not_and, not_not]
      intro h
      rw [h.2, hx]
    rw [h0]
    constructor
    · rintro ⟨h1, h2⟩
      exact absurd h1 h2
    · rintro ⟨_, h2⟩
      exact absurd hx h2
  · have heq : rows.countP (fun a =>
        (dateOf a.StartAt == x.Date && a.Status == x.Status) && (a.Status != "pending")) =
        rows.countP (fun r => dateOf r.StartAt == x.Date && r.Status == x.Status) := by
      apply List.countP_congr
      intro a _
      simp only [Bool.and_eq_true, beq_iff_eq, bne_iff_ne, ne_eq]
      constructor
      · rintro ⟨h, _⟩
        exact h
      · intro h
        exact ⟨h, by rw [h.2]; exact hx⟩
    rw [heq]
    constructor
    · intro h
      exact ⟨h, hx⟩
    · rintro ⟨h, _⟩
      exact h

theorem scanStatusKey_eq (scope : String)
    (hs : scope = consts.ScopePolicy ∨ scope = consts.ScopePolicyGroup) :
    GetPolicyScanStatus.key scope = some (scopeKey scope) := by
  rcases hs with rfl | rfl
  · rw [GetPolicyScanStatus.key, if_neg (by decide), if_pos rfl]
    rfl
  · rw [GetPolicyScanStatus.key, if_pos rfl]
    rfl

theorem countSuppressed_count (rows : List (models.Id × models.Id × String))
    (t : models.Id) :
    ((rows.dedup.map (fun row => (row.1, row.2.1))).dedup).countP (fun pt => pt.2 == t) =
      (((rows.filter (fun row => row.2.1 == t)).map (fun row => row.1)).dedup).length := by
  rw [List.countP_eq_length_filter, ← List.length_map _ (Prod.fst : models.Id × models.Id → _)]
  apply List.Perm.length_eq
  rw [List.perm_ext_iff_of_nodup]
  · intro p
    simp only [List.mem_map, List.mem_filter, List.mem_dedup, beq_iff_eq]
    constructor
    · rintro ⟨pt, ⟨⟨row, hrow, rfl⟩, ht⟩, rfl⟩
      exact ⟨row, ⟨hrow, ht⟩, rfl⟩
    · rintro ⟨row, ⟨hrow, ht⟩, rfl⟩
      exact ⟨(row.1, row.2.1), ⟨⟨row, hrow, rfl⟩, ht⟩, rfl⟩
  · apply List.Nodup.map_on
    · intro a ha b hb hab
      have h1 := (List.mem_filter.1 ha).2
      have h2 := (List.mem_filter.1 hb).2
      simp only [beq_iff_eq] at h1 h2
      exact Prod.ext hab (h1.trans h2.symm)
    · exact (List.nodup_dedup _).sublist (List.filter_sublist _)
  · exact List.nodup_dedup _

theorem countSuppressed_mem (rows : List (models.Id × models.Id × String))
    (x : PolicyScanSummary) :
    x ∈ countSuppressed rows ↔
      x.Status = "suppressed" ∧
        x.Count = (((rows.filter (fun row => row.2.1 == x.Id)).map
          (fun row => row.1)).dedup).length ∧ x.Count ≠ 0 := by
  unfold countSuppressed
  simp only [List.mem_map, List.mem_dedup]
  constructor
  · rintro ⟨t, ⟨pt, ⟨row, hrow, rfl⟩, rfl⟩, rfl⟩
    refine ⟨rfl, countSuppressed_count rows _, ?_⟩
    have : 0 < ((rows.dedup.map (fun row => (row.1, row.2.1))).dedup).countP
        (fun pt => pt.2 == row.2.1) :=
      List.countP_pos_iff.2 ⟨(row.1, row.2.1),
        List.mem_dedup.2 (List.mem_map.2 ⟨row, List.mem_dedup.2 hrow, rfl⟩), by simp⟩
    simp only [ne_eq]
    omega
  · rintro ⟨hs, hc, hne⟩
    rw [← countSuppressed_count rows x.Id] at hc
    have hpos : 0 < ((rows.dedup.map (fun row => (row.1, row.2.1))).dedup).countP
        (fun pt => pt.2 == x.Id) := by omega
    obtain ⟨pt, hpt, hptx⟩ := List.countP_pos_iff.1 hpos
    obtain ⟨row, hrow, rfl⟩ := List.mem_map.1 (List.mem_dedup.1 hpt)
    simp only [beq_iff_eq] at hptx
    refine ⟨x.Id, ⟨(row.1, row.2.1), ⟨row, List.mem_dedup.1 hrow, rfl⟩, hptx⟩, ?_⟩
    obtain ⟨i, c, st⟩ := x
    simp only [PolicyScanSummary.mk.injEq, true_and]
    exact ⟨hc.symm, hs.symm⟩

theorem countSuppressed_nodup (rows : List (models.Id × models.Id × String)) :
    ((countSuppressed rows).map PolicyScanSummary.Id).Nodup := by
  unfold countSuppressed
  simp only [List.map_map]
  have : (PolicyScanSummary.Id ∘ fun t : models.Id =>
      (⟨t, ((rows.dedup.map (fun row => (row.1, row.2.1))).dedup).countP
        (fun pt => pt.2 == t), "suppressed"⟩ : PolicyScanSummary)) = id := by
    funext t; rfl
  rw [this, List.map_id]
  exact List.nodup_dedup _

theorem likeMatch_percent (rest : List Char) : likeMatch ['%'] rest = true := by
  unfold likeMatch
  rw [if_pos rfl, List.any_eq_true]
  exact ⟨[], by simp, by simp [likeMatch]⟩

theorem likeMatch_append_percent (p rest : List Char) :
    likeMatch (p ++ ['%']) (p ++ rest) = true := by
  induction p with
  | nil => exact likeMatch_percent rest
  | cons c p ih =>
    rw [List.cons_append, List.cons_append]
    unfold likeMatch
    by_cases hc : c = '%'
    · rw [if_pos hc, List.any_eq_true]
      exact ⟨p ++ rest, by simp, ih⟩
    · rw [if_neg hc]
      simp [ih]

theorem lexLt_asymm : ∀ a b : List Char, lexLt a b = true → lexLt b a = false
  | [], [], h => by simp [lexLt] at h
  | [], _ :: _, _ => by simp [lexLt]
  | _ :: _, [], h => by simp [lexLt] at h
  | x :: as, y :: bs, h => by
    simp only [lexLt, Bool.or_eq_true, decide_eq_true_eq, Bool.and_eq_true] at h
    simp only [lexLt, Bool.or_eq_false_iff, decide_eq_false_iff_not, Bool.and_eq_false_iff]
    rcases h with h | ⟨hxy, h⟩
    · exact ⟨by omega, Or.inl (by rintro rfl; omega)⟩
    · subst hxy
      exact ⟨by omega, Or.inr (lexLt_asymm as bs h)⟩

theorem toNat_eq (x y : Char) (h : x.toNat = y.toNat) : x = y := by
  have := congrArg Char.ofNat h
  simpa [Char.ofNat_toNat] using this

theorem lexLt_cotrans : ∀ a b c : List Char, lexLt a c = true →
    lexLt a b = true ∨ lexLt b c = true
  | [], [], c, h => Or.inr h
  | [], _ :: _, _, _ => Or.inl (by simp [lexLt])
  | _ :: _, _, [], h => by simp [lexLt] at h
  | _ :: _, [], _ :: _, _ => Or.inr (by simp [lexLt])
  | x :: as, y :: bs, z :: cs, h => by
    simp only [lexLt, Bool.or_eq_true, decide_eq_true_eq, Bool.and_eq_true] at h ⊢
    rcases h with h | ⟨hxz, h⟩
    · by_cases hxy : x.toNat < y.toNat
      · exact Or.inl (Or.inl hxy)
      · exact Or.inr (Or.inl (by omega))
    · subst hxz
      rcases Nat.lt_trichotomy x.toNat y.toNat with hlt | heq | hgt
      · exact Or.inl (Or.inl hlt)
      · have hxy := toNat_eq x y heq
        subst hxy
        rcases lexLt_cotrans as bs cs h with h1 | h1
        · exact Or.inl (Or.inr ⟨rfl, h1⟩)
        · exact Or.inr (Or.inr ⟨rfl, h1⟩)
      · exact Or.inr (Or.inl hgt)

theorem refLt_asymm (a b : List Char) (h : refLt a b = true) : refLt b a = false := by
  simp only [refLt, Bool.or_eq_true, decide_eq_true_eq, Bool.and_eq_true] at h
  simp only [refLt, Bool.or_eq_false_iff, decide_eq_false_iff_not, Bool.and_eq_false_iff]
  rcases h with h | ⟨hl, h⟩
  · exact ⟨by omega, Or.inl (by omega)⟩
  · exact ⟨by omega, Or.inr (lexLt_asymm a b h)⟩

theorem refLt_cotrans (a b c : List Char) (h : refLt a c = true) :
    refLt a b = true ∨ refLt b c = true := by
  simp only [refLt, Bool.or_eq_true, decide_eq_true_eq, Bool.and_eq_true] at h ⊢
  rcases h with h | ⟨hl, h⟩
  · by_cases hab : a.length < b.length
    · exact Or.inl (Or.inl hab)
    · exact Or.inr (Or.inl (by omega))
  · rcases Nat.lt_trichotomy a.length b.length with hlt | heq | hgt
    · exact Or.inl (Or.inl hlt)
    · rcases lexLt_cotrans a b c h with h1 | h1
      · exact Or.inl (Or.inr ⟨heq, h1⟩)
      · exact Or.inr (Or.inr ⟨by omega, h1⟩)
    · exact Or.inr (Or.inl (by omega))

theorem lastByReferenceId_none (rows : List Policy) (h : lastByReferenceId rows = none) :
    rows = [] := by
  cases rows with
  | nil => rfl
  | cons p rows =>
    rw [lastByReferenceId] at h
    split at h
    · cases h
    · split at h <;> cases h

theorem lastByReferenceId_greatest : ∀ (rows : List Policy) (q : Policy),
    lastByReferenceId rows = some q →
    q ∈ rows ∧ ∀ m ∈ rows, refLt q.ReferenceId.data m.ReferenceId.data = false
  | [], q, h => by simp [lastByReferenceId] at h
  | p :: rows, q, h => by
    have hirr : ∀ a : List Char, refLt a a = false := by
      intro a
      cases ha : refLt a a with
      | false => rfl
      | true => rw [refLt_asymm a a ha] at ha; cases ha
    rw [lastByReferenceId] at h
    split at h
    · next hn =>
      have hrows := lastByReferenceId_none rows hn
      subst hrows
      cases h
      refine ⟨by simp, ?_⟩
      intro m hm
      simp at hm
      subst hm
      exact hirr _
    · next r hr =>
      obtain ⟨hmem, hmax⟩ := lastByReferenceId_greatest rows r hr
      split at h
      · next hlt =>
        cases h
        refine ⟨List.mem_cons_of_mem _ hmem, ?_⟩
        intro m hm
        rcases List.mem_cons.1 hm with rfl | hm
        · exact refLt_asymm _ _ hlt
        · exact hmax m hm
      · next hlt =>
        cases h
        refine ⟨List.mem_cons_self _ _, ?_⟩
        intro m hm
        rcases List.mem_cons.1 hm with rfl | hm
        · exact hirr _
        · cases hpm : refLt p.ReferenceId.data m.ReferenceId.data with
          | false => rfl
          | true =>
            rcases refLt_cotrans _ r.ReferenceId.data _ hpm with h1 | h1
            · exact absurd h1 hlt
            · rw [hmax m hm] at h1; cases h1

theorem isDigit_iff (c : Char) : isDigit c = true ↔ 48 ≤ c.toNat ∧ c.toNat ≤ 57 := by
  simp [isDigit]

theorem decimalValue_foldl (ds : List Char) : ∀ init : Nat,
    ds.foldl (fun acc c => acc * 10 + (c.toNat - 48)) init =
      init * 10 ^ ds.length + decimalValue ds := by
  induction ds with
  | nil => intro init; simp [decimalValue]
  | cons c ds ih =>
    intro init
    have h1 := ih (init * 10 + (c.toNat - 48))
    have h2 := ih (0 * 10 + (c.toNat - 48))
    simp only [decimalValue, List.foldl_cons, List.length_cons, pow_succ] at h1 h2 ⊢
    rw [h1, h2]
    ring

theorem decimalValue_cons (c : Char) (ds : List Char) :
    decimalValue (c :: ds) = (c.toNat - 48) * 10 ^ ds.length + decimalValue ds := by
  rw [decimalValue, List.foldl_cons, decimalValue_foldl]
  simp

theorem decimalValue_lt (ds : List Char) (h : ds.all isDigit = true) :
    decimalValue ds < 10 ^ ds.length := by
  induction ds with
  | nil => simp [decimalValue]
  | cons c ds ih =>
    rw [List.all_cons, Bool.and_eq_true] at h
    have hc := (isDigit_iff c).1 h.1
    have hd := ih h.2
    rw [decimalValue_cons, List.length_cons, pow_succ]
    have h9 : (c.toNat - 48) * 10 ^ ds.length ≤ 9 * 10 ^ ds.length :=
      Nat.mul_le_mul_right _ (by omega)
    omega

theorem decimalValue_ge (c : Char) (ds : List Char)
    (h : IsPositiveDecimal (c :: ds) = true) : 10 ^ ds.length ≤ decimalValue (c :: ds) := by
  simp only [IsPositiveDecimal, List.all_cons, Bool.and_eq_true, bne_iff_ne, ne_eq] at h
  have hc := (isDigit_iff c).1 h.2.1
  have hne : c.toNat ≠ 48 := fun h48 => h.1 (toNat_eq c '0' h48)
  rw [decimalValue_cons]
  have h1 : 1 * 10 ^ ds.length ≤ (c.toNat - 48) * 10 ^ ds.length :=
    Nat.mul_le_mul_right _ (by omega)
  omega

theorem IsPositiveDecimal_digits (ds : List Char) (h : IsPositiveDecimal ds = true) :
    ds.all isDigit = true := by
  cases ds with
  | nil => simp [IsPositiveDecimal] at h
  | cons c ds =>
    simp only [IsPositiveDecimal, Bool.and_eq_true] at h
    exact h.2

theorem lexLt_of_value_lt : ∀ a b : List Char, a.length = b.length →
    a.all isDigit = true → b.all isDigit = true → decimalValue a < decimalValue b →
    lexLt a b = true
  | [], [], _, _, _, h => by simp [decimalValue] at h
  | [], _ :: _, hl, _, _, _ => by simp at hl
  | _ :: _, [], hl, _, _, _ => by simp at hl
  | x :: as, y :: bs, hl, ha, hb, h => by
    rw [List.all_cons, Bool.and_eq_true] at ha hb
    have hx := (isDigit_iff x).1 ha.1
    have hy := (isDigit_iff y).1 hb.1
    have hlen : as.length = bs.length := by simpa using hl
    have hva := decimalValue_lt as ha.2
    have hvb := decimalValue_lt bs hb.2
    rw [decimalValue_cons, decimalValue_cons, hlen] at h
    rw [hlen] at hva
    simp only [lexLt, Bool.or_eq_true, decide_eq_true_eq, Bool.and_eq_true]
    rcases Nat.lt_trichotomy x.toNat y.toNat with hlt | heq | hgt
    · exact Or.inl hlt
    · have hxy := toNat_eq x y heq
      subst hxy
      exact Or.inr ⟨rfl, lexLt_of_value_lt as bs hlen ha.2 hb.2 (by omega)⟩
    · exfalso
      have h1 : (y.toNat - 48 + 1) * 10 ^ bs.length ≤ (x.toNat - 48) * 10 ^ bs.length :=
        Nat.mul_le_mul_right _ (by omega)
      rw [Nat.add_mul] at h1
      omega

theorem refLt_of_value_lt (a b : List Char) (ha : IsPositiveDecimal a = true)
    (hb : IsPositiveDecimal b = true) (h : decimalValue a < decimalValue b) :
    refLt a b = true := by
  have hda := IsPositiveDecimal_digits a ha
  have hdb := IsPositiveDecimal_digits b hb
  simp only [refLt, Bool.or_eq_true, decide_eq_true_eq, Bool.and_eq_true]
  rcases Nat.lt_trichotomy a.length b.length with hlt | heq | hgt
  · exact Or.inl hlt
  · exact Or.inr ⟨heq, lexLt_of_value_lt a b heq hda hdb h⟩
  · exfalso
    cases a with
    | nil => simp at hgt
    | cons c as =>
      have h1 := decimalValue_ge c as ha
      have h2 := decimalValue_lt b hdb
      have h3 : 10 ^ b.length ≤ 10 ^ as.length :=
        Nat.pow_le_pow_right (by decide) (by simp at hgt; omega)
      omega

theorem lexLt_append (base a b : List Char) (h : lexLt a b = true) :
    lexLt (base ++ a) (base ++ b) = true := by
  induction base with
  | nil => exact h
  | cons c base ih => simp [lexLt, ih]

theorem refLt_append (base a b : List Char) (h : refLt a b = true) :
    refLt (base ++ a) (base ++ b) = true := by
  simp only [refLt, Bool.or_eq_true, decide_eq_true_eq, Bool.and_eq_true,
    List.length_append] at h ⊢
  rcases h with h | ⟨hl, h⟩
  · exact Or.inl (by omega)
  · exact Or.inr ⟨by omega, lexLt_append base a b h⟩

theorem digit_toNat (d : Nat) (h : d < 10) : (Char.ofNat (48 + d)).toNat = 48 + d := by
  interval_cases d <;> rfl

theorem formatNat_go_spec : ∀ (fuel n : Nat) (acc : List Char), n < fuel →
    ∃ ds : List Char, formatNat.go fuel n acc = ds ++ acc ∧ ds.all isDigit = true ∧
      decimalValue ds = n ∧ ∃ c rest, ds = c :: rest ∧ (0 < n → c ≠ '0')
  | 0, n, acc, h => absurd h (Nat.not_lt_zero n)
  | fuel + 1, n, acc, h => by
    unfold formatNat.go
    by_cases hn : n < 10
    · rw [if_pos hn]
      refine ⟨[Char.ofNat (48 + n)], rfl, ?_, ?_, _, _, rfl, ?_⟩
      · simp [isDigit_iff, digit_toNat n hn]
        omega
      · simp [decimalValue, digit_toNat n hn]
      · intro hpos h0
        have := congrArg Char.toNat h0
        rw [digit_toNat n hn] at this
        have h48 : ('0' : Char).toNat = 48 := rfl
        omega
    · rw [if_neg hn]
      have hm : n % 10 < 10 := Nat.mod_lt _ (by decide)
      obtain ⟨ds, hgo, hdig, hval, c, rest, hds, hc⟩ :=
        formatNat_go_spec fuel (n / 10) (Char.ofNat (48 + n % 10) :: acc) (by omega)
      refine ⟨ds ++ [Char.ofNat (48 + n % 10)], by simp [hgo], ?_, ?_, c,
        rest ++ [Char.ofNat (48 + n % 10)], by simp [hds], ?_⟩
      · rw [List.all_append, hdig]
        simp [isDigit_iff, digit_toNat _ hm]
        omega
      · rw [decimalValue, List.foldl_append, List.foldl_cons, List.foldl_nil,
          decimalValue_foldl, hval, digit_toNat _ hm]
        simp
        omega
      · intro _
        exact hc (by omega)

theorem formatNat_positive (n : Nat) (hn : 0 < n) :
    IsPositiveDecimal (formatNat n) = true ∧ decimalValue (formatNat n) = n := by
  obtain ⟨ds, hgo, hdig, hval, c, rest, hds, hc⟩ := formatNat_go_spec (n + 1) n [] (by omega)
  rw [List.append_nil] at hgo
  rw [formatNat, hgo]
  refine ⟨?_, hval⟩
  subst hds
  simp only [IsPositiveDecimal, Bool.and_eq_true, bne_iff_ne, ne_eq]
  exact ⟨hc hn, hdig⟩

theorem LastIndex_go_absent (c : Char) : ∀ (ys : List Char) (i : Nat) (best : Int),
    c ∉ ys → strings.LastIndex.go c ys i best = best
  | [], _, _, _ => rfl
  | y :: ys, i, best, h => by
    rw [List.mem_cons, not_or] at h
    rw [strings.LastIndex.go, if_neg (fun hy => h.1 hy.symm)]
    exact LastIndex_go_absent c ys (i + 1) best h.2

theorem LastIndex_go_append (c : Char) : ∀ (xs ys : List Char) (i : Nat) (best : Int),
    strings.LastIndex.go c (xs ++ ys) i best =
      strings.LastIndex.go c ys (i + xs.length) (strings.LastIndex.go c xs i best)
  | [], _, _, _ => rfl
  | x :: xs, ys, i, best => by
    rw [List.cons_append, strings.LastIndex.go, strings.LastIndex.go,
      LastIndex_go_append c xs ys (i + 1), List.length_cons]
    congr 1
    omega

theorem lastId_append (xs ds : List Char) (h : '_' ∉ ds) :
    GetPolicyReferenceId.lastId (xs ++ '_' :: ds) = strconv.Atoi ds := by
  have hidx : strings.LastIndex (xs ++ '_' :: ds) '_' = (xs.length : Int) := by
    rw [strings.LastIndex, LastIndex_go_append, strings.LastIndex.go, if_pos rfl,
      LastIndex_go_absent '_' ds _ _ h]
    simp
  have hdrop : (xs ++ '_' :: ds).drop ((xs.length : Int) + 1).toNat = ds := by
    have : ((xs.length : Int) + 1).toNat = xs.length + 1 := by omega
    rw [this, List.drop_append_eq_append_drop]
    simp
  unfold GetPolicyReferenceId.lastId
  simp only [hidx]
  rw [if_pos (by omega), hdrop]

theorem digits_no_underscore (ds : List Char) (h : ds.all isDigit = true) : '_' ∉ ds := by
  intro hmem
  have := (isDigit_iff _).1 (List.all_eq_true.1 h _ hmem)
  have h95 : ('_' : Char).toNat = 95 := rfl
  omega

theorem Atoi_positive (ds : List Char) (h : IsPositiveDecimal ds = true) :
    strconv.Atoi ds =
      if math.MaxInt64 < (decimalValue ds : Int) then math.MaxInt64
      else (decimalValue ds : Int) := by
  have hd := IsPositiveDecimal_digits ds h
  cases ds with
  | nil => simp [IsPositiveDecimal] at h
  | cons c ds =>
    have hc : 48 ≤ c.toNat := ((isDigit_iff c).1 (by
      rw [List.all_cons, Bool.and_eq_true] at hd
      exact hd.1)).1
    have hminus : c ≠ '-' := by
      rintro rfl
      have : ('-' : Char).toNat = 45 := rfl
      omega
    have hplus : c ≠ '+' := by
      rintro rfl
      have : ('+' : Char).toNat = 43 := rfl
      omega
    unfold strconv.Atoi
    split
    · next r heq => exact absurd (List.cons.inj heq).1 hminus
    · next r heq => exact absurd (List.cons.inj heq).1 hplus
    · simp [hd]

theorem generate_data (typ referenceId : String) :
    (GetPolicyReferenceId.generate typ referenceId).data =
      ("iac_" ++ typ ++ "_public_").data ++
        formatInt (wrapInt64 (GetPolicyReferenceId.lastId referenceId.data + 1)) := by
  simp [GetPolicyReferenceId.generate, String.data_append]

theorem likeMatch_base (typ : String) (ds : List Char) :
    likeMatch ("iac_" ++ typ ++ "%").data (("iac_" ++ typ ++ "_public_").data ++ ds) =
      true := by
  have h := likeMatch_append_percent ("iac_".data ++ typ.data) ("_public_".data ++ ds)
  simpa [String.data_append, List.append_assoc] using h

theorem HasReferenceForm_data (typ s : String) (h : HasReferenceForm typ s = true) :
    ∃ ds, IsPositiveDecimal ds = true ∧ s.data = ("iac_" ++ typ ++ "_public_").data ++ ds := by
  simp only [HasReferenceForm, Bool.and_eq_true, List.isPrefixOf_iff_prefix] at h
  obtain ⟨⟨t, ht⟩, hpos⟩ := h
  rw [← ht, List.drop_left] at hpos
  exact ⟨t, hpos, ht.symm⟩

theorem base_data (typ : String) :
    ("iac_" ++ typ ++ "_public_").data = ("iac_" ++ typ ++ "_public").data ++ ['_'] := by
  simp [String.data_append]

theorem generate_fresh (query : Session) (typ : String)
    (hW : WellFormedReferenceIds query typ = true) :
    ∀ p ∈ query.policies,
      p.ReferenceId ≠
        (match lastByReferenceId (GetPolicyReferenceId.matching query typ) with
          | some po => GetPolicyReferenceId.generate typ po.ReferenceId
          | none => GetPolicyReferenceId.generate typ "") := by
  have hform : ∀ p ∈ query.policies,
      likeMatch ("iac_" ++ typ ++ "%").data p.ReferenceId.data = true →
      ∃ ds, IsPositiveDecimal ds = true ∧
        p.ReferenceId.data = ("iac_" ++ typ ++ "_public_").data ++ ds := by
    intro p hp hm
    have := List.all_eq_true.1 hW p hp
    simp only [Bool.or_eq_true, Bool.not_eq_true', hm] at this
    rcases this with h | h
    · cases h
    · exact HasReferenceForm_data typ _ h
  intro p hp heq
  cases hlast : lastByReferenceId (GetPolicyReferenceId.matching query typ) with
  | none =>
    rw [hlast] at heq
    have hempty := lastByReferenceId_none _ hlast
    have hdata := congrArg String.data heq
    rw [generate_data] at hdata
    have hm : p ∈ GetPolicyReferenceId.matching query typ := by
      rw [GetPolicyReferenceId.matching, List.mem_filter]
      exact ⟨hp, by rw [hdata]; exact likeMatch_base typ _⟩
    rw [hempty] at hm
    cases hm
  | some po =>
    rw [hlast] at heq
    simp only at heq
    obtain ⟨hpo, hmax⟩ := lastByReferenceId_greatest _ po hlast
    rw [GetPolicyReferenceId.matching, List.mem_filter] at hpo
    obtain ⟨dsK, hK, hpoData⟩ := hform po hpo.1 hpo.2
    have hlastId : GetPolicyReferenceId.lastId po.ReferenceId.data = strconv.Atoi dsK := by
      rw [hpoData, base_data, List.append_assoc, List.singleton_append]
      exact lastId_append _ dsK (digits_no_underscore dsK (IsPositiveDecimal_digits dsK hK))
    have hdata := congrArg String.data heq
    rw [generate_data, hlastId, Atoi_positive dsK hK] at hdata
    have hmatch : likeMatch ("iac_" ++ typ ++ "%").data p.ReferenceId.data = true := by
      rw [hdata]
      exact likeMatch_base typ _
    have hpm : p ∈ GetPolicyReferenceId.matching query typ := by
      rw [GetPolicyReferenceId.matching, List.mem_filter]
      exact ⟨hp, hmatch⟩
    obtain ⟨ds, hds, hpData⟩ := hform p hp hmatch
    rw [hpData] at hdata
    have hsuffix := List.append_cancel_left hdata
    by_cases hbig : math.MaxInt64 ≤ (decimalValue dsK : Int)
    · have hclamp : (if math.MaxInt64 < (decimalValue dsK : Int) then math.MaxInt64
          else (decimalValue dsK : Int)) = math.MaxInt64 := by
        split_ifs with h
        · rfl
        · omega
      rw [hclamp] at hsuffix
      have hneg : formatInt (wrapInt64 (math.MaxInt64 + 1)) =
          '-' :: formatNat (9223372036854775808) := by decide
      rw [hneg] at hsuffix
      subst hsuffix
      have := IsPositiveDecimal_digits _ hds
      rw [List.all_cons, Bool.and_eq_true] at this
      have h45 := (isDigit_iff '-').1 this.1
      have : ('-' : Char).toNat = 45 := rfl
      omega
    · rw [if_neg (fun h => hbig (le_of_lt h))] at hsuffix
      have hwrap : wrapInt64 ((decimalValue dsK : Int) + 1) = ((decimalValue dsK + 1 : Nat) : Int) := by
        unfold wrapInt64
        unfold math.MaxInt64 at hbig
        push_cast
        omega
      rw [hwrap] at hsuffix
      have hfmt : formatInt ((decimalValue dsK + 1 : Nat) : Int) = formatNat (decimalValue dsK + 1) := by
        unfold formatInt
        rw [if_neg (by omega)]
        simp
      rw [hfmt] at hsuffix
      obtain ⟨hpos, hval⟩ := formatNat_positive (decimalValue dsK + 1) (by omega)
      have hlt := refLt_append ("iac_" ++ typ ++ "_public_").data dsK _ 
        (refLt_of_value_lt dsK _ hK hpos (by rw [hval]; omega))
      have hno := hmax p hpm
      rw [hpoData, hpData, hsuffix, hlt] at hno
      cases hno

/-! ## Claims -/

/-- C1: whenever `GetValidPolicies` returns no error, no policy id occurs both in
`validPolicies` and in `suppressedPolicies`, provided `FilterSuppressPolicies` partitions
its input, `MergePolicies` is the union deduplicated by id, and `id` is the primary key
of the policy table. -/
theorem GetValidPolicies_disjoint (filter : FilterFn) (merge : MergeFn)
    (hF : FilterPartitions filter) (hM : MergeIsUnionById merge) (query : Session)
    (hK : PolicyPrimaryKey query) (tplId envId : models.Id) (valid suppressed : List Policy)
    (h : GetValidPolicies filter merge query tplId envId = (valid, suppressed, none))
    (i : models.Id) :
    ¬ (i ∈ valid.map Policy.Id ∧ i ∈ suppressed.map Policy.Id) := by
  rintro ⟨hv, hs⟩
  obtain ⟨p, hp, rfl⟩ := List.mem_map.1 hv
  obtain ⟨q, hq, hqp⟩ := List.mem_map.1 hs
  exact valid_suppressed_ids_ne filter merge hF hM query hK tplId envId valid suppressed h
    p hp q hq hqp.symm

/-- Instance of C1 on the layered store, where both outputs are non-empty. -/
theorem GetValidPolicies_disjoint_witness :
    GetValidPolicies FilterSuppressPolicies MergePolicies layeredStore "T1" "E1" =
        ([policyP2], [policyP3, policyP1], none) ∧
      ¬ ("P2" ∈ [policyP2].map Policy.Id ∧ "P2" ∈ [policyP3, policyP1].map Policy.Id) :=
  ⟨by decide,
    GetValidPolicies_disjoint FilterSuppressPolicies MergePolicies
      FilterSuppressPolicies_partitions MergePolicies_isUnionById layeredStore (by decide)
      "T1" "E1" [policyP2] [policyP3, policyP1] (by decide) "P2"⟩

/-- C2: with template and environment scanning both enabled and no error, the policy ids
of `validPolicies` and `suppressedPolicies` together are exactly the policy ids of
`GetPoliciesByTemplateId(tplId)` and `GetPoliciesByEnvId(envId)` together, and no id is in
both outputs. -/
theorem GetValidPolicies_covers_bound (filter : FilterFn) (merge : MergeFn)
    (hF : FilterPartitions filter) (hM : MergeIsUnionById merge) (query : Session)
    (hK : PolicyPrimaryKey query) (tplId envId : models.Id) (valid suppressed : List Policy)
    (hte : IsTemplateEnabledScan query tplId = (true, none))
    (hen : IsEnvEnabledScan query envId = (true, none)) (hne : envId ≠ "")
    (h : GetValidPolicies filter merge query tplId envId = (valid, suppressed, none)) :
    (∀ i, (i ∈ valid.map Policy.Id ∨ i ∈ suppressed.map Policy.Id) ↔
      (i ∈ (GetPoliciesByTemplateId query tplId).1.map Policy.Id ∨
        i ∈ (GetPoliciesByEnvId query envId).1.map Policy.Id)) ∧
    (∀ i, ¬ (i ∈ valid.map Policy.Id ∧ i ∈ suppressed.map Policy.Id)) := by
  refine ⟨?_, ?_⟩
  · obtain ⟨tv, ts, en, hts, hen2, hcase⟩ :=
      GetValidPolicies_ok_cases filter merge query tplId envId valid suppressed h
    rw [hen] at hen2
    obtain ⟨rfl⟩ : true = en := congrArg Prod.fst hen2
    rcases hcase with ⟨hn, -, -⟩ | ⟨-, ep, es, hep, hf, rfl⟩
    · exact absurd ⟨hne, rfl⟩ hn
    · obtain ⟨en1, hte2, hc1⟩ := tplStage_ok_cases filter query tplId tv ts hts
      rw [hte] at hte2
      obtain ⟨rfl⟩ : true = en1 := congrArg Prod.fst hte2
      rcases hc1 with ⟨hfalse, -, -⟩ | ⟨-, tp, htp, hft⟩
      · exact absurd hfalse (by decide)
      · intro i
        have hP1 := partition_ids filter hF query tp tplId _ tv ts hft i
        have hP2 := partition_ids filter hF query (merge tv ep) envId _ valid es hf i
        rw [merge_ids merge hM] at hP2
        have hS : i ∈ (merge (ts.filter (fun policy =>
            !(ep.map Policy.Id).contains policy.Id)) es).map Policy.Id ↔
            (i ∈ ts.map Policy.Id ∧ i ∉ ep.map Policy.Id) ∨ i ∈ es.map Policy.Id := by
          rw [merge_ids merge hM, mem_filter_notContains]
        have hTP : (GetPoliciesByTemplateId query tplId).1 = tp := by rw [htp]
        have hEP : (GetPoliciesByEnvId query envId).1 = ep := by rw [hep]
        rw [hTP, hEP]
        exact prop_cover _ _ _ _ _ _ _ hP1 hP2 hS
  · intro i
    rintro ⟨hv, hs⟩
    obtain ⟨p, hp, rfl⟩ := List.mem_map.1 hv
    obtain ⟨q, hq, hqp⟩ := List.mem_map.1 hs
    exact valid_suppressed_ids_ne filter merge hF hM query hK tplId envId valid suppressed h
      p hp q hq hqp.symm

/-- Instance of C2 on the layered store: id `P3`, bound at template level only, is in
one of the outputs. -/
theorem GetValidPolicies_covers_bound_witness :
    IsTemplateEnabledScan layeredStore "T1" = (true, none) ∧
      IsEnvEnabledScan layeredStore "E1" = (true, none) ∧
      GetValidPolicies FilterSuppressPolicies MergePolicies layeredStore "T1" "E1" =
        ([policyP2], [policyP3, policyP1], none) ∧
      (("P3" ∈ [policyP2].map Policy.Id ∨ "P3" ∈ [policyP3, policyP1].map Policy.Id) ↔
        ("P3" ∈ (GetPoliciesByTemplateId layeredStore "T1").1.map Policy.Id ∨
          "P3" ∈ (GetPoliciesByEnvId layeredStore "E1").1.map Policy.Id)) :=
  ⟨by decide, by decide, by decide,
    (GetValidPolicies_covers_bound FilterSuppressPolicies MergePolicies
      FilterSuppressPolicies_partitions MergePolicies_isUnionById layeredStore (by decide)
      "T1" "E1" [policyP2] [policyP3, policyP1] (by decide) (by decide) (by decide)
      (by decide)).1 "P3"⟩

/-- C3: with `envId` non-empty and environment scanning enabled, `GetValidPolicies`
returns no error, its valid list is the valid part of the environment-scope partition of
`MergePolicies(tplValid, envPolicies)`, and the ids of its suppressed list are exactly
(ids of `tplSuppressed` that are not ids of `envPolicies`) together with the ids of
`envSuppressed`. -/
theorem GetValidPolicies_suppressed_ids (filter : FilterFn) (merge : MergeFn)
    (hM : MergeIsUnionById merge) (query : Session) (tplId envId : models.Id)
    (tv ts ep v es : List Policy)
    (hts : GetValidPolicies.tplStage filter query tplId = (tv, ts, none))
    (hen : IsEnvEnabledScan query envId = (true, none)) (hne : envId ≠ "")
    (hep : GetPoliciesByEnvId query envId = (ep, none))
    (hf : filter query (merge tv ep) envId consts.ScopeEnv = (v, es, none)) :
    (GetValidPolicies filter merge query tplId envId).2.2 = none ∧
    (GetValidPolicies filter merge query tplId envId).1 = v ∧
    ∀ i, i ∈ (GetValidPolicies filter merge query tplId envId).2.1.map Policy.Id ↔
      ((i ∈ ts.map Policy.Id ∧ i ∉ ep.map Policy.Id) ∨ i ∈ es.map Policy.Id) := by
  rw [GetValidPolicies_envBranch filter merge query tplId envId tv ts ep v es hts hen hne hep hf]
  refine ⟨rfl, rfl, ?_⟩
  intro i
  rw [merge_ids merge hM, mem_filter_notContains]

/-- Instance of C3 on the layered store: template-suppressed `P2` is bound again by the
environment and leaves the suppressed list, `P3` stays, `P1` joins it. -/
theorem GetValidPolicies_suppressed_ids_witness :
    GetValidPolicies.tplStage FilterSuppressPolicies layeredStore "T1" =
        ([policyP1], [policyP2, policyP3], none) ∧
      GetPoliciesByEnvId layeredStore "E1" = ([policyP2], none) ∧
      (GetValidPolicies FilterSuppressPolicies MergePolicies layeredStore "T1" "E1").2.2 = none ∧
      (GetValidPolicies FilterSuppressPolicies MergePolicies layeredStore "T1" "E1").1 =
        [policyP2] ∧
      ("P2" ∈ (GetValidPolicies FilterSuppressPolicies MergePolicies layeredStore "T1"
          "E1").2.1.map Policy.Id ↔
        (("P2" ∈ [policyP2, policyP3].map Policy.Id ∧ "P2" ∉ [policyP2].map Policy.Id) ∨
          "P2" ∈ [policyP1].map Policy.Id)) :=
  have hw := GetValidPolicies_suppressed_ids FilterSuppressPolicies MergePolicies
    MergePolicies_isUnionById layeredStore "T1" "E1" [policyP1] [policyP2, policyP3]
    [policyP2] [policyP2] [policyP1] (by decide) (by decide) (by decide) (by decide)
    (by decide)
  ⟨by decide, by decide, hw.1, hw.2.1, hw.2.2 "P2"⟩

/-- C4 (override correctness): a policy `X` suppressed by the template-scope partition,
returned by `GetPoliciesByEnvId(envId)` and not suppressed by the environment-scope
partition is, with environment scanning enabled, in `validPolicies`, and neither `X` nor
its id occurs in `suppressedPolicies`; no error is returned.  (Template scanning is
enabled as soon as the template-scope partition suppresses a policy.) -/
theorem GetValidPolicies_override (filter : FilterFn) (merge : MergeFn)
    (hF : FilterPartitions filter) (hM : MergeIsUnionById merge) (query : Session)
    (hK : PolicyPrimaryKey query) (tplId envId : models.Id) (tv ts ep v es : List Policy)
    (X : Policy)
    (hts : GetValidPolicies.tplStage filter query tplId = (tv, ts, none))
    (hen : IsEnvEnabledScan query envId = (true, none)) (hne : envId ≠ "")
    (hep : GetPoliciesByEnvId query envId = (ep, none))
    (hf : filter query (merge tv ep) envId consts.ScopeEnv = (v, es, none))
    (hX1 : X ∈ ts) (hX2 : X ∈ ep) (hX3 : X ∉ es) :
    IsTemplateEnabledScan query tplId = (true, none) ∧
    (GetValidPolicies filter merge query tplId envId).2.2 = none ∧
    X ∈ (GetValidPolicies filter merge query tplId envId).1 ∧
    X ∉ (GetValidPolicies filter merge query tplId envId).2.1 ∧
    X.Id ∉ (GetValidPolicies filter merge query tplId envId).2.1.map Policy.Id := by
  rw [GetValidPolicies_envBranch filter merge query tplId envId tv ts ep v es hts hen hne hep hf]
  obtain ⟨_, _, hepS, _, hesS, _⟩ :=
    envStage_facts filter merge hF hM query tplId envId tv ts ep v es hts hep hf
  obtain ⟨htv, _, _⟩ := tplStage_facts filter hF query tplId tv ts hts
  have hXS : X ∈ query.policies := hepS X hX2
  have hidne : X.Id ∉ (merge (ts.filter (fun policy =>
      !(ep.map Policy.Id).contains policy.Id)) es).map Policy.Id := by
    rw [merge_ids merge hM, mem_filter_notContains]
    rintro (⟨_, hn⟩ | h)
    · exact hn (List.mem_map_of_mem _ hX2)
    · obtain ⟨q, hq, hqX⟩ := List.mem_map.1 h
      have : q = X := primaryKey_inj query hK q X (hesS q hq) hXS hqX
      exact hX3 (this ▸ hq)
  refine ⟨?_, rfl, ?_, ?_, hidne⟩
  · obtain ⟨en, hte, hc⟩ := tplStage_ok_cases filter query tplId tv ts hts
    rcases hc with ⟨_, _, rfl⟩ | ⟨rfl, _⟩
    · simp at hX1
    · exact hte
  · obtain ⟨_, hsub, hkeep⟩ := hM tv ep
    obtain ⟨q, hq, hqX⟩ := List.mem_map.1 (hkeep X (Or.inr hX2))
    have hqS : q ∈ query.policies := by
      rcases hsub q hq with h | h
      exacts [htv q h, hepS q h]
    have hqe : q = X := primaryKey_inj query hK q X hqS hXS hqX
    have hXm : X ∈ v ++ es :=
      (hF query (merge tv ep) envId consts.ScopeEnv v es hf).1.symm.subset (hqe ▸ hq)
    rcases List.mem_append.1 hXm with h | h
    · exact h
    · exact absurd h hX3
  · intro hmem
    exact hidne (List.mem_map_of_mem _ hmem)

/-- Instance of C4 on the layered store with `X = P2`. -/
theorem GetValidPolicies_override_witness :
    policyP2 ∈ [policyP2, policyP3] ∧ policyP2 ∈ [policyP2] ∧ policyP2 ∉ [policyP1] ∧
      policyP2 ∈ (GetValidPolicies FilterSuppressPolicies MergePolicies layeredStore "T1"
        "E1").1 ∧
      policyP2.Id ∉ (GetValidPolicies FilterSuppressPolicies MergePolicies layeredStore "T1"
        "E1").2.1.map Policy.Id :=
  have hw := GetValidPolicies_override FilterSuppressPolicies MergePolicies
    FilterSuppressPolicies_partitions MergePolicies_isUnionById layeredStore (by decide)
    "T1" "E1" [policyP1] [policyP2, policyP3] [policyP2] [policyP2] [policyP1] policyP2
    (by decide) (by decide) (by decide) (by decide) (by decide) (by decide) (by decide)
    (by decide)
  ⟨by decide, by decide, by decide, hw.2.2.1, hw.2.2.2.2⟩

/-- C5 (inheritance pass-through): when the store calls that are made succeed and
`envId` is empty or the environment has no scan-enablement relation, `GetValidPolicies`
returns exactly the template-scope partition `(tplValid, tplSuppressed)` with no error,
the same as `GetValidPolicies(tplId, "")`; `GetPoliciesByEnvId` is not consulted: the
result is the same on the session in which that query fails. -/
theorem GetValidPolicies_pass_through (filter : FilterFn) (merge : MergeFn) (query : Session)
    (tplId envId : models.Id) (tv ts : List Policy) (en : Bool) (err : DbErr)
    (hts : GetValidPolicies.tplStage filter query tplId = (tv, ts, none))
    (hen : IsEnvEnabledScan query envId = (en, none)) (hc : envId = "" ∨ en = false)
    (hfi : ∀ ps t sc, filter (failPoliciesByEnvId query err) ps t sc = filter query ps t sc) :
    GetValidPolicies filter merge query tplId envId = (tv, ts, none) ∧
    GetValidPolicies filter merge query tplId envId =
      GetValidPolicies filter merge query tplId "" ∧
    GetValidPolicies filter merge (failPoliciesByEnvId query err) tplId envId =
      (tv, ts, none) := by
  have h1 := GetValidPolicies_passThrough filter merge query tplId envId tv ts en hts hen hc
  obtain ⟨en2, hen2⟩ := IsEnvEnabledScan_ok_any query envId "" en hen
  have h2 := GetValidPolicies_passThrough filter merge query tplId "" tv ts en2 hts hen2
    (Or.inl rfl)
  refine ⟨h1, h1.trans h2.symm, ?_⟩
  refine GetValidPolicies_passThrough filter merge (failPoliciesByEnvId query err) tplId envId
    tv ts en ?_ ?_ hc
  · rw [tplStage_failPoliciesByEnvId filter query err tplId hfi, hts]
  · rw [IsEnvEnabledScan_failPoliciesByEnvId, hen]

/-- Instance of C5 on the scenario store with environment `E2`, which has no
scan-enablement relation. -/
theorem GetValidPolicies_pass_through_witness :
    IsEnvEnabledScan scenarioStore "E2" = (false, none) ∧
      GetValidPolicies FilterSuppressPolicies MergePolicies scenarioStore "T1" "E2" =
        ([policyP1], [policyP2], none) ∧
      GetValidPolicies FilterSuppressPolicies MergePolicies scenarioStore "T1" "E2" =
        GetValidPolicies FilterSuppressPolicies MergePolicies scenarioStore "T1" "" ∧
      GetValidPolicies FilterSuppressPolicies MergePolicies
        (failPoliciesByEnvId scenarioStore (DbErr.Other "connection lost")) "T1" "E2" =
        ([policyP1], [policyP2], none) :=
  ⟨by decide,
    GetValidPolicies_pass_through FilterSuppressPolicies MergePolicies scenarioStore "T1" "E2"
      [policyP1] [policyP2] false (DbErr.Other "connection lost") (by decide) (by decide)
      (Or.inr rfl)
      (FilterSuppressPolicies_failPoliciesByEnvId scenarioStore (DbErr.Other "connection lost"))⟩

/-- C6 (scenario of section 8): template `T1` has scanning on, with `P1` valid and `P2`
suppressed at template scope; environment `E1` has scanning on, binds `P2`, and the
environment-scope partition suppresses neither `P1` nor `P2`.  Then `GetValidPolicies`
returns no error, an empty suppressed list, and a valid list holding exactly `P1` and
`P2`, once each. -/
theorem GetValidPolicies_scenario (filter : FilterFn) (merge : MergeFn)
    (hF : FilterPartitions filter) (hM : MergeIsUnionById merge) (query : Session)
    (T1 E1 : models.Id) (P1 P2 : Policy) (v es : List Policy) (hP : P1.Id ≠ P2.Id)
    (hts : GetValidPolicies.tplStage filter query T1 = ([P1], [P2], none))
    (hen : IsEnvEnabledScan query E1 = (true, none)) (hne : E1 ≠ "")
    (hep : GetPoliciesByEnvId query E1 = ([P2], none))
    (hf : filter query (merge [P1] [P2]) E1 consts.ScopeEnv = (v, es, none))
    (hns : P1 ∉ es ∧ P2 ∉ es) :
    GetValidPolicies filter merge query T1 E1 = (v, [], none) ∧
    (∀ p, p ∈ v ↔ p = P1 ∨ p = P2) ∧ v.length = 2 := by
  obtain ⟨hperm, _⟩ := hF query (merge [P1] [P2]) E1 consts.ScopeEnv v es hf
  obtain ⟨hnd, hsub, hkeep⟩ := hM [P1] [P2]
  have hsub2 : ∀ p ∈ merge [P1] [P2], p = P1 ∨ p = P2 := by
    intro p hp
    rcases hsub p hp with h | h
    · exact Or.inl (List.mem_singleton.1 h)
    · exact Or.inr (List.mem_singleton.1 h)
  have hes : es = [] := by
    apply List.eq_nil_iff_forall_not_mem.2
    intro p hp
    rcases hsub2 p (hperm.subset (List.mem_append_right _ hp)) with rfl | rfl
    · exact hns.1 hp
    · exact hns.2 hp
  subst hes
  rw [List.append_nil] at hperm
  have hm1 : P1 ∈ merge [P1] [P2] := by
    obtain ⟨q, hq, hqP⟩ := List.mem_map.1 (hkeep P1 (Or.inl (List.mem_singleton_self _)))
    rcases hsub2 q hq with rfl | rfl
    · exact hq
    · exact absurd hqP.symm hP
  have hm2 : P2 ∈ merge [P1] [P2] := by
    obtain ⟨q, hq, hqP⟩ := List.mem_map.1 (hkeep P2 (Or.inr (List.mem_singleton_self _)))
    rcases hsub2 q hq with rfl | rfl
    · exact absurd hqP hP
    · exact hq
  have hmem : ∀ p, p ∈ v ↔ p = P1 ∨ p = P2 := by
    intro p
    rw [hperm.mem_iff]
    constructor
    · exact hsub2 p
    · rintro (rfl | rfl)
      exacts [hm1, hm2]
  have hvnd : v.Nodup := (hperm.nodup_iff).2 (List.Nodup.of_map _ hnd)
  have hPne : P1 ≠ P2 := fun h => hP (congrArg Policy.Id h)
  have hlen : v.length = 2 := by
    have hpv : v.Perm [P1, P2] := by
      rw [List.perm_ext_iff_of_nodup hvnd (by simp [hPne])]
      intro p
      rw [hmem]
      simp
    exact hpv.length_eq
  refine ⟨?_, hmem, hlen⟩
  rw [GetValidPolicies_envBranch filter merge query T1 E1 [P1] [P2] [P2] v [] hts hen hne hep hf]
  have hfil : ([P2].filter (fun policy => !([P2].map Policy.Id).contains policy.Id)) = [] := by
    simp
  rw [hfil, merge_nil_nil merge hM]

/-- Instance of C6 on the scenario store: the result is `([P1, P2], [], nil)`. -/
theorem GetValidPolicies_scenario_witness :
    GetValidPolicies.tplStage FilterSuppressPolicies scenarioStore "T1" =
        ([policyP1], [policyP2], none) ∧
      GetPoliciesByEnvId scenarioStore "E1" = ([policyP2], none) ∧
      GetValidPolicies FilterSuppressPolicies MergePolicies scenarioStore "T1" "E1" =
        ([policyP1, policyP2], [], none) :=
  ⟨by decide, by decide,
    (GetValidPolicies_scenario FilterSuppressPolicies MergePolicies
      FilterSuppressPolicies_partitions MergePolicies_isUnionById scenarioStore "T1" "E1"
      policyP1 policyP2 [policyP1, policyP2] [] (by decide) (by decide) (by decide)
      (by decide) (by decide) (by decide) (by decide)).1⟩

/-- When `IsTemplateEnabledScan` answers false, which it does only when the template has
no empty-group relation at all, the template contributes nothing.  If `envId` is empty
or `IsEnvEnabledScan` answers false too, both outputs are empty and the error is nil.
If it answers true, the outputs are the environment-scope partition of
`GetPoliciesByEnvId(envId)` deduplicated by id (the suppressed part up to order), and
every output policy is one bound through the environment. -/
theorem GetValidPolicies_template_disabled (filter : FilterFn) (merge : MergeFn)
    (hF : FilterPartitions filter) (hM : MergeIsUnionById merge) (query : Session)
    (tplId envId : models.Id)
    (hte : IsTemplateEnabledScan query tplId = (false, none)) :
    (∀ en, IsEnvEnabledScan query envId = (en, none) → (envId = "" ∨ en = false) →
      GetValidPolicies filter merge query tplId envId = ([], [], none)) ∧
    (∀ ep v es, IsEnvEnabledScan query envId = (true, none) → envId ≠ "" →
      GetPoliciesByEnvId query envId = (ep, none) →
      filter query (merge [] ep) envId consts.ScopeEnv = (v, es, none) →
      GetValidPolicies filter merge query tplId envId = (v, merge [] es, none) ∧
      ((merge [] ep).map Policy.Id).Nodup ∧ (∀ p ∈ merge [] ep, p ∈ ep) ∧
      (∀ i, i ∈ (merge [] ep).map Policy.Id ↔ i ∈ ep.map Policy.Id) ∧
      (merge [] es).Perm es ∧
      (∀ p, p ∈ v ∨ p ∈ merge [] es → p ∈ ep)) := by
  have hts : GetValidPolicies.tplStage filter query tplId = ([], [], none) := by
    unfold GetValidPolicies.tplStage
    simp [hte]
  refine ⟨?_, ?_⟩
  · intro en hen hc
    exact GetValidPolicies_passThrough filter merge query tplId envId [] [] en hts hen hc
  · intro ep v es hen hne hep hf
    obtain ⟨hperm, _⟩ := hF query (merge [] ep) envId consts.ScopeEnv v es hf
    obtain ⟨hnd, hsub, _⟩ := hM [] ep
    have hsubE : ∀ p ∈ merge [] ep, p ∈ ep := by
      intro p hp
      rcases hsub p hp with h | h
      · simp at h
      · exact h
    have hesnd : (es.map Policy.Id).Nodup := by
      have h1 : ((v ++ es).map Policy.Id).Nodup := ((hperm.map Policy.Id).nodup_iff).2 hnd
      rw [List.map_append] at h1
      exact h1.of_append_right
    have hmp := merge_nil_perm merge hM es hesnd
    refine ⟨?_, hnd, hsubE, ?_, hmp, ?_⟩
    · have := GetValidPolicies_envBranch filter merge query tplId envId [] [] ep v es hts hen
        hne hep hf
      simpa using this
    · intro i
      rw [merge_ids merge hM]
      simp
    · rintro p (hp | hp)
      · exact hsubE p (hperm.subset (List.mem_append_left _ hp))
      · exact hsubE p (hperm.subset (List.mem_append_right _ (hmp.subset hp)))

/-- The scenario store with template `T2`, which has no scan-enablement relation: only
the environment policy `P2` is returned. -/
theorem GetValidPolicies_template_disabled_witness :
    IsTemplateEnabledScan scenarioStore "T2" = (false, none) ∧
      GetValidPolicies FilterSuppressPolicies MergePolicies scenarioStore "T2" "" =
        ([], [], none) ∧
      GetValidPolicies FilterSuppressPolicies MergePolicies scenarioStore "T2" "E1" =
        ([policyP2], MergePolicies [] [], none) :=
  have hw := GetValidPolicies_template_disabled FilterSuppressPolicies MergePolicies
    FilterSuppressPolicies_partitions MergePolicies_isUnionById scenarioStore "T2"
  ⟨by decide, (hw "" (by decide)).1 true (by decide) (Or.inl rfl),
    ((hw "E1" (by decide)).2 [policyP2] [policyP2] [] (by decide) (by decide) (by decide)
      (by decide)).1⟩

/-- C7, the code differs from the claim: template `T1` has scanning disabled, its only
empty-group relation having `enabled = false`, and `GetValidPolicies` still returns the
policy `P1`, which is bound only through the template; the claim gives two empty
outputs. -/
theorem GetValidPolicies_disabled_marker :
    TemplateScanRelEnabled disabledTemplateStore "T1" = false ∧
      IsTemplateEnabledScan disabledTemplateStore "T1" = (true, none) ∧
      GetPoliciesByEnvId disabledTemplateStore "" = ([], none) ∧
      GetValidPolicies FilterSuppressPolicies MergePolicies disabledTemplateStore "T1" "" =
        ([{ Id := "P1", GroupId := "G1", Severity := "high" }], [], none) := by
  decide

/-- C8: on a store whose only empty-group relations for template `T1` and environment
`E1` have `enabled = false`, `IsTemplateEnabledScan` and `IsEnvEnabledScan` answer true
with no error, although no enabled empty-group relation exists. -/
theorem IsEnabledScan_ignores_enabled :
    IsTemplateEnabledScan disabledMarkerStore "T1" = (true, none) ∧
    TemplateScanRelEnabled disabledMarkerStore "T1" = false ∧
    IsEnvEnabledScan disabledMarkerStore "E1" = (true, none) ∧
    EnvScanRelEnabled disabledMarkerStore "E1" = false := by
  decide

/-- C9, as stated, fails: `GetPoliciesByTemplateId` returns `P1` although the only
relation of its group to `T1` is disabled. -/
theorem GetPoliciesByTemplateId_returns_disabled :
    GetPoliciesByTemplateId disabledRelStore "T1" =
        ([{ Id := "P1", GroupId := "G1", Severity := "high" }], none) ∧
      EnabledTemplateRel disabledRelStore { Id := "P1", GroupId := "G1", Severity := "high" }
        "T1" = false := by
  decide

/-- C9, amended: when the query succeeds, `GetPoliciesByTemplateId(tplId)` returns no
error and exactly the policies whose owning group exists and has a relation to `tplId`
with scope template, whatever the relation's `enabled` flag; `GetPoliciesByEnvId(envId)`
likewise with a relation to `envId` with scope env.  A policy whose group is related to
the target only through a relation of the other scope is not returned. -/
theorem GetPolicies_bound_by_scope (query : Session) (tplId envId : models.Id)
    (hT : query.fault Query.policiesByTemplateId = none)
    (hE : query.fault Query.policiesByEnvId = none) (p : Policy) :
    (GetPoliciesByTemplateId query tplId).2 = none ∧
    (GetPoliciesByEnvId query envId).2 = none ∧
    (p ∈ (GetPoliciesByTemplateId query tplId).1 ↔
      p ∈ query.policies ∧ ∃ g ∈ query.policyGroups, g.Id = p.GroupId ∧
        ∃ r ∈ query.policyRels, r.GroupId = g.Id ∧ r.TplId = tplId ∧
          r.Scope = consts.ScopeTemplate) ∧
    (p ∈ (GetPoliciesByEnvId query envId).1 ↔
      p ∈ query.policies ∧ ∃ g ∈ query.policyGroups, g.Id = p.GroupId ∧
        ∃ r ∈ query.policyRels, r.GroupId = g.Id ∧ r.EnvId = envId ∧
          r.Scope = consts.ScopeEnv) := by
  have h1 : (GetPoliciesByTemplateId query tplId).2 = none := by
    simp [GetPoliciesByTemplateId, hT]
  have h2 : (GetPoliciesByEnvId query envId).2 = none := by
    simp [GetPoliciesByEnvId, hE]
  refine ⟨h1, h2, ?_, ?_⟩
  · exact GetPoliciesByTemplateId_mem query tplId _ (Prod.ext rfl h1) p
  · exact GetPoliciesByEnvId_mem query envId _ (Prod.ext rfl h2) p

/-- Instance of the amended C9 on the scenario store: `P1`, bound to `T1` at template
scope only, is returned for `T1` and not for `E1`. -/
theorem GetPolicies_bound_by_scope_witness :
    policyP1 ∈ (GetPoliciesByTemplateId scenarioStore "T1").1 ∧
      policyP1 ∉ (GetPoliciesByEnvId scenarioStore "E1").1 ∧
      (policyP1 ∈ (GetPoliciesByTemplateId scenarioStore "T1").1 ↔
        policyP1 ∈ scenarioStore.policies ∧
          ∃ g ∈ scenarioStore.policyGroups, g.Id = policyP1.GroupId ∧
            ∃ r ∈ scenarioStore.policyRels, r.GroupId = g.Id ∧ r.TplId = "T1" ∧
              r.Scope = consts.ScopeTemplate) :=
  ⟨by decide, by decide,
    (GetPolicies_bound_by_scope scenarioStore "T1" "E1" rfl rfl policyP1).2.2.1⟩

/-- C10 (partition completeness): when `FilterSuppressPolicies` succeeds, every input
policy is in `valid` or in `suppressed` and nothing else is, no policy is in both, and
`valid ++ suppressed` is a rearrangement of the input (no duplicates, no omissions);
both outputs keep the input order; an empty input gives two empty outputs and no error
on every session. -/
theorem FilterSuppressPolicies_partition_complete (query : Session) (policies : List Policy)
    (targetId : models.Id) (scope : String) (valid suppressed : List Policy)
    (h : FilterSuppressPolicies query policies targetId scope = (valid, suppressed, none)) :
    (∀ p, p ∈ policies ↔ (p ∈ valid ∨ p ∈ suppressed)) ∧
    (∀ p, ¬ (p ∈ valid ∧ p ∈ suppressed)) ∧
    (valid ++ suppressed).Perm policies ∧
    (policies.Nodup → (valid ++ suppressed).Nodup) ∧
    valid.Sublist policies ∧ suppressed.Sublist policies ∧
    (∀ query2 targetId2 scope2,
      FilterSuppressPolicies query2 [] targetId2 scope2 = ([], [], none)) := by
  obtain ⟨hperm, hdis⟩ := FilterSuppressPolicies_partitions query policies targetId scope
    valid suppressed h
  refine ⟨?_, ?_, hperm, ?_, ?_, ?_, ?_⟩
  · intro p
    rw [← hperm.mem_iff, List.mem_append]
  · rintro p ⟨hv, hs⟩
    exact hdis hv hs
  · intro hnd
    exact (hperm.nodup_iff).2 hnd
  · unfold FilterSuppressPolicies at h
    by_cases hnil : policies = []
    · simp [hnil] at h
      simp [h.1, hnil]
    · simp only [hnil, if_false] at h
      cases hf : query.fault Query.policySuppress with
      | some err => simp [hf] at h
      | none =>
        simp only [hf, Prod.mk.injEq, and_true] at h
        rw [← h.1]
        exact List.filter_sublist _
  · unfold FilterSuppressPolicies at h
    by_cases hnil : policies = []
    · simp [hnil] at h
      simp [h.2, hnil]
    · simp only [hnil, if_false] at h
      cases hf : query.fault Query.policySuppress with
      | some err => simp [hf] at h
      | none =>
        simp only [hf, Prod.mk.injEq, and_true] at h
        rw [← h.2]
        exact List.filter_sublist _
  · intro query2 targetId2 scope2
    simp [FilterSuppressPolicies]

/-- Instance of C10: the template-scope partition of `[P1, P2, P3]` on the layered store. -/
theorem FilterSuppressPolicies_partition_complete_witness :
    FilterSuppressPolicies layeredStore [policyP1, policyP2, policyP3] "T1"
        consts.ScopeTemplate = ([policyP1], [policyP2, policyP3], none) ∧
      ([policyP1] ++ [policyP2, policyP3]).Perm [policyP1, policyP2, policyP3] ∧
      ¬ (policyP2 ∈ [policyP1] ∧ policyP2 ∈ [policyP2, policyP3]) :=
  have hw := FilterSuppressPolicies_partition_complete layeredStore
    [policyP1, policyP2, policyP3] "T1" consts.ScopeTemplate [policyP1]
    [policyP2, policyP3] (by decide)
  ⟨by decide, hw.2.2.1, hw.2.1 policyP2⟩

/-- C11: whenever `GetValidPolicies` returns a non-nil error, both returned lists are
empty and the error is that of the first failing step, all earlier steps having
succeeded: `IsTemplateEnabledScan`, `GetPoliciesByTemplateId`, the template-scope
`FilterSuppressPolicies`, `IsEnvEnabledScan`, `GetPoliciesByEnvId`, or the
environment-scope `FilterSuppressPolicies`.  `FilterSuppressPolicies` itself is taken to
return no partial result alongside its error. -/
theorem GetValidPolicies_error (filter : FilterFn) (merge : MergeFn)
    (hE : FilterErrorsEmpty filter) (query : Session) (tplId envId : models.Id)
    (v sp : List Policy) (err : Error)
    (h : GetValidPolicies filter merge query tplId envId = (v, sp, some err)) :
    v = [] ∧ sp = [] ∧
      ((IsTemplateEnabledScan query tplId).2 = some err ∨
        (IsTemplateEnabledScan query tplId = (true, none) ∧
          (GetPoliciesByTemplateId query tplId).2 = some err) ∨
        (IsTemplateEnabledScan query tplId = (true, none) ∧
          (GetPoliciesByTemplateId query tplId).2 = none ∧
          (filter query (GetPoliciesByTemplateId query tplId).1 tplId
            consts.ScopeTemplate).2.2 = some err) ∨
        (∃ tv ts, GetValidPolicies.tplStage filter query tplId = (tv, ts, none) ∧
          (IsEnvEnabledScan query envId).2 = some err) ∨
        (∃ tv ts, GetValidPolicies.tplStage filter query tplId = (tv, ts, none) ∧
          IsEnvEnabledScan query envId = (true, none) ∧ envId ≠ "" ∧
          (GetPoliciesByEnvId query envId).2 = some err) ∨
        (∃ tv ts, GetValidPolicies.tplStage filter query tplId = (tv, ts, none) ∧
          IsEnvEnabledScan query envId = (true, none) ∧ envId ≠ "" ∧
          (GetPoliciesByEnvId query envId).2 = none ∧
          (filter query (merge tv (GetPoliciesByEnvId query envId).1) envId
            consts.ScopeEnv).2.2 = some err)) := by
  unfold GetValidPolicies at h
  rcases hts : GetValidPolicies.tplStage filter query tplId with ⟨tv, ts, _ | e1⟩
  · simp only [hts] at h
    rcases hen : IsEnvEnabledScan query envId with ⟨en, _ | e2⟩
    · simp only [hen] at h
      by_cases hc : envId ≠ "" ∧ en = true
      · rw [if_pos hc] at h
        obtain ⟨hne, rfl⟩ := hc
        rcases hep : GetPoliciesByEnvId query envId with ⟨ep, _ | e3⟩
        · simp only [hep] at h
          rcases hf : filter query (merge tv ep) envId consts.ScopeEnv with ⟨v1, es, _ | e4⟩
          · simp [hf] at h
          · simp only [hf, Prod.mk.injEq, Option.some.injEq] at h
            obtain ⟨rfl, rfl, rfl⟩ := h
            obtain ⟨hv, _⟩ := hE query (merge tv ep) envId consts.ScopeEnv v1 es e4 hf
            refine ⟨hv, rfl, ?_⟩
            right; right; right; right; right
            exact ⟨tv, ts, rfl, rfl, hne, rfl, by simp [hf]⟩
        · simp only [hep, Prod.mk.injEq, Option.some.injEq] at h
          obtain ⟨rfl, rfl, rfl⟩ := h
          refine ⟨rfl, rfl, ?_⟩
          right; right; right; right; left
          exact ⟨tv, ts, rfl, rfl, hne, rfl⟩
      · rw [if_neg hc] at h
        simp at h
    · simp only [hen, Prod.mk.injEq, Option.some.injEq] at h
      obtain ⟨rfl, rfl, rfl⟩ := h
      refine ⟨rfl, rfl, ?_⟩
      right; right; right; left
      exact ⟨tv, ts, rfl, rfl⟩
  · simp only [hts, Prod.mk.injEq, Option.some.injEq] at h
    obtain ⟨rfl, rfl, rfl⟩ := h
    obtain ⟨_, _, hc⟩ := tplStage_error_cases filter query tplId tv ts e1 hts
    refine ⟨rfl, rfl, ?_⟩
    rcases hc with h1 | h2 | h3
    · exact Or.inl h1
    · exact Or.inr (Or.inl h2)
    · exact Or.inr (Or.inr (Or.inl h3))

/-- Instance of C11 on the scenario store with the `GetPoliciesByEnvId` query failing:
the template stage had already produced `P1` and `P2`, and nothing of it is returned. -/
theorem GetValidPolicies_error_witness :
    GetValidPolicies FilterSuppressPolicies MergePolicies
        (failPoliciesByEnvId scenarioStore (DbErr.Other "connection lost")) "T1" "E1" =
        ([], [], some ⟨ErrCode.DBError, DbErr.Other "connection lost"⟩) ∧
      (([] : List Policy) = [] ∧ ([] : List Policy) = []) :=
  have hw := GetValidPolicies_error FilterSuppressPolicies MergePolicies
    FilterSuppressPolicies_errorsEmpty
    (failPoliciesByEnvId scenarioStore (DbErr.Other "connection lost")) "T1" "E1" [] []
    ⟨ErrCode.DBError, DbErr.Other "connection lost"⟩ (by decide)
  ⟨by decide, hw.1, hw.2.1⟩


/-- C12: for a log with unique row ids and a scope among policy, policy group and
task, `PolicySummary` returns no error and holds exactly one entry for each pair
`(k, s)` whose count is not zero, the count being the number of distinct grouping keys
(among rows whose scope-key is in `ids`) whose maximum-id row has scope-key `k` and
status `s`. -/
theorem PolicySummary_latest_counts (query : Session) (ids : List models.Id) (scope : String)
    (hU : ResultPrimaryKey query) (hs : SummaryScope scope)
    (hf : query.fault Query.policySummary = none) :
    (PolicySummary query ids scope).2 = none ∧
    ((PolicySummary query ids scope).1.map (fun x => (x.Id, x.Status))).Nodup ∧
    (∀ x, x ∈ (PolicySummary query ids scope).1 ↔
      x.Count = latestCount query.policyResults ids scope x.Id x.Status ∧ x.Count ≠ 0) ∧
    (∀ k s, summaryCount (PolicySummary query ids scope).1 k s =
      latestCount query.policyResults ids scope k s) := by
  rw [PolicySummary_ok query ids scope hs hf]
  have hk := summaryScope_key scope hs
  refine ⟨rfl, groupCount_keys_nodup _ _, ?_, ?_⟩
  · intro x
    rw [groupCount_mem,
      countP_counted_eq_latestCount query.policyResults hU ids scope _ hk]
  · intro k s
    rw [summaryCount_groupCount,
      countP_counted_eq_latestCount query.policyResults hU ids scope _ hk]

/-- Instance of C12 on the mixed log at policy scope: the entry for `(P1, violated)` has
count 1, the latest result of `P1` on `E1`. -/
theorem PolicySummary_latest_counts_witness :
    PolicySummary mixedLog ["P1", "P2"] consts.ScopePolicy =
        ([⟨"P2", 1, "violated"⟩, ⟨"P1", 1, "violated"⟩, ⟨"P1", 1, "passed"⟩], none) ∧
      summaryCount (PolicySummary mixedLog ["P1", "P2"] consts.ScopePolicy).1 "P1" "violated" =
        latestCount mixedLog.policyResults ["P1", "P2"] consts.ScopePolicy "P1" "violated" :=
  ⟨by decide,
    (PolicySummary_latest_counts mixedLog ["P1", "P2"] consts.ScopePolicy (by decide)
      (Or.inl rfl) rfl).2.2.2 "P1" "violated"⟩

/-- C13 (latest-wins, older insert): inserting a row whose id is fresh and smaller than
the current maximum id of its grouping key leaves the result of `PolicySummary`
unchanged, for every log, id list and scope. -/
theorem PolicySummary_older_insert (query : Session) (ids : List models.Id) (scope : String)
    (r : PolicyResult) (hfresh : ∀ y ∈ query.policyResults, y.Id ≠ r.Id)
    (hold : r.Id < maxId (query.policyResults.filter (fun y =>
      PolicySummary.groupKey scope (scopeKey scope) y ==
        PolicySummary.groupKey scope (scopeKey scope) r))) :
    PolicySummary (insertResult query r) ids scope = PolicySummary query ids scope := by
  have hne : query.policyResults.filter (fun y =>
      PolicySummary.groupKey scope (scopeKey scope) y ==
        PolicySummary.groupKey scope (scopeKey scope) r) ≠ [] := by
    intro h
    rw [h] at hold
    simp [maxId] at hold
  obtain ⟨m, hm, hmid⟩ := maxId_mem _ hne
  obtain ⟨hm1, hm2⟩ := List.mem_filter.1 hm
  have hg : PolicySummary.groupKey scope (scopeKey scope) m =
      PolicySummary.groupKey scope (scopeKey scope) r := by simpa using hm2
  unfold PolicySummary
  cases hk : PolicySummary.key scope with
  | none => rfl
  | some key =>
    have hfault : (insertResult query r).fault = query.fault := rfl
    have hrows : (insertResult query r).policyResults = query.policyResults ++ [r] := rfl
    simp only [hfault, hrows]
    rw [scopeKey_eq scope key hk] at hg
    rw [counted_insert_older query.policyResults ids scope key r m hfresh hm1 hg
      (by omega)]

/-- Instance of C13 on the mixed log: a result of `P1` on `E1` with id 0, older than the
current latest (id 3), changes nothing. -/
theorem PolicySummary_older_insert_witness :
    PolicySummary (insertResult mixedLog
        { Id := 0, PolicyId := "P1", PolicyGroupId := "G1", TaskId := "run-0", EnvId := "E1",
          TplId := "T1", Status := "failed" }) ["P1", "P2"] consts.ScopePolicy =
      PolicySummary mixedLog ["P1", "P2"] consts.ScopePolicy :=
  PolicySummary_older_insert mixedLog ["P1", "P2"] consts.ScopePolicy
    { Id := 0, PolicyId := "P1", PolicyGroupId := "G1", TaskId := "run-0", EnvId := "E1",
      TplId := "T1", Status := "failed" } (by decide) (by decide)

/-- C14 (latest-wins, newer insert): let `m` be the currently counted row of an existing
grouping key, that is the row of largest id among the rows of that grouping key, its
scope-key being in `ids`, and `r` a new row of that grouping key whose id is larger than
every existing id.  After inserting `r`, the count of `(key, m.Status)` is one less and
the count of `(key, r.Status)` one more (nothing changes when the statuses agree), every
other count is unchanged, and the total over all statuses is unchanged for every
scope-key. -/
theorem PolicySummary_newer_insert (query : Session) (ids : List models.Id) (scope : String)
    (r m : PolicyResult) (hU : ResultPrimaryKey query) (hs : SummaryScope scope)
    (hf : query.fault Query.policySummary = none)
    (hnew : ∀ y ∈ query.policyResults, y.Id < r.Id)
    (hcounted : CountedRow query.policyResults ids scope m)
    (hsame : groupingKey scope r = groupingKey scope m) :
    (∀ k s, summaryCount (PolicySummary (insertResult query r) ids scope).1 k s +
        (if k = scopeKey scope r ∧ s = m.Status then 1 else 0) =
      summaryCount (PolicySummary query ids scope).1 k s +
        (if k = scopeKey scope r ∧ s = r.Status then 1 else 0)) ∧
    1 ≤ summaryCount (PolicySummary query ids scope).1 (scopeKey scope r) m.Status ∧
    (∀ k, summaryTotal (PolicySummary (insertResult query r) ids scope).1 k =
      summaryTotal (PolicySummary query ids scope).1 k) := by
  have hkey := summaryScope_key scope hs
  have hm : m ∈ PolicySummary.counted query.policyResults ids scope (scopeKey scope) :=
    (counted_mem query.policyResults hU ids scope _ m).2
      ((countedRow_iff query.policyResults ids scope _ hkey m).1 hcounted)
  have hg : PolicySummary.groupKey scope (scopeKey scope) m =
      PolicySummary.groupKey scope (scopeKey scope) r :=
    (groupingKey_eq_iff scope _ hkey m r).1 hsame.symm
  have hf2 : (insertResult query r).fault Query.policySummary = none := hf
  have hkm : scopeKey scope m = scopeKey scope r := groupKey_key scope _ r m hg
  have hml := (counted_mem query.policyResults hU ids scope _ m).1 hm
  have hc : ids.contains (scopeKey scope r) = true := hkm ▸ hml.2.1
  have hins : PolicySummary.counted (insertResult query r).policyResults ids scope
      (scopeKey scope) =
      (PolicySummary.counted query.policyResults ids scope (scopeKey scope)).filter (fun z =>
        PolicySummary.groupKey scope (scopeKey scope) z !=
          PolicySummary.groupKey scope (scopeKey scope) r) ++ [r] :=
    counted_insert_newer query.policyResults hU ids scope _ r hnew hc
  have hsplit := fun P => counted_split query.policyResults hU ids scope (scopeKey scope) m hm P
  rw [PolicySummary_ok query ids scope hs hf, PolicySummary_ok _ ids scope hs hf2, hins]
  refine ⟨?_, ?_, ?_⟩
  · intro k s
    rw [summaryCount_groupCount, summaryCount_groupCount, hsplit, List.countP_append, hg]
    simp only [List.countP_cons, List.countP_nil, Bool.and_eq_true, beq_iff_eq, hkm]
    have e1 : (scopeKey scope r = k ∧ m.Status = s) ↔ (k = scopeKey scope r ∧ s = m.Status) :=
      ⟨fun h => ⟨h.1.symm, h.2.symm⟩, fun h => ⟨h.1.symm, h.2.symm⟩⟩
    have e2 : (scopeKey scope r = k ∧ r.Status = s) ↔ (k = scopeKey scope r ∧ s = r.Status) :=
      ⟨fun h => ⟨h.1.symm, h.2.symm⟩, fun h => ⟨h.1.symm, h.2.symm⟩⟩
    simp only [e1, e2]
    omega
  · rw [summaryCount_groupCount]
    exact List.countP_pos_iff.2 ⟨m, hm, by simp [hkm]⟩
  · intro k
    rw [summaryTotal_groupCount, summaryTotal_groupCount, hsplit, List.countP_append, hg]
    simp only [List.countP_cons, List.countP_nil, beq_iff_eq, hkm]
    omega

/-- Instance of C14 on the mixed log: a new result of `P1` on `E1` with id 5 and status
passed replaces the counted row with id 3 (violated). -/
theorem PolicySummary_newer_insert_witness :
    PolicySummary mixedLog ["P1", "P2"] consts.ScopePolicy =
        ([⟨"P2", 1, "violated"⟩, ⟨"P1", 1, "violated"⟩, ⟨"P1", 1, "passed"⟩], none) ∧
      PolicySummary (insertResult mixedLog
          { Id := 5, PolicyId := "P1", PolicyGroupId := "G1", TaskId := "run-4",
            EnvId := "E1", TplId := "T1", Status := "passed" }) ["P1", "P2"]
          consts.ScopePolicy =
        ([⟨"P2", 1, "violated"⟩, ⟨"P1", 2, "passed"⟩], none) ∧
      summaryTotal (PolicySummary (insertResult mixedLog
          { Id := 5, PolicyId := "P1", PolicyGroupId := "G1", TaskId := "run-4",
            EnvId := "E1", TplId := "T1", Status := "passed" }) ["P1", "P2"]
          consts.ScopePolicy).1 "P1" =
        summaryTotal (PolicySummary mixedLog ["P1", "P2"] consts.ScopePolicy).1 "P1" :=
  ⟨by decide, by decide,
    (PolicySummary_newer_insert mixedLog ["P1", "P2"] consts.ScopePolicy
      { Id := 5, PolicyId := "P1", PolicyGroupId := "G1", TaskId := "run-4", EnvId := "E1",
        TplId := "T1", Status := "passed" }
      { Id := 3, PolicyId := "P1", PolicyGroupId := "G1", TaskId := "run-2", EnvId := "E1",
        TplId := "T1", Status := "violated" }
      (by decide) (Or.inl rfl) rfl (by decide) (by decide) (by decide)).2.2 "P1"⟩

/-- C15 (scenario of section 8): when the log holds exactly three rows of policy `P1` on
environment `E1` (same template), with ids 10 (violated), 14 (passed) and 9 (failed),
`PolicySummary([P1], policy)` returns no error and exactly one entry: id `P1`, status
passed, count 1. -/
theorem PolicySummary_scenario (query : Session) (P1 E1 T1 : models.Id)
    (r1 r2 r3 : PolicyResult) (hrows : query.policyResults = [r1, r2, r3])
    (hf : query.fault Query.policySummary = none)
    (h1 : r1.Id = 10 ∧ r1.Status = "violated") (h2 : r2.Id = 14 ∧ r2.Status = "passed")
    (h3 : r3.Id = 9 ∧ r3.Status = "failed")
    (hp : r1.PolicyId = P1 ∧ r2.PolicyId = P1 ∧ r3.PolicyId = P1)
    (he : r1.EnvId = E1 ∧ r2.EnvId = E1 ∧ r3.EnvId = E1)
    (ht : r1.TplId = T1 ∧ r2.TplId = T1 ∧ r3.TplId = T1) :
    PolicySummary query [P1] consts.ScopePolicy = ([⟨P1, 1, "passed"⟩], none) := by
  obtain ⟨i1, s1⟩ := h1
  obtain ⟨i2, s2⟩ := h2
  obtain ⟨i3, s3⟩ := h3
  obtain ⟨p1, p2, p3⟩ := hp
  obtain ⟨e1, e2, e3⟩ := he
  obtain ⟨t1, t2, t3⟩ := ht
  have hk : PolicySummary.key consts.ScopePolicy = some PolicyResult.PolicyId := by
    simp [PolicySummary.key]
  have hnt : consts.ScopePolicy ≠ consts.ScopeTask := by decide
  have hsub : PolicySummary.subQuery [r1, r2, r3] [P1] consts.ScopePolicy
      PolicyResult.PolicyId = [14] := by
    simp [PolicySummary.subQuery, PolicySummary.groupKey, hnt, p1, p2, p3, e1, e2, e3, t1, t2,
      t3, maxId, i1, i2, i3]
  simp [PolicySummary, hk, hf, hrows, PolicySummary.counted, hsub, groupCount, i1, i2, i3, p2,
    s2]

/-- Instance of C15: the log of section 8 itself. -/
theorem PolicySummary_scenario_witness :
    PolicySummary scenarioLog ["P1"] consts.ScopePolicy = ([⟨"P1", 1, "passed"⟩], none) :=
  PolicySummary_scenario scenarioLog "P1" "E1" "T1"
    { Id := 10, PolicyId := "P1", PolicyGroupId := "G1", TaskId := "run-1", EnvId := "E1",
      TplId := "T1", Status := "violated" }
    { Id := 14, PolicyId := "P1", PolicyGroupId := "G1", TaskId := "run-2", EnvId := "E1",
      TplId := "T1", Status := "passed" }
    { Id := 9, PolicyId := "P1", PolicyGroupId := "G1", TaskId := "run-0", EnvId := "E1",
      TplId := "T1", Status := "failed" }
    rfl rfl (by decide) (by decide) (by decide) (by decide) (by decide) (by decide)

/-- C16, as stated, fails: at task scope with two task ids, two rows with the same
`(env_id, tpl_id, policy_id)` triple are both counted. -/
theorem PolicySummary_task_scope_counts_both :
    PolicySummary twoTaskLog ["run-1", "run-2"] consts.ScopeTask =
        ([⟨"run-1", 1, "passed"⟩, ⟨"run-2", 1, "passed"⟩], none) ∧
      PolicySummary.counted twoTaskLog.policyResults ["run-1", "run-2"] consts.ScopeTask
        PolicyResult.TaskId = twoTaskLog.policyResults ∧
      twoTaskLog.policyResults.map (fun r => (r.EnvId, r.TplId, r.PolicyId, r.Id)) =
        [("E1", "T1", "P1", 1), ("E1", "T1", "P1", 2)] := by
  decide

/-- C16, amended: for a log with unique row ids and a scope among policy, policy group
and task, the counts of `PolicySummary` are the counts over the rows selected by the
sub-query, and for every scope-key value and `(env_id, tpl_id, policy_id)` triple at
most one selected row has that scope-key and triple; a selected row has its scope-key
in `ids` and the largest id among the rows with its scope-key and triple. -/
theorem PolicySummary_one_per_key (query : Session) (ids : List models.Id) (scope : String)
    (hU : ResultPrimaryKey query) (hs : SummaryScope scope)
    (hf : query.fault Query.policySummary = none) (x : PolicyResult)
    (hx : x ∈ PolicySummary.counted query.policyResults ids scope (scopeKey scope)) :
    (∀ k s, summaryCount (PolicySummary query ids scope).1 k s =
      (PolicySummary.counted query.policyResults ids scope (scopeKey scope)).countP
        (fun r => scopeKey scope r == k && r.Status == s)) ∧
    x ∈ query.policyResults ∧ ids.contains (scopeKey scope x) = true ∧
    (∀ y ∈ PolicySummary.counted query.policyResults ids scope (scopeKey scope),
      scopeKey scope y = scopeKey scope x → y.EnvId = x.EnvId → y.TplId = x.TplId →
        y.PolicyId = x.PolicyId → y = x) ∧
    (∀ y ∈ query.policyResults,
      scopeKey scope y = scopeKey scope x → y.EnvId = x.EnvId → y.TplId = x.TplId →
        y.PolicyId = x.PolicyId → y.Id ≤ x.Id) := by
  have hxl := (counted_mem query.policyResults hU ids scope _ x).1 hx
  refine ⟨?_, hxl.1, hxl.2.1, ?_, ?_⟩
  · intro k s
    rw [PolicySummary_ok query ids scope hs hf, summaryCount_groupCount]
  · intro y hy hk he ht hp
    have hyl := (counted_mem query.policyResults hU ids scope _ y).1 hy
    exact isLatest_inj query.policyResults hU ids scope _ y x hyl.1 hxl.1 hyl.2 hxl.2
      (groupKey_of_triple scope _ x y hk he ht hp)
  · intro y hy hk he ht hp
    exact hxl.2.2 y hy (groupKey_of_triple scope _ x y hk he ht hp)

/-- Instance of the amended C16 on the mixed log at policy-group scope: the only selected
row of group `G1` on `E1` is the one with id 3. -/
theorem PolicySummary_one_per_key_witness :
    PolicySummary.counted mixedLog.policyResults ["G1"] consts.ScopePolicyGroup
        (scopeKey consts.ScopePolicyGroup) =
        [{ Id := 3, PolicyId := "P1", PolicyGroupId := "G1", TaskId := "run-2", EnvId := "E1",
           TplId := "T1", Status := "violated" },
         { Id := 4, PolicyId := "P1", PolicyGroupId := "G1", TaskId := "run-3", EnvId := "E2",
           TplId := "T1", Status := "passed" }] ∧
      ["G1"].contains (scopeKey consts.ScopePolicyGroup
        { Id := 3, PolicyId := "P1", PolicyGroupId := "G1", TaskId := "run-2", EnvId := "E1",
          TplId := "T1", Status := "violated" }) = true :=
  ⟨by decide,
    (PolicySummary_one_per_key mixedLog ["G1"] consts.ScopePolicyGroup (by decide)
      (Or.inr (Or.inl rfl)) rfl
      { Id := 3, PolicyId := "P1", PolicyGroupId := "G1", TaskId := "run-2", EnvId := "E1",
        TplId := "T1", Status := "violated" } (by decide)).2.2.1⟩

/-- C17: for scope env or template, the counts of `PolicyTargetSummary` are counts over
result rows each of which belongs to a target in `ids` and has `task_id` equal to that
target's `last_scan_task_id`; a row whose task is not the last scan task of its target is
never counted, whatever its id. -/
theorem PolicyTargetSummary_last_task (query : Session) (ids : List models.Id)
    (scope : String) (key : PolicyResult → models.Id) (table : List (models.Id × models.Id))
    (ht : PolicyTargetSummary.target query scope = some (key, table))
    (hf : query.fault Query.policyTargetSummary = none) :
    ((scope = consts.ScopeEnv ∧ key = PolicyResult.EnvId ∧
        table = query.envs.map (fun e => (e.Id, e.LastScanTaskId))) ∨
      (scope = consts.ScopeTemplate ∧ key = PolicyResult.TplId ∧
        table = query.templates.map (fun t => (t.Id, t.LastScanTaskId)))) ∧
    (PolicyTargetSummary query ids scope).2 = none ∧
    (∀ k s, summaryCount (PolicyTargetSummary query ids scope).1 k s =
      (PolicyTargetSummary.counted query.policyResults table ids key).countP
        (fun r => key r == k && r.Status == s)) ∧
    (∀ r ∈ PolicyTargetSummary.counted query.policyResults table ids key,
      r ∈ query.policyResults ∧ ids.contains (key r) = true ∧ (key r, r.TaskId) ∈ table) ∧
    (∀ r, (key r, r.TaskId) ∉ table →
      r ∉ PolicyTargetSummary.counted query.policyResults table ids key) := by
  rw [PolicyTargetSummary_ok query ids scope key table ht hf]
  refine ⟨?_, rfl, ?_, ?_, ?_⟩
  · unfold PolicyTargetSummary.target at ht
    by_cases h1 : scope = consts.ScopeEnv
    · rw [if_pos h1] at ht
      simp only [Option.some.injEq, Prod.mk.injEq] at ht
      exact Or.inl ⟨h1, ht.1.symm, ht.2.symm⟩
    · rw [if_neg h1] at ht
      by_cases h2 : scope = consts.ScopeTemplate
      · rw [if_pos h2] at ht
        simp only [Option.some.injEq, Prod.mk.injEq] at ht
        exact Or.inr ⟨h2, ht.1.symm, ht.2.symm⟩
      · rw [if_neg h2] at ht
        exact absurd ht (by simp)
  · intro k s
    rw [summaryCount_groupCount]
  · intro r hr
    exact (targetCounted_mem _ _ _ _ r).1 hr
  · intro r hn hr
    exact hn ((targetCounted_mem _ _ _ _ r).1 hr).2.2

/-- Instance of C17 on the last-task log: the row of the older task `run-1` is not
counted although its id is the largest. -/
theorem PolicyTargetSummary_last_task_witness :
    PolicyTargetSummary lastTaskLog ["E1"] consts.ScopeEnv = ([⟨"E1", 2, "passed"⟩], none) ∧
      ({ Id := 3, PolicyId := "P1", TaskId := "run-1", EnvId := "E1", TplId := "T1",
         Status := "violated" } : PolicyResult) ∉
        PolicyTargetSummary.counted lastTaskLog.policyResults [("E1", "run-2")] ["E1"]
          PolicyResult.EnvId :=
  ⟨by decide,
    (PolicyTargetSummary_last_task lastTaskLog ["E1"] consts.ScopeEnv PolicyResult.EnvId
      [("E1", "run-2")] rfl rfl).2.2.2.2
      { Id := 3, PolicyId := "P1", TaskId := "run-1", EnvId := "E1", TplId := "T1",
        Status := "violated" } (by decide)⟩

/-- C18, as stated, fails: the last task `run-2` of environment `E1` left two rows for
policy `P1`, and `PolicyTargetSummary` counts both. -/
theorem PolicyTargetSummary_counts_duplicates :
    PolicyTargetSummary lastTaskLog ["E1"] consts.ScopeEnv = ([⟨"E1", 2, "passed"⟩], none) ∧
      (lastTaskLog.policyResults.filter (fun r => r.TaskId == "run-2")).map
        (fun r => (r.EnvId, r.PolicyId, r.Id)) = [("E1", "P1", 1), ("E1", "P1", 2)] := by
  decide

/-- C18, amended: `PolicyTargetSummary` applies no latest-wins deduplication.  With
unique target ids, the rows it counts are all the result rows whose target is in `ids`
and whose `task_id` is the target's `last_scan_task_id`, each once: the count of
`(k, s)` is the number of such rows with target `k` and status `s`, so two rows of the
last task for the same target and policy count twice. -/
theorem PolicyTargetSummary_counts_every_row (query : Session) (ids : List models.Id)
    (scope : String) (key : PolicyResult → models.Id) (table : List (models.Id × models.Id))
    (ht : PolicyTargetSummary.target query scope = some (key, table))
    (hf : query.fault Query.policyTargetSummary = none) (hPK : TargetPrimaryKey table) :
    PolicyTargetSummary.counted query.policyResults table ids key =
      query.policyResults.filter (fun r =>
        ids.contains (key r) && table.contains (key r, r.TaskId)) ∧
    (∀ k s, summaryCount (PolicyTargetSummary query ids scope).1 k s =
      query.policyResults.countP (fun r =>
        (key r == k && r.Status == s) &&
          (ids.contains (key r) && table.contains (key r, r.TaskId)))) := by
  have h := targetCounted_eq_filter query.policyResults table hPK ids key
  refine ⟨h, ?_⟩
  intro k s
  rw [PolicyTargetSummary_ok query ids scope key table ht hf, summaryCount_groupCount, h,
    List.countP_filter]

/-- Instance of the amended C18 on the last-task log: both rows of `run-2` count. -/
theorem PolicyTargetSummary_counts_every_row_witness :
    TargetPrimaryKey [("E1", "run-2")] ∧
      summaryCount (PolicyTargetSummary lastTaskLog ["E1"] consts.ScopeEnv).1 "E1" "passed" =
        lastTaskLog.policyResults.countP (fun r =>
          (PolicyResult.EnvId r == "E1" && r.Status == "passed") &&
            (["E1"].contains (PolicyResult.EnvId r) &&
              [("E1", "run-2")].contains (PolicyResult.EnvId r, r.TaskId))) :=
  ⟨by decide,
    (PolicyTargetSummary_counts_every_row lastTaskLog ["E1"] consts.ScopeEnv
      PolicyResult.EnvId [("E1", "run-2")] rfl rfl (by decide)).2 "E1" "passed"⟩

/-- C19, as stated, fails for `GetPolicyScanStatus`: a pending row is counted and
reported under an entry of status pending, which is absent when the pending rows are
removed from the log. -/
theorem GetPolicyScanStatus_counts_pending :
    GetPolicyScanStatus pendingLog "P1" 0 1000 consts.ScopePolicy =
        ([⟨0, 1, "passed"⟩, ⟨0, 1, "pending"⟩], none) ∧
      GetPolicyScanStatus (removePending pendingLog) "P1" 0 1000 consts.ScopePolicy =
        ([⟨0, 1, "passed"⟩], none) := by
  decide

/-- C19, amended: `GetPolicyScanByTarget` never counts a pending row, its result is the
result over the log with all pending rows removed.  `GetPolicyScanStatus`, at policy and
at policy-group scope, counts rows of every status: when the store answers, it holds an
entry `(date, status, count)` exactly when `count` is the number of rows of the window
with that scope-key, date and status and is not zero, so pending rows are reported
under entries of status pending; and its entries of a status other than pending are
exactly the entries computed over the log with all pending rows removed. -/
theorem scan_reports_and_pending (query : Session) (id policyId : models.Id)
    (fromTime toTime showCount : Nat) (scope : String)
    (hs : scope = consts.ScopePolicy ∨ scope = consts.ScopePolicyGroup) :
    GetPolicyScanByTarget (removePending query) policyId fromTime toTime showCount =
      GetPolicyScanByTarget query policyId fromTime toTime showCount ∧
    (GetPolicyScanStatus (removePending query) id fromTime toTime scope).2 =
      (GetPolicyScanStatus query id fromTime toTime scope).2 ∧
    (∀ x, x ∈ (GetPolicyScanStatus (removePending query) id fromTime toTime scope).1 ↔
      x ∈ (GetPolicyScanStatus query id fromTime toTime scope).1 ∧ x.Status ≠ "pending") ∧
    (query.fault Query.policyScanStatus = none →
      (GetPolicyScanStatus query id fromTime toTime scope).2 = none ∧
      (∀ x, x ∈ (GetPolicyScanStatus query id fromTime toTime scope).1 ↔
        x.Count = query.policyResults.countP (fun r =>
          (decide (fromTime ≤ r.StartAt) && decide (r.StartAt < toTime) &&
            scopeKey scope r == id) &&
          (dateOf r.StartAt == x.Date && r.Status == x.Status)) ∧ x.Count ≠ 0) ∧
      (∀ r ∈ query.policyResults, fromTime ≤ r.StartAt → r.StartAt < toTime →
        scopeKey scope r = id → r.Status = "pending" →
        ∃ x ∈ (GetPolicyScanStatus query id fromTime toTime scope).1,
          x.Date = dateOf r.StartAt ∧ x.Status = "pending" ∧ 1 ≤ x.Count)) := by
  have hfault : (removePending query).fault = query.fault := rfl
  have hrows : (removePending query).policyResults =
      query.policyResults.filter (fun r => r.Status != "pending") := rfl
  have hkey := scanStatusKey_eq scope hs
  refine ⟨?_, ?_, ?_, ?_⟩
  · unfold GetPolicyScanByTarget
    rw [hfault, hrows, List.filter_filter]
    have hc : (fun a : PolicyResult =>
        ((decide (fromTime ≤ a.StartAt) && decide (a.StartAt < toTime) &&
          a.PolicyId == policyId) && a.Status != "pending") && (a.Status != "pending")) =
        (fun r : PolicyResult =>
          (decide (fromTime ≤ r.StartAt) && decide (r.StartAt < toTime) &&
            r.PolicyId == policyId) && r.Status != "pending") := by
      funext a
      rw [Bool.and_assoc, Bool.and_self]
    rw [hc]
    rfl
  · unfold GetPolicyScanStatus
    rw [hfault, hkey]
    cases hf : query.fault Query.policyScanStatus with
    | none => rfl
    | some err => rfl
  · intro x
    unfold GetPolicyScanStatus
    rw [hfault, hrows, hkey]
    cases hf : query.fault Query.policyScanStatus with
    | some err =>
      by_cases he : err = DbErr.RecordNotFound <;> simp [he]
    | none =>
      simp only []
      rw [List.filter_filter]
      have hc : (fun a : PolicyResult =>
          (decide (fromTime ≤ a.StartAt) && decide (a.StartAt < toTime) &&
            scopeKey scope a == id) && (a.Status != "pending")) =
          (fun a : PolicyResult =>
            (a.Status != "pending") &&
              (decide (fromTime ≤ a.StartAt) && decide (a.StartAt < toTime) &&
                scopeKey scope a == id)) := by
        funext a
        rw [Bool.and_comm]
      rw [hc, ← List.filter_filter]
      exact groupByDate_removePending _ x
  · intro hf
    have hres : GetPolicyScanStatus query id fromTime toTime scope =
        (groupByDate (query.policyResults.filter (fun r =>
          decide (fromTime ≤ r.StartAt) && decide (r.StartAt < toTime) &&
            scopeKey scope r == id)), none) := by
      unfold GetPolicyScanStatus
      rw [hkey]
      simp only [hf]
    have hmem : ∀ x, x ∈ (GetPolicyScanStatus query id fromTime toTime scope).1 ↔
        x.Count = query.policyResults.countP (fun r =>
          (decide (fromTime ≤ r.StartAt) && decide (r.StartAt < toTime) &&
            scopeKey scope r == id) &&
          (dateOf r.StartAt == x.Date && r.Status == x.Status)) ∧ x.Count ≠ 0 := by
      intro x
      rw [hres, groupByDate_mem, List.countP_filter]
      have hc : (fun a : PolicyResult =>
          (dateOf a.StartAt == x.Date && a.Status == x.Status) &&
            (decide (fromTime ≤ a.StartAt) && decide (a.StartAt < toTime) &&
              scopeKey scope a == id)) =
          (fun r : PolicyResult =>
            (decide (fromTime ≤ r.StartAt) && decide (r.StartAt < toTime) &&
              scopeKey scope r == id) &&
            (dateOf r.StartAt == x.Date && r.Status == x.Status)) := by
        funext a
        rw [Bool.and_comm]
      rw [hc]
    refine ⟨by rw [hres], hmem, ?_⟩
    intro r hr h1 h2 h3 h4
    have hpos : 0 < query.policyResults.countP (fun r' =>
        (decide (fromTime ≤ r'.StartAt) && decide (r'.StartAt < toTime) &&
          scopeKey scope r' == id) &&
        (dateOf r'.StartAt == dateOf r.StartAt && r'.Status == "pending")) :=
      List.countP_pos_iff.2 ⟨r, hr, by simp [h1, h2, h3, h4]⟩
    exact ⟨⟨dateOf r.StartAt, _, "pending"⟩, (hmem _).2 ⟨rfl, Nat.pos_iff_ne_zero.1 hpos⟩,
      rfl, rfl, hpos⟩

/-- Instance of the amended C19 on the pending log at policy scope: the pending row of
day 0 is reported under an entry of status pending. -/
theorem scan_reports_and_pending_witness :
    GetPolicyScanStatus pendingLog "P1" 0 1000 consts.ScopePolicy =
        ([⟨0, 1, "passed"⟩, ⟨0, 1, "pending"⟩], none) ∧
      (∃ x ∈ (GetPolicyScanStatus pendingLog "P1" 0 1000 consts.ScopePolicy).1,
        x.Date = 0 ∧ x.Status = "pending" ∧ 1 ≤ x.Count) :=
  ⟨by decide,
    ((scan_reports_and_pending pendingLog "P1" "P1" 0 1000 5 consts.ScopePolicy
      (Or.inl rfl)).2.2.2 rfl).2.2
      { Id := 2, PolicyId := "P1", EnvId := "E1", TplId := "T1", Status := "pending",
        StartAt := 200 }
      (by decide) (by decide) (by decide) (by decide) rfl⟩

/-- C20: for scope env or template, `PolicyTargetSuppressSummary` returns no error and
exactly one entry, of status suppressed, for each target whose count is not zero, the
count being the number of distinct policy ids in the union of the two suppression
sources for that target: a policy reaching the target through both sources counts
once. -/
theorem PolicyTargetSuppressSummary_distinct (query : Session) (ids : List models.Id)
    (scope : String) (key : PolicyRel → models.Id)
    (hk : PolicyTargetSuppressSummary.key scope = some key)
    (hf : query.fault Query.policyTargetSuppressSummary = none) :
    ((scope = consts.ScopeEnv ∧ key = PolicyRel.EnvId) ∨
      (scope = consts.ScopeTemplate ∧ key = PolicyRel.TplId)) ∧
    (PolicyTargetSuppressSummary query ids scope).2 = none ∧
    ((PolicyTargetSuppressSummary query ids scope).1.map PolicyScanSummary.Id).Nodup ∧
    (∀ x, x ∈ (PolicyTargetSuppressSummary query ids scope).1 ↔
      x.Status = "suppressed" ∧
        x.Count = suppressedPolicyCount query ids scope key x.Id ∧ x.Count ≠ 0) := by
  have hout : PolicyTargetSuppressSummary query ids scope =
      (countSuppressed (suppressBySource query ids scope ++ suppressByPolicy query ids key),
        none) := by
    unfold PolicyTargetSuppressSummary
    rw [hk]
    simp only [hf]
  rw [hout]
  refine ⟨?_, rfl, countSuppressed_nodup _, ?_⟩
  · unfold PolicyTargetSuppressSummary.key at hk
    by_cases h1 : scope = consts.ScopeEnv
    · rw [if_pos h1] at hk
      exact Or.inl ⟨h1, (Option.some.inj hk).symm⟩
    · rw [if_neg h1] at hk
      by_cases h2 : scope = consts.ScopeTemplate
      · rw [if_pos h2] at hk
        exact Or.inr ⟨h2, (Option.some.inj hk).symm⟩
      · rw [if_neg h2] at hk
        exact absurd hk (by simp)
  · intro x
    exact countSuppressed_mem _ x

/-- Instance of C20 on the suppression store: `P1` reaches `E1` through both sources and
`P2` through one, and the count for `E1` is 2. -/
theorem PolicyTargetSuppressSummary_distinct_witness :
    suppressBySource suppressStore ["E1"] consts.ScopeEnv ++
        suppressByPolicy suppressStore ["E1"] PolicyRel.EnvId =
        [("P1", "E1", "env"), ("P2", "E1", "env"), ("P1", "E1", "policy")] ∧
      PolicyTargetSuppressSummary suppressStore ["E1"] consts.ScopeEnv =
        ([⟨"E1", 2, "suppressed"⟩], none) ∧
      ((⟨"E1", 2, "suppressed"⟩ : PolicyScanSummary) ∈
          (PolicyTargetSuppressSummary suppressStore ["E1"] consts.ScopeEnv).1 ↔
        "suppressed" = "suppressed" ∧
          2 = suppressedPolicyCount suppressStore ["E1"] consts.ScopeEnv PolicyRel.EnvId "E1" ∧
          2 ≠ 0) :=
  ⟨by decide, by decide,
    (PolicyTargetSuppressSummary_distinct suppressStore ["E1"] consts.ScopeEnv
      PolicyRel.EnvId rfl rfl).2.2.2 ⟨"E1", 2, "suppressed"⟩⟩

/-- C21, as stated, fails: the only relation of the group of `P1` to `E1` is disabled, and
the suppression recorded against `P1` still counts for `E1`. -/
theorem PolicyTargetSuppressSummary_counts_disabled :
    PolicyTargetSuppressSummary disabledBindingStore ["E1"] consts.ScopeEnv =
        ([⟨"E1", 1, "suppressed"⟩], none) ∧
      suppressBySource disabledBindingStore ["E1"] consts.ScopeEnv = [] ∧
      EnabledRelTo disabledBindingStore PolicyRel.EnvId policyP1 "E1" = false := by
  decide

/-- C21, amended: in `PolicyTargetSuppressSummary` a suppression recorded against a policy
contributes a row for a target exactly when the target is in `ids` and the policy's
group has a relation to that target, whatever the relation's `enabled` flag; a policy
none of whose group's relations points to the target adds no row for it. -/
theorem suppressByPolicy_rows (query : Session) (ids : List models.Id)
    (key : PolicyRel → models.Id) (policyId target : models.Id) (targetType : String) :
    (policyId, target, targetType) ∈ suppressByPolicy query ids key ↔
      ids.contains target = true ∧
        ∃ p ∈ query.policies, p.Id = policyId ∧
          (∃ rel ∈ query.policyRels, rel.GroupId = p.GroupId ∧ key rel = target) ∧
          (∃ s ∈ query.policySuppresses, s.TargetId = p.Id ∧ s.TargetType = targetType) := by
  unfold suppressByPolicy
  simp only [List.mem_filter, List.mem_flatMap, List.mem_map, beq_iff_eq, Prod.mk.injEq]
  constructor
  · rintro ⟨⟨p, hp, rel, ⟨hrel, hg⟩, s, ⟨hs, hst⟩, rfl, rfl, rfl⟩, hc⟩
    exact ⟨hc, p, hp, rfl, ⟨rel, hrel, hg, rfl⟩, ⟨s, hs, hst.symm, rfl⟩⟩
  · rintro ⟨hc, p, hp, rfl, ⟨rel, hrel, hg, rfl⟩, ⟨s, hs, hst, rfl⟩⟩
    exact ⟨⟨p, hp, rel, ⟨hrel, hg⟩, s, ⟨hs, hst.symm⟩, rfl, rfl, rfl⟩, hc⟩

/-- C22, as stated, fails: with the scope `policy` the two functions return what the
store answers to the statement, a summary and no error on a store that answers with
rows, no summary and no error on a store that answers record-not-found, and a database
error on a store that rejects the statement. -/
theorem target_summaries_follow_store :
    PolicyTargetSummary answeringStore ["E1"] consts.ScopePolicy =
        ([⟨"", 3, "passed"⟩], none) ∧
      PolicyTargetSuppressSummary answeringStore ["E1"] consts.ScopePolicy =
        ([⟨"", 3, "passed"⟩], none) ∧
      PolicyTargetSummary notFoundStore ["E1"] consts.ScopePolicy = ([], none) ∧
      PolicyTargetSuppressSummary notFoundStore ["E1"] consts.ScopePolicy = ([], none) ∧
      PolicyTargetSummary lastTaskLog ["E1"] consts.ScopePolicy = ([], some sqlSyntaxError) ∧
      PolicyTargetSuppressSummary lastTaskLog ["E1"] consts.ScopePolicy =
        ([], some sqlSyntaxError) := by
  decide

/-- C22, amended: `PolicyTargetSummary` and `PolicyTargetSuppressSummary` do not check
the scope.  For every scope other than env and template the result is decided by what
the store answers to the statement built with the empty column name: an error other
than record-not-found gives no summary and that error wrapped as `DBError`,
record-not-found gives no summary and a nil error, and an answer without error gives
the rows the store returned and a nil error. -/
theorem target_summaries_unchecked_scope (query : Session) (ids : List models.Id)
    (scope : String) (h1 : scope ≠ consts.ScopeEnv) (h2 : scope ≠ consts.ScopeTemplate) :
    (∀ rows err, query.malformed Query.policyTargetSummary = (rows, some err) →
      err ≠ DbErr.RecordNotFound →
      PolicyTargetSummary query ids scope = ([], some ⟨ErrCode.DBError, err⟩)) ∧
    (∀ rows, query.malformed Query.policyTargetSummary = (rows, some DbErr.RecordNotFound) →
      PolicyTargetSummary query ids scope = ([], none)) ∧
    (∀ rows, query.malformed Query.policyTargetSummary = (rows, none) →
      PolicyTargetSummary query ids scope = (rows, none)) ∧
    (∀ rows err, query.malformed Query.policyTargetSuppressSummary = (rows, some err) →
      err ≠ DbErr.RecordNotFound →
      PolicyTargetSuppressSummary query ids scope = ([], some ⟨ErrCode.DBError, err⟩)) ∧
    (∀ rows,
      query.malformed Query.policyTargetSuppressSummary = (rows, some DbErr.RecordNotFound) →
      PolicyTargetSuppressSummary query ids scope = ([], none)) ∧
    (∀ rows, query.malformed Query.policyTargetSuppressSummary = (rows, none) →
      PolicyTargetSuppressSummary query ids scope = (rows, none)) := by
  have ht : PolicyTargetSummary query ids scope =
      findResult (query.malformed Query.policyTargetSummary) := by
    unfold PolicyTargetSummary PolicyTargetSummary.target
    rw [if_neg h1, if_neg h2]
  have hsup : PolicyTargetSuppressSummary query ids scope =
      findResult (query.malformed Query.policyTargetSuppressSummary) := by
    unfold PolicyTargetSuppressSummary PolicyTargetSuppressSummary.key
    rw [if_neg h1, if_neg h2]
  rw [ht, hsup]
  refine ⟨?_, ?_, ?_, ?_, ?_, ?_⟩
  · intro rows err h hne
    rw [h, findResult]
    simp only [if_neg hne]
  · intro rows h
    rw [h, findResult]
    simp
  · intro rows h
    rw [h, findResult]
  · intro rows err h hne
    rw [h, findResult]
    simp only [if_neg hne]
  · intro rows h
    rw [h, findResult]
    simp
  · intro rows h
    rw [h, findResult]

/-- Instance of the amended C22: scope `policy` on a store that rejects the statement as
a SQL store does. -/
theorem target_summaries_unchecked_scope_witness :
    PolicyTargetSummary lastTaskLog ["E1"] consts.ScopePolicy =
        ([], some ⟨ErrCode.DBError, DbErr.Other "SQL syntax"⟩) ∧
      PolicyTargetSuppressSummary lastTaskLog ["E1"] consts.ScopePolicy =
        ([], some ⟨ErrCode.DBError, DbErr.Other "SQL syntax"⟩) :=
  have hw := target_summaries_unchecked_scope lastTaskLog ["E1"] consts.ScopePolicy
    (by decide) (by decide)
  ⟨hw.1 [] (DbErr.Other "SQL syntax") rfl (by decide),
    hw.2.2.2.1 [] (DbErr.Other "SQL syntax") rfl (by decide)⟩

theorem GetTaskPolicies_ok (filter : FilterFn) (merge : MergeFn) (query : Session)
    (taskId : models.Id) (task : ScanTask) (valid suppressed : List Policy)
    (hT : GetScanTaskById query taskId = (some task, none))
    (hV : GetValidPolicies filter merge query task.TplId task.EnvId =
      (valid, suppressed, none)) :
    GetTaskPolicies filter merge query taskId =
      (valid.map (GetTaskPolicies.taskPolicy query), none) := by
  unfold GetTaskPolicies
  simp only [hT, hV]

/-- C24: when the task lookup and the policy resolution succeed, `GetTaskPolicies`
returns no error and one `TaskPolicy` per valid policy of
`GetValidPolicies(task.TplId, task.EnvId)`, in the same order; each has `PolicyId` and
meta `id` equal to the policy id, meta `file` = `policy.rego`, meta `severity` the
policy's severity in upper case, and meta `category` the owning group's name when the
group is found and `general` when it is not; no id of a suppressed policy is among
them. -/
theorem GetTaskPolicies_valid (filter : FilterFn) (merge : MergeFn) (query : Session)
    (taskId : models.Id) (task : ScanTask) (valid suppressed : List Policy)
    (hT : GetScanTaskById query taskId = (some task, none))
    (hV : GetValidPolicies filter merge query task.TplId task.EnvId =
      (valid, suppressed, none)) :
    (GetTaskPolicies filter merge query taskId).2 = none ∧
    (GetTaskPolicies filter merge query taskId).1.map TaskPolicy.PolicyId =
      valid.map Policy.Id ∧
    (GetTaskPolicies filter merge query taskId).1 =
      valid.map (GetTaskPolicies.taskPolicy query) ∧
    (∀ p : Policy,
      (GetTaskPolicies.taskPolicy query p).PolicyId = p.Id ∧
      (GetTaskPolicies.taskPolicy query p).Meta.id = p.Id ∧
      (GetTaskPolicies.taskPolicy query p).Meta.file = "policy.rego" ∧
      (GetTaskPolicies.taskPolicy query p).Meta.severity = strings.ToUpper p.Severity ∧
      (∀ g, GetPolicyGroupById query p.GroupId = (some g, none) →
        (GetTaskPolicies.taskPolicy query p).Meta.category = g.Name) ∧
      (GetPolicyGroupById query p.GroupId =
          (none, some ⟨ErrCode.PolicyGroupNotExist, DbErr.RecordNotFound⟩) →
        (GetTaskPolicies.taskPolicy query p).Meta.category = "general")) ∧
    (FilterPartitions filter → MergeIsUnionById merge → PolicyPrimaryKey query →
      ∀ tp ∈ (GetTaskPolicies filter merge query taskId).1,
        tp.PolicyId ∉ suppressed.map Policy.Id) := by
  rw [GetTaskPolicies_ok filter merge query taskId task valid suppressed hT hV]
  refine ⟨rfl, ?_, rfl, ?_, ?_⟩
  · simp only [List.map_map]
    rfl
  · intro p
    refine ⟨rfl, rfl, rfl, rfl, ?_, ?_⟩
    · intro g hg
      simp [GetTaskPolicies.taskPolicy, hg]
    · intro hg
      simp [GetTaskPolicies.taskPolicy, hg]
  · intro hF hM hK tp htp hmem
    obtain ⟨p, hp, rfl⟩ := List.mem_map.1 htp
    obtain ⟨q, hq, hqp⟩ := List.mem_map.1 hmem
    exact valid_suppressed_ids_ne filter merge hF hM query hK task.TplId task.EnvId valid
      suppressed hV p hp q hq hqp.symm

/-- Instance of C24: the task of the layered store gives one task policy, for `P2`. -/
theorem GetTaskPolicies_valid_witness :
    GetScanTaskById namedGroupStore "run-1" =
        (some { Id := "run-1", TplId := "T1", EnvId := "E1" }, none) ∧
      GetTaskPolicies FilterSuppressPolicies MergePolicies namedGroupStore "run-1" =
        ([{ PolicyId := "P2",
            Meta :=
              { name := "", file := "policy.rego", policy_type := "", resource_type := "",
                severity := "LOW", reference_id := "", category := "network", version := 0,
                id := "P2" },
            Rego := "" }], none) ∧
      (GetTaskPolicies FilterSuppressPolicies MergePolicies namedGroupStore "run-1").1.map
        TaskPolicy.PolicyId = [policyP2].map Policy.Id :=
  ⟨by decide, by decide,
    (GetTaskPolicies_valid FilterSuppressPolicies MergePolicies namedGroupStore "run-1"
      { Id := "run-1", TplId := "T1", EnvId := "E1" } [policyP2] [policyP3, policyP1]
      (by decide) (by decide)).2.1⟩

/-- C25, as stated, fails: the group lookup fails with a store error other than
not-found, and `GetTaskPolicies` returns no error and the policy with category
`general`. -/
theorem GetTaskPolicies_swallows_group_error :
    GetPolicyGroupById (failGroupLookup namedGroupStore (DbErr.Other "connection lost")) "G2" =
        (none, some ⟨ErrCode.DBError, DbErr.Other "connection lost"⟩) ∧
      GetTaskPolicies FilterSuppressPolicies MergePolicies
          (failGroupLookup namedGroupStore (DbErr.Other "connection lost")) "run-1" =
        ([{ PolicyId := "P2",
            Meta :=
              { name := "", file := "policy.rego", policy_type := "", resource_type := "",
                severity := "LOW", reference_id := "", category := "general", version := 0,
                id := "P2" },
            Rego := "" }], none) := by
  decide

/-- C25, amended: `GetTaskPolicies` discards the error of the group lookup.  When the
task lookup and the policy resolution succeed it returns no error, and a valid policy
whose group lookup returns no group, for a not-found error or any other store error,
gets the category `general`. -/
theorem GetTaskPolicies_group_error (filter : FilterFn) (merge : MergeFn) (query : Session)
    (taskId : models.Id) (task : ScanTask) (valid suppressed : List Policy)
    (hT : GetScanTaskById query taskId = (some task, none))
    (hV : GetValidPolicies filter merge query task.TplId task.EnvId =
      (valid, suppressed, none)) :
    (GetTaskPolicies filter merge query taskId).2 = none ∧
    (∀ p ∈ valid, ∀ err, GetPolicyGroupById query p.GroupId = (none, some err) →
      ∃ tp ∈ (GetTaskPolicies filter merge query taskId).1,
        tp.PolicyId = p.Id ∧ tp.Meta.category = "general") := by
  rw [GetTaskPolicies_ok filter merge query taskId task valid suppressed hT hV]
  refine ⟨rfl, ?_⟩
  intro p hp err hg
  refine ⟨GetTaskPolicies.taskPolicy query p, List.mem_map_of_mem _ hp, rfl, ?_⟩
  simp [GetTaskPolicies.taskPolicy, hg]

/-- Instance of the amended C25: the group lookup reports not-found, and the category is
`general` with no error. -/
theorem GetTaskPolicies_group_error_witness :
    GetPolicyGroupById (failGroupLookup namedGroupStore DbErr.RecordNotFound) "G2" =
        (none, some ⟨ErrCode.PolicyGroupNotExist, DbErr.RecordNotFound⟩) ∧
      (GetTaskPolicies FilterSuppressPolicies MergePolicies
        (failGroupLookup namedGroupStore DbErr.RecordNotFound) "run-1").2 = none :=
  ⟨by decide,
    (GetTaskPolicies_group_error FilterSuppressPolicies MergePolicies
      (failGroupLookup namedGroupStore DbErr.RecordNotFound)
      "run-1" { Id := "run-1", TplId := "T1", EnvId := "E1" } [policyP2]
      [policyP3, policyP1] (by decide) (by decide)).1⟩

/-- C28, the code differs from the claim: user `U1` holds the org-admin role in `O1`, the
org of environment `E1`, and `SubQueryUserEnvIds` selects no environment, because it
compares the environment's org id with the ids of all projects. -/
theorem SubQueryUserEnvIds_org_admin :
    userMaySeeEnv orgAdminLookups "U1" { Id := "E1", OrgId := "O1", ProjectId := "J1" } =
        true ∧
      orgAdminLookups.UserIsSuperAdmin orgStore "U1" = false ∧
      SubQueryUserEnvIds orgAdminLookups orgStore "U1" = [] := by
  decide

/-- C29, the code differs from the claim: the read of the pipeline file succeeds with
content that decodes, and `GenerateTaskPipeline` returns the zero pipeline with a
`VcsError` error around the nil error of the read; with no pipeline file it returns the
default pipeline and no error. -/
theorem GenerateTaskPipeline_read_ok :
    pipelineRepo.ReadFileContent "main" ".cloudiac-pipeline.yml" = ("version: 0.4", none) ∧
      (pipelineEnv pipelineRepo).Decode "version: 0.4" {} = ({ Version := "0.4" }, none) ∧
      GenerateTaskPipeline (pipelineEnv pipelineRepo) {} "T1" "main" "" =
        ({}, some (PipelineErr.vcs none)) ∧
      GenerateTaskPipeline (pipelineEnv emptyRepo) {} "T1" "main" "src" =
        ({ Version := "0.2" }, none) := by
  decide

set_option maxRecDepth 4000

/-- C23, the code differs from the claim: the store holds the `aws` sequence numbers 1
and 2 and a reference id of type `awscc`, which also matches `iac_aws%` and is the
greatest by (length, reference id).  `GetPolicyReferenceId` returns `iac_aws_public_2`,
an id the store already holds, where one more than the maximum numeric suffix gives
`iac_aws_public_3`. -/
theorem GetPolicyReferenceId_shared_type :
    GetPolicyReferenceId sharedTypeStore { Id := "N", PolicyType := "aws" } =
        ("iac_aws_public_2", none) ∧
      lastByReferenceId (GetPolicyReferenceId.matching sharedTypeStore "aws") =
        some (policyWithRef "P3" "iac_awscc_public_1") ∧
      policyWithRef "P2" "iac_aws_public_2" ∈ sharedTypeStore.policies ∧
      nextReferenceId sharedTypeStore "aws" = "iac_aws_public_3" := by
  refine ⟨by decide, by decide, by decide, by decide⟩

/-- C30: when the store answers the query and every reference id matching `iac_<typ>%`
has the form `iac_<typ>_public_<k>`, `k` a positive decimal number without leading
zeros, `GetPolicyReferenceId` returns no error and a string different from the reference
id of every policy of the store; and a call on a store with the same policies, for a
policy of the same type, returns the same result. -/
theorem GetPolicyReferenceId_fresh (query : Session) (policy : Policy)
    (hQ : query.fault Query.policyReferenceId = none)
    (hW : WellFormedReferenceIds query (GetPolicyReferenceId.typ policy) = true) :
    (GetPolicyReferenceId query policy).2 = none ∧
    (∀ p ∈ query.policies, p.ReferenceId ≠ (GetPolicyReferenceId query policy).1) ∧
    (∀ (query' : Session) (policy' : Policy), query'.policies = query.policies →
      query'.fault Query.policyReferenceId = none →
      policy'.PolicyType = policy.PolicyType →
      GetPolicyReferenceId query' policy' = GetPolicyReferenceId query policy) := by
  have hfresh := generate_fresh query (GetPolicyReferenceId.typ policy) hW
  refine ⟨?_, ?_, ?_⟩
  · unfold GetPolicyReferenceId
    simp only [hQ]
    cases lastByReferenceId
      (GetPolicyReferenceId.matching query (GetPolicyReferenceId.typ policy)) <;> rfl
  · intro p hp
    have h := hfresh p hp
    unfold GetPolicyReferenceId
    simp only [hQ]
    cases hl : lastByReferenceId
      (GetPolicyReferenceId.matching query (GetPolicyReferenceId.typ policy)) with
    | none => rw [hl] at h; exact h
    | some po => rw [hl] at h; exact h
  · intro query' policy' hp hq ht
    simp only [GetPolicyReferenceId, GetPolicyReferenceId.matching,
      GetPolicyReferenceId.typ, hp, hq, ht, hQ]

/-- Instance of C30: the store holds the `aws` sequence numbers 9 and 10, and the
generated reference id is `iac_aws_public_11`, which no policy of the store has. -/
theorem GetPolicyReferenceId_fresh_witness :
    WellFormedReferenceIds sequenceStore "aws" = true ∧
      GetPolicyReferenceId sequenceStore { Id := "N", PolicyType := "aws" } =
        ("iac_aws_public_11", none) ∧
      (∀ p ∈ sequenceStore.policies,
        p.ReferenceId ≠
          (GetPolicyReferenceId sequenceStore { Id := "N", PolicyType := "aws" }).1) :=
  ⟨by decide, by decide,
    (GetPolicyReferenceId_fresh sequenceStore { Id := "N", PolicyType := "aws" } rfl
      (by decide)).2.1⟩

end Cloudiac
